import Mathlib

/-!
# Reorder filters of `src/core/reorderfilters.c`

A shallow embedding of the frame-reordering operators (Trim, AudioTrim, Splice,
AudioSplice2, Reverse, Loop, Interleave, SelectEvery, DuplicateFrames, DeleteFrames,
FreezeFrames), of the descriptor reconciliation `findCommonVi`, and the properties of their
index mappings and length arithmetic.

Conventions of the embedding:

* C `int` and `int64_t` values are `Int`; where a C operation may leave the range of its
  type the result is wrapped with `wrapInt32` / `wrapInt64`.
* C `/` and `%` are `Int.tdiv` and `Int.tmod` (truncation towards zero).
* A node handle (`VSNodeRef *`) is a `Nat`; the host's `getFrameFilter` is a parameter
  `getFrameFilter : Nat → Int → F` giving the frame of a node at an index.
* `RETERROR(msg)` is the constructor `CreateResult.error msg`.
* The integer properties read with `int64ToIntS (propGetInt ...)` enter as `Option Int`:
  `none` when the property is absent (`err` set, value `0`), otherwise the C `int` read.
-/

namespace ReorderFilters

/-! ## Machine integers -/

def INT_MAX : Int := 2147483647

def INT_MIN : Int := -2147483648

/-- The value a C `int` holds after two's complement wrap-around of the exact value `x`. -/
def wrapInt32 (x : Int) : Int := (x + 2147483648) % 4294967296 - 2147483648

/-- The value an `int64_t` holds after two's complement wrap-around of the exact value `x`. -/
def wrapInt64 (x : Int) : Int :=
  (x + 9223372036854775808) % 18446744073709551616 - 9223372036854775808

/-- Membership in the range of a C `int`. -/
def IsInt32 (x : Int) : Prop := INT_MIN ≤ x ∧ x ≤ INT_MAX

instance (x : Int) : Decidable (IsInt32 x) := by
  unfold IsInt32
  infer_instance

/-! ## Shared data model -/

/-- The fields of `VSVideoInfo` the filters read; `format` is the format pointer, `0` when null. -/
structure VSVideoInfo where
  format : Int
  fpsNum : Int
  fpsDen : Int
  width : Int
  height : Int
  numFrames : Int
deriving DecidableEq, Repr

/-- The `activationReason` argument of a frame function. -/
inductive ActivationReason
  | arInitial
  | arAllFramesReady
  | arError
deriving DecidableEq, Repr

/-- What one invocation of a frame function does: in phase one the `requestFrameFilter` calls it
issued, as (node, frame index) in call order, before `return 0`; in phase two the frame it
returns; `null` for a plain `return 0`; `fault` for a failed `assert` or a copy outside a
buffer. -/
inductive FrameResult (F : Type)
  | requested (reqs : List (Nat × Int))
  | frame (f : F)
  | null
  | fault
deriving DecidableEq, Repr

/-- What a filter constructor leaves in `out`: an error message (with the node handles freed
before reporting it), the upstream node itself, or a new filter with its instance data. -/
inductive CreateResult (D : Type)
  | error (msg : String) (freed : List Nat)
  | passthrough (node : Nat)
  | filter (d : D)
deriving DecidableEq, Repr

/-- Mismatch causes: `DifferentDimensions = 1`, `DifferentFormats`, `DifferentFrameRates`,
`DifferentLengths`. -/
def DifferentDimensions : Int := 1

def DifferentFormats : Int := 2

def DifferentFrameRates : Int := 3

def DifferentLengths : Int := 4

/-- One iteration of the loop of `findCommonVi` over `nodes[i]`, `i ≥ 1`. -/
def findCommonViStep (ignorelength : Bool) (acc : Int × VSVideoInfo) (vi : VSVideoInfo) :
    Int × VSVideoInfo :=
  let mismatch := acc.1
  let outvi := acc.2
  let (mismatch, outvi) :=
    if outvi.width ≠ vi.width ∨ outvi.height ≠ vi.height then
      (DifferentDimensions, { outvi with width := 0, height := 0 })
    else (mismatch, outvi)
  let (mismatch, outvi) :=
    if outvi.format ≠ vi.format then (DifferentFormats, { outvi with format := 0 })
    else (mismatch, outvi)
  let (mismatch, outvi) :=
    if outvi.fpsNum ≠ vi.fpsNum ∨ outvi.fpsDen ≠ vi.fpsDen then
      (DifferentFrameRates, { outvi with fpsDen := 0, fpsNum := 0 })
    else (mismatch, outvi)
  if outvi.numFrames < vi.numFrames then
    (if ignorelength then mismatch else DifferentLengths, { outvi with numFrames := vi.numFrames })
  else (mismatch, outvi)

/-- The function `findCommonVi`: the mismatch cause and the merged descriptor `*outvi` of the
descriptors of `nodes[0..num)`. -/
def findCommonVi (vis : List VSVideoInfo) (ignorelength : Bool) : Int × VSVideoInfo :=
  match vis with
  | [] => (0, ⟨0, 0, 0, 0, 0, 0⟩)
  | vi0 :: rest => rest.foldl (findCommonViStep ignorelength) (0, vi0)

/-! ## Trim -/

/-- Instance data `TrimData`. -/
structure TrimData where
  node : Nat
  first : Int
deriving DecidableEq, Repr

/-- The properties `first`, `last`, `length` of a Trim or AudioTrim call, each a C `int`
(the result of `int64ToIntS`) when present. -/
structure TrimArgs where
  first : Option Int
  last : Option Int
  length : Option Int
deriving DecidableEq, Repr

/-- The frame function `trimGetframe`. -/
def trimGetframe {F : Type} (getFrameFilter : Nat → Int → F) (d : TrimData) (n : Int) :
    ActivationReason → FrameResult F
  | .arInitial => .requested [(d.node, wrapInt32 (n + d.first))]
  | .arAllFramesReady => .frame (getFrameFilter d.node (wrapInt32 (n + d.first)))
  | _ => .null

/-- The constructor `trimCreate` on the upstream node `node` with descriptor `vi`. -/
def trimCreate (args : TrimArgs) (node : Nat) (vi : VSVideoInfo) :
    CreateResult (TrimData × VSVideoInfo) :=
  let first := args.first.getD 0
  let firstset := args.first.isSome
  let last := args.last.getD 0
  let lastset := args.last.isSome
  let length := args.length.getD 0
  let lengthset := args.length.isSome
  if lastset = true ∧ lengthset = true then
    .error "Trim: both last frame and length specified" []
  else if lastset = true ∧ last < first then
    .error "Trim: invalid last frame specified (last is less than first)" []
  else if lengthset = true ∧ length < 1 then
    .error "Trim: invalid length specified (less than 1)" []
  else if first < 0 then
    .error "Trim: invalid first frame specified (less than 0)" []
  else if (lastset = true ∧ last ≥ vi.numFrames)
      ∨ (lengthset = true ∧ wrapInt32 (first + length) > vi.numFrames)
      ∨ vi.numFrames ≤ first then
    .error "Trim: last frame beyond clip end" [node]
  else
    let trimlen :=
      if lastset = true then wrapInt32 (wrapInt32 (last - first) + 1)
      else if lengthset = true then length
      else wrapInt32 (vi.numFrames - first)
    if (firstset = false ∧ lastset = false ∧ lengthset = false)
        ∨ (trimlen ≠ 0 ∧ trimlen = vi.numFrames) then
      .passthrough node
    else
      .filter ({ node := node, first := first }, { vi with numFrames := trimlen })

/-- The clip found in `out` after `trimCreate`: its frame count and the frame it delivers for
index `n` (phase two); the upstream clip itself after a pass-through. -/
def trimOutClip {F : Type} (getFrameFilter : Nat → Int → F) (vi : VSVideoInfo) :
    CreateResult (TrimData × VSVideoInfo) → Option (Int × (Int → FrameResult F))
  | .error _ _ => none
  | .passthrough node => some (vi.numFrames, fun n => .frame (getFrameFilter node n))
  | .filter (d, vi') =>
      some (vi'.numFrames, fun n => trimGetframe getFrameFilter d n .arAllFramesReady)

/-! ## Splice -/

/-- Instance data `SpliceData`. -/
structure SpliceData where
  node : List Nat
  numframes : List Int
  numclips : Int
deriving DecidableEq, Repr

/-- Per-frame context `SpliceCtx` kept in `*frameData` between the two phases. -/
structure SpliceCtx where
  f : Int
  idx : Int
deriving DecidableEq, Repr

/-- The search loop of `spliceGetframe`, entered at index `i` with running total `cumframe` and
the remaining entries `d->numframes[i..]`; yields `(idx, frame)`, which stay `(0, 0)` when the
loop ends without `break`. -/
def spliceSearch (numclips n : Int) : List Int → Int → Int → Int × Int
  | [], _, _ => (0, 0)
  | len :: rest, i, cumframe =>
      if (n ≥ cumframe ∧ n < wrapInt32 (cumframe + len)) ∨ i = numclips - 1 then
        (i, wrapInt32 (n - cumframe))
      else spliceSearch numclips n rest (i + 1) (wrapInt32 (cumframe + len))

/-- The frame function `spliceGetframe`: the result together with the new `*frameData`. -/
def spliceGetframe {F : Type} (getFrameFilter : Nat → Int → F) (d : SpliceData) (n : Int)
    (frameData : Option SpliceCtx) : ActivationReason → FrameResult F × Option SpliceCtx
  | .arInitial =>
      let r := spliceSearch d.numclips n d.numframes 0 0
      let s : SpliceCtx := { f := r.2, idx := r.1 }
      (.requested [(d.node.getD s.idx.toNat 0, s.f)], some s)
  | .arAllFramesReady =>
      match frameData with
      | some s => (.frame (getFrameFilter (d.node.getD s.idx.toNat 0) s.f), none)
      | none => (.fault, none)
  | _ => (.null, frameData)

/-- The clean-up loop of the overflow branch of `spliceCreate`,
`for (int j = 0; j < d.numclips; i++) vsapi->freeNode(d.node[j]);`
run for at most `fuel` iterations: the handles freed, or `none` when it is still running. -/
def spliceOverflowCleanup (node : List Nat) (numclips : Int) :
    Nat → Int → Int → List Nat → Option (List Nat)
  | 0, _, _, _ => none
  | fuel + 1, i, j, freed =>
      if j < numclips then
        spliceOverflowCleanup node numclips fuel (wrapInt32 (i + 1)) j
          (freed ++ [node.getD j.toNat 0])
      else some freed

/-- The summing loop of `spliceCreate` over `d.numframes[i..]` with `vi.numFrames = acc`:
the final `vi.numFrames`, or `none` when the check `vi.numFrames < d.numframes[i]` fires. -/
def spliceSum : List Int → Int → Option Int
  | [], acc => some acc
  | nf :: rest, acc =>
      let acc' := wrapInt32 (acc + nf)
      if acc' < nf then none else spliceSum rest acc'

/-- The error branch of `spliceCreate` after a mismatch: the message for the cause, `none` when
no `RETERROR` of the chain applies. -/
def spliceMismatchMessage (mismatchCause : Int) : Option String :=
  if mismatchCause = DifferentDimensions then some "Splice: the clips' dimensions don't match"
  else if mismatchCause = DifferentFormats then some "Splice: the clips' formats don't match"
  else if mismatchCause = DifferentFrameRates then
    some "Splice: the clips' frame rates don't match"
  else if mismatchCause = DifferentLengths then some "Splice: the clips' lengths don't match"
  else none

/-- The constructor `spliceCreate` on the clips with descriptors `vis` (clip `i` has the handle
`i`); `isCompatFormat` and `isSameFormat` are the helpers of `filtershared.h`. The result is
`none` when the clean-up loop of the overflow branch has not ended after `fuel` iterations. -/
def spliceCreate (isCompatFormat : VSVideoInfo → Bool)
    (isSameFormat : VSVideoInfo → VSVideoInfo → Bool) (fuel : Nat)
    (vis : List VSVideoInfo) (mismatch : Bool) :
    Option (CreateResult (SpliceData × VSVideoInfo)) :=
  let numclips : Int := vis.length
  if numclips = 1 then some (.passthrough 0)
  else
    let node := List.range vis.length
    let compat := vis.any isCompatFormat
    let (mismatchCause, vi) := findCommonVi vis true
    let mismatchError :=
      if mismatchCause ≠ 0 ∧ (mismatch = false ∨ compat = true)
          ∧ isSameFormat vi (vis.headD vi) = false then
        spliceMismatchMessage mismatchCause
      else none
    match mismatchError with
    | some msg => some (.error msg node)
    | none =>
        let numframes := vis.map (fun v => v.numFrames)
        match spliceSum numframes 0 with
        | none =>
            match spliceOverflowCleanup node numclips fuel 0 0 [] with
            | none => none
            | some freed => some (.error "Splice: the resulting clip is too long" freed)
        | some total =>
            some (.filter ({ node := node, numframes := numframes, numclips := numclips },
              { vi with numFrames := total }))

/-! ## Audio data model -/

/-- The fields of `VSAudioFormat` the filters read. -/
structure VSAudioFormat where
  bytesPerSample : Int
  samplesPerFrame : Int
  numChannels : Int
deriving DecidableEq, Repr

/-- The fields of `VSAudioInfo` the filters read. -/
structure VSAudioInfo where
  format : VSAudioFormat
  sampleRate : Int
  numSamples : Int
  numFrames : Int
deriving DecidableEq, Repr

/-- An audio frame: its length in samples (`getFrameLength`) and one sample buffer per channel
(`getReadPtr (f, channel)` / `getWritePtr (f, channel)`). Buffers are indexed in samples, so
the byte offsets and byte counts of the source are the sample counts here times
`bytesPerSample`. -/
structure AudioFrame (α : Type) where
  length : Int
  data : List (List α)
deriving DecidableEq, Repr

/-- Sample `j` of channel `c` of a frame. -/
def AudioFrame.sample {α : Type} (f : AudioFrame α) (c j : Nat) : Option α :=
  (f.data[c]?).bind (fun buf => buf[j]?)

/-- Modelled from the spec: the host's `newAudioFrame (format, length, templateFrame)`, which is
not in this file. It allocates "a buffer holding up to samplesPerFrame samples per channel, with
an actual length ≤ capacity"; the buffers are uninitialised, here filled with `junk`. -/
def newAudioFrame {α : Type} (format : VSAudioFormat) (length : Int) (junk : α) :
    AudioFrame α :=
  { length := length
    data := List.replicate format.numChannels.toNat
      (List.replicate format.samplesPerFrame.toNat junk) }

/-- The call `memcpy (dst + doff, src + soff, len)` on sample buffers: the new content of `dst`,
or `none` when the count is negative or the copy leaves one of the two buffers. -/
def memcpy {α : Type} (dst : List α) (doff : Int) (src : List α) (soff len : Int) :
    Option (List α) :=
  if 0 ≤ len ∧ 0 ≤ doff ∧ 0 ≤ soff ∧ doff + len ≤ dst.length ∧ soff + len ≤ src.length then
    some (dst.take doff.toNat ++ (src.drop soff.toNat).take len.toNat
      ++ dst.drop (doff.toNat + len.toNat))
  else none

/-- The new buffers of the channels `cs`, in order; `none` as soon as one channel fails. -/
def channelLoop {α : Type} (body : Nat → Option (List α)) : List Nat → Option (List (List α))
  | [] => some []
  | c :: cs =>
      match body c, channelLoop body cs with
      | some b, some bs => some (b :: bs)
      | _, _ => none

/-- The loop `for (int channel = 0; channel < numChannels; channel++)` over a frame being
written: `body channel buf` is the new content of the buffer `buf` of that channel. -/
def forEachChannel {α : Type} (numChannels : Int) (f : AudioFrame α)
    (body : Nat → List α → Option (List α)) : Option (AudioFrame α) :=
  match channelLoop (fun c => (f.data[c]?).bind (body c)) (List.range numChannels.toNat) with
  | some data => some { f with data := data ++ f.data.drop numChannels.toNat }
  | none => none

/-- The frame a phase-two invocation returns after its copies, `fault` when a copy failed. -/
def FrameResult.ofOption {F : Type} : Option F → FrameResult F
  | some f => .frame f
  | none => .fault

/-! ## AudioTrim -/

/-- Instance data `AudioTrimData`. -/
structure AudioTrimData where
  node : Nat
  ai : VSAudioInfo
  first : Int
deriving DecidableEq, Repr

/-- The frame function `audioTrimGetframe`. -/
def audioTrimGetframe {α : Type} (getFrameFilter : Nat → Int → AudioFrame α) (junk : α)
    (d : AudioTrimData) (n : Int) (activationReason : ActivationReason) :
    FrameResult (AudioFrame α) :=
  let spf := d.ai.format.samplesPerFrame
  let startSample := n * spf + d.first
  let startFrame := wrapInt32 (startSample.tdiv spf)
  let length := wrapInt32 (min (d.ai.numSamples - n * spf) spf)
  if startSample.tmod spf = 0 ∧ n ≠ d.ai.numFrames - 1 then
    match activationReason with
    | .arInitial => .requested [(d.node, startFrame)]
    | .arAllFramesReady =>
        let src := getFrameFilter d.node startFrame
        if length = src.length then .frame src
        else
          let dst := newAudioFrame d.ai.format length junk
          .ofOption (forEachChannel d.ai.format.numChannels dst (fun channel w =>
            (src.data[channel]?).bind (fun r => memcpy w 0 r 0 length)))
    | _ => .null
  else
    let numSrc1Samples := wrapInt32 (spf - startSample.tmod spf)
    match activationReason with
    | .arInitial =>
        .requested ((d.node, startFrame) ::
          (if numSrc1Samples < length then [(d.node, wrapInt32 (startFrame + 1))] else []))
    | .arAllFramesReady =>
        let src1 := getFrameFilter d.node startFrame
        let dst := newAudioFrame d.ai.format length junk
        let dst1 := forEachChannel d.ai.format.numChannels dst (fun channel w =>
          (src1.data[channel]?).bind (fun r =>
            memcpy w 0 r (spf - numSrc1Samples) numSrc1Samples))
        if length > numSrc1Samples then
          let src2 := getFrameFilter d.node (wrapInt32 (startFrame + 1))
          .ofOption (dst1.bind (fun dst' =>
            forEachChannel d.ai.format.numChannels dst' (fun channel w =>
              (src2.data[channel]?).bind (fun r =>
                memcpy w numSrc1Samples r 0 (length - numSrc1Samples)))))
        else .ofOption dst1
    | _ => .null

/-- The constructor `audioTrimCreate` on the upstream node `node` with descriptor `ai`. The
instance data keeps the upstream descriptor with `numSamples` replaced by the trimmed count;
its `numFrames` is left as read from upstream. -/
def audioTrimCreate (args : TrimArgs) (node : Nat) (ai : VSAudioInfo) :
    CreateResult AudioTrimData :=
  let first := args.first.getD 0
  let firstset := args.first.isSome
  let last := args.last.getD 0
  let lastset := args.last.isSome
  let length := args.length.getD 0
  let lengthset := args.length.isSome
  if lastset = true ∧ lengthset = true then
    .error "AudioTrim: both last sample and length specified" []
  else if lastset = true ∧ last < first then
    .error "AudioTrim: invalid last sample specified (last is less than first)" []
  else if lengthset = true ∧ length < 1 then
    .error "AudioTrim: invalid length specified (less than 1)" []
  else if first < 0 then
    .error "Trim: invalid first frame specified (less than 0)" []
  else if (lastset = true ∧ last ≥ ai.numSamples)
      ∨ (lengthset = true ∧ first + length > ai.numSamples)
      ∨ ai.numSamples ≤ first then
    .error "AudioTrim: last sample beyond clip end" [node]
  else
    let trimlen :=
      if lastset = true then last - first + 1
      else if lengthset = true then length
      else ai.numSamples - first
    if (firstset = false ∧ lastset = false ∧ lengthset = false)
        ∨ (trimlen ≠ 0 ∧ trimlen = ai.numSamples) then
      .passthrough node
    else
      .filter { node := node, ai := { ai with numSamples := trimlen }, first := first }

/-! ## AudioSplice2 -/

/-- Instance data `AudioSplice2Data`. -/
structure AudioSplice2Data where
  ai : VSAudioInfo
  node1 : Nat
  node2 : Nat
  numFrames1 : Int
  numSamples1 : Int
  numSamples2 : Int
deriving DecidableEq, Repr

/-- The frame function handed to `createAudioFilter` by `audioSplice2Create`. -/
inductive AudioSplice2Fn
  | stitching
  | passthroughFn
deriving DecidableEq, Repr

/-- The frame function `audioSplice2PassthroughGetframe`. -/
def audioSplice2PassthroughGetframe {F : Type} (getFrameFilter : Nat → Int → F)
    (d : AudioSplice2Data) (n : Int) : ActivationReason → FrameResult F
  | .arInitial =>
      if n < d.numFrames1 then .requested [(d.node1, n)]
      else .requested [(d.node2, wrapInt32 (n - d.numFrames1))]
  | .arAllFramesReady =>
      if n < d.numFrames1 then .frame (getFrameFilter d.node1 n)
      else .frame (getFrameFilter d.node2 (wrapInt32 (n - d.numFrames1)))
  | _ => .null

/-- The value `samplesOut` of `audioSplice2Getframe`. -/
def audioSplice2SamplesOut (d : AudioSplice2Data) (n : Int) : Int :=
  wrapInt32 (min d.ai.format.samplesPerFrame (d.ai.numSamples - n * d.ai.format.samplesPerFrame))

/-- The pair `(f1copy, f2copy)` of the seam branch (`n == d->numFrames1 - 1`) of
`audioSplice2Getframe`, in samples, for a first frame of length `f1Length`. -/
def audioSplice2SeamCopy (d : AudioSplice2Data) (n f1Length : Int) : Int × Int :=
  let samplesOut := audioSplice2SamplesOut d n
  let f1copy := min samplesOut f1Length
  (f1copy, wrapInt32 (samplesOut - f1copy))

/-- The value `f1offset` of `audioSplice2Getframe`, in samples. -/
def audioSplice2F1offset (d : AudioSplice2Data) : Int :=
  wrapInt32 (d.ai.format.samplesPerFrame
    - (d.numSamples1 - 1).tmod d.ai.format.samplesPerFrame - 1)

/-- The pair `(f1copy, f2copy)` of the branch after the seam of `audioSplice2Getframe`, in
samples, for a first frame of length `f1Length`. -/
def audioSplice2TailCopy (d : AudioSplice2Data) (n f1Length : Int) : Int × Int :=
  let samplesOut := audioSplice2SamplesOut d n
  let f1copy := min samplesOut (wrapInt32 (f1Length - audioSplice2F1offset d))
  (f1copy, wrapInt32 (samplesOut - f1copy))

/-- The frame function `audioSplice2Getframe`. -/
def audioSplice2Getframe {α : Type} (getFrameFilter : Nat → Int → AudioFrame α) (junk : α)
    (d : AudioSplice2Data) (n : Int) : ActivationReason → FrameResult (AudioFrame α)
  | .arInitial =>
      if n < d.numFrames1 - 1 then .requested [(d.node1, n)]
      else if n = d.numFrames1 - 1 then .requested [(d.node1, n), (d.node2, 0)]
      else .requested [(d.node2, wrapInt32 (n - d.numFrames1)),
        (d.node2, wrapInt32 (wrapInt32 (n - d.numFrames1) + 1))]
  | .arAllFramesReady =>
      if n < d.numFrames1 - 1 then .frame (getFrameFilter d.node1 n)
      else
        let f1 := if n = d.numFrames1 - 1 then getFrameFilter d.node1 n
          else getFrameFilter d.node2 (wrapInt32 (n - d.numFrames1))
        let f2 := if n = d.numFrames1 - 1 then getFrameFilter d.node2 0
          else getFrameFilter d.node2 (wrapInt32 (wrapInt32 (n - d.numFrames1) + 1))
        let samplesOut := audioSplice2SamplesOut d n
        let f := newAudioFrame d.ai.format samplesOut junk
        if n = d.numFrames1 - 1 then
          let (f1copy, f2copy) := audioSplice2SeamCopy d n f1.length
          .ofOption (forEachChannel d.ai.format.numChannels f (fun channel w =>
            (f1.data[channel]?).bind (fun r1 =>
              (memcpy w 0 r1 0 f1copy).bind (fun w' =>
                (f2.data[channel]?).bind (fun r2 => memcpy w' f1copy r2 0 f2copy)))))
        else
          let f1offset := audioSplice2F1offset d
          let (f1copy, f2copy) := audioSplice2TailCopy d n f1.length
          if f1copy > 0 ∧ (f2copy > 0 ∨ (f2copy ≥ 0 ∧ n = d.ai.numFrames - 1)) then
            .ofOption (forEachChannel d.ai.format.numChannels f (fun channel w =>
              (f1.data[channel]?).bind (fun r1 =>
                (memcpy w 0 r1 f1offset f1copy).bind (fun w' =>
                  (f2.data[channel]?).bind (fun r2 => memcpy w' f1copy r2 0 f2copy)))))
          else .fault
  | _ => .null

/-- The constructor `audioSplice2Create` on the nodes `node1`, `node2` with descriptors `ai1`,
`ai2`; `isSameAudioFormat` is the helper of `filtershared.h`. The new filter comes with the
frame function chosen for it. -/
def audioSplice2Create (isSameAudioFormat : VSAudioInfo → VSAudioInfo → Bool)
    (node1 node2 : Nat) (ai1 ai2 : VSAudioInfo) :
    CreateResult (AudioSplice2Data × AudioSplice2Fn) :=
  let numFrames1 := ai1.numFrames
  let numSamples1 := ai1.numSamples
  let numSamples2 := ai2.numSamples
  if isSameAudioFormat ai1 ai2 = false then
    .error "AudioSplice2: format mismatch" [node1, node2]
  else
    let numSamples := wrapInt64 (ai1.numSamples + numSamples2)
    let numFrames := wrapInt32
      ((wrapInt64 (wrapInt64 (numSamples + ai1.format.samplesPerFrame) - 1)).tdiv
        ai1.format.samplesPerFrame)
    let ai : VSAudioInfo := { ai1 with numSamples := numSamples, numFrames := numFrames }
    if numSamples < numSamples1 ∨ numSamples < numSamples2 then
      .error "AudioSplice2: the resulting clip is too long" [node1, node2]
    else
      .filter ({ ai := ai, node1 := node1, node2 := node2, numFrames1 := numFrames1,
                 numSamples1 := numSamples1, numSamples2 := numSamples2 },
        if numSamples1.tmod ai.format.samplesPerFrame ≠ 0 then .stitching else .passthroughFn)

/-! ## Well-formed upstream audio clips -/

/-- The frames `node i` are the chunks of `samplesPerFrame` samples of the per-channel streams
`stream c`, each of `S` samples: every frame the host hands out has one buffer of capacity
`samplesPerFrame` per channel; frame `i` of the clip has length
`min (samplesPerFrame, S - i * samplesPerFrame)` and its first `length` samples are the samples
`i * samplesPerFrame + j` of the stream. Of a frame fetched past the end of the clip nothing
else is assumed. -/
structure IsAudioClip {α : Type} (fmt : VSAudioFormat) (S : Int) (stream : Nat → List α)
    (node : Int → AudioFrame α) : Prop where
  length_stream : ∀ c : Nat, (c : Int) < fmt.numChannels → ((stream c).length : Int) = S
  capacity : ∀ (i : Int) (c : Nat), (c : Int) < fmt.numChannels →
    ∃ buf, (node i).data[c]? = some buf ∧ (buf.length : Int) = fmt.samplesPerFrame
  length_frame : ∀ i : Int, 0 ≤ i → i * fmt.samplesPerFrame < S →
    (node i).length = min fmt.samplesPerFrame (S - i * fmt.samplesPerFrame)
  samples : ∀ i : Int, 0 ≤ i → i * fmt.samplesPerFrame < S →
    ∀ c : Nat, (c : Int) < fmt.numChannels → ∀ j : Nat, (j : Int) < (node i).length →
      (node i).sample c j = (stream c)[(i * fmt.samplesPerFrame).toNat + j]?

/-- The upstream clip that holds the streams `stream c` in frames of `samplesPerFrame` samples;
the unused tail of a buffer is `junk`. -/
def chunkedClip {α : Type} (fmt : VSAudioFormat) (S : Int) (junk : α) (stream : Nat → List α)
    (i : Int) : AudioFrame α :=
  { length := min fmt.samplesPerFrame (S - i * fmt.samplesPerFrame)
    data := (List.range fmt.numChannels.toNat).map (fun c =>
      let chunk := ((stream c).drop (i * fmt.samplesPerFrame).toNat).take
        fmt.samplesPerFrame.toNat
      chunk ++ List.replicate (fmt.samplesPerFrame.toNat - chunk.length) junk) }

/-! ## Example clips -/

/-- A two-channel format with frames of four samples. -/
def exampleFormat : VSAudioFormat := { bytesPerSample := 2, samplesPerFrame := 4, numChannels := 2 }

/-- Six samples per channel: 10 … 15 in channel 0, 110 … 115 in channel 1. -/
def exampleStream1 (c : Nat) : List Int :=
  (List.range 6).map (fun (k : Nat) => 100 * (c : Int) + 10 + (k : Int))

/-- Five samples per channel: 20 … 24 in channel 0, 120 … 124 in channel 1. -/
def exampleStream2 (c : Nat) : List Int :=
  (List.range 5).map (fun (k : Nat) => 100 * (c : Int) + 20 + (k : Int))

/-- A host with two audio nodes: node 0 holds `exampleStream1`, every other node
`exampleStream2`, in frames of `exampleFormat`. -/
def exampleHost : Nat → Int → AudioFrame Int
  | 0, i => chunkedClip exampleFormat 6 0 exampleStream1 i
  | _, i => chunkedClip exampleFormat 5 0 exampleStream2 i

/-- A two-channel format with frames of three samples. -/
def exampleFormat3 : VSAudioFormat :=
  { bytesPerSample := 2, samplesPerFrame := 3, numChannels := 2 }

/-- The host of `exampleHost` with the streams cut in frames of `exampleFormat3`. -/
def exampleHost3 : Nat → Int → AudioFrame Int
  | 0, i => chunkedClip exampleFormat3 6 0 exampleStream1 i
  | _, i => chunkedClip exampleFormat3 5 0 exampleStream2 i

/-! ## Loop -/

/-- Instance data `LoopData`. -/
structure LoopData where
  node : Nat
  vi : VSVideoInfo
  numFramesIn : Int
deriving DecidableEq, Repr

/-- The frame function `loopGetframe`; the remainder by `numFramesIn = 0` is a `fault`. -/
def loopGetframe {F : Type} (getFrameFilter : Nat → Int → F) (d : LoopData) (n : Int) :
    ActivationReason → FrameResult F
  | .arInitial =>
      if d.numFramesIn = 0 then .fault
      else .requested [(d.node, n.tmod d.numFramesIn)]
  | .arAllFramesReady =>
      if d.numFramesIn = 0 then .fault
      else .frame (getFrameFilter d.node (n.tmod d.numFramesIn))
  | _ => .null

/-- The constructor `loopCreate` on the upstream node `node` with descriptor `vi`; `times` is the
property `times` when present (absent reads as `0`). -/
def loopCreate (times : Option Int) (node : Nat) (vi : VSVideoInfo) : CreateResult LoopData :=
  let times := times.getD 0
  if times < 0 then
    .error "Loop: cannot repeat clip a negative number of times" []
  else if times = 1 then
    .passthrough node
  else if times > 0 then
    if vi.numFrames > INT_MAX.tdiv times then
      .error "Loop: resulting clip is too long" [node]
    else
      .filter { node := node, vi := { vi with numFrames := wrapInt32 (vi.numFrames * times) },
                numFramesIn := vi.numFrames }
  else
    .filter { node := node, vi := { vi with numFrames := INT_MAX },
              numFramesIn := vi.numFrames }

/-- The clip found in `out` after `loopCreate`: its frame count and the frame it delivers for
index `n` (phase two); the upstream clip itself after a pass-through. -/
def loopOutClip {F : Type} (getFrameFilter : Nat → Int → F) (vi : VSVideoInfo) :
    CreateResult LoopData → Option (Int × (Int → FrameResult F))
  | .error _ _ => none
  | .passthrough node => some (vi.numFrames, fun n => .frame (getFrameFilter node n))
  | .filter d => some (d.vi.numFrames, fun n => loopGetframe getFrameFilter d n .arAllFramesReady)

/-! ## Interleave -/

/-- Instance data `InterleaveData`. -/
structure InterleaveData where
  node : List Nat
  vi : VSVideoInfo
  numclips : Int
  modifyDuration : Bool
deriving DecidableEq, Repr

/-- The frame function `interleaveGetframe`. With `modifyDuration` the frame returned is the copy
of the source whose duration properties went through `muldivRational (1, numclips)`, here
`scaleDuration 1 numclips src`. -/
def interleaveGetframe {F : Type} (getFrameFilter : Nat → Int → F)
    (scaleDuration : Int → Int → F → F) (d : InterleaveData) (n : Int) :
    ActivationReason → FrameResult F
  | .arInitial =>
      if d.numclips = 0 then .fault
      else .requested [(d.node.getD (n.tmod d.numclips).toNat 0, n.tdiv d.numclips)]
  | .arAllFramesReady =>
      if d.numclips = 0 then .fault
      else
        let src := getFrameFilter (d.node.getD (n.tmod d.numclips).toNat 0) (n.tdiv d.numclips)
        if d.modifyDuration = true then .frame (scaleDuration 1 d.numclips src)
        else .frame src
  | _ => .null

/-- The error branch of `interleaveCreate` after a mismatch: the message for the cause, `none`
when no `RETERROR` of the chain applies. -/
def interleaveMismatchMessage (mismatchCause : Int) : Option String :=
  if mismatchCause = DifferentDimensions then
    some "Interleave: the clips' dimensions don't match"
  else if mismatchCause = DifferentFormats then some "Interleave: the clips' formats don't match"
  else if mismatchCause = DifferentFrameRates then
    some "Interleave: the clips' frame rates don't match"
  else if mismatchCause = DifferentLengths then some "Interleave: the clips' lengths don't match"
  else none

/-- The loop of the branch without `extend` of `interleaveCreate`, entered at clip `i` with the
current `(overflow, d.vi.numFrames)` and the frame counts of the clips `i, i + 1, …`. -/
def interleaveLengthLoop (numclips : Int) : List Int → Int → Bool × Int → Bool × Int
  | [], _, acc => acc
  | nf :: rest, i, (overflow, numFrames) =>
      let overflow' :=
        if nf > (wrapInt32 (wrapInt32 (INT_MAX - i) - 1)).tdiv numclips + 1 then true
        else overflow
      let candidate :=
        wrapInt32 (wrapInt32 (wrapInt32 (wrapInt32 (nf - 1) * numclips) + i) + 1)
      interleaveLengthLoop numclips rest (i + 1) (overflow', max numFrames candidate)

/-- The constructor `interleaveCreate` on the clips with descriptors `vis` (clip `i` has the
handle `i`); `modifyDuration` is the property `modify_duration` when present, `isCompatFormat`
and `muldivRational` are the helpers of `filtershared.h`. -/
def interleaveCreate (isCompatFormat : VSVideoInfo → Bool)
    (muldivRational : Int → Int → Int → Int → Int × Int)
    (vis : List VSVideoInfo) (mismatch extend : Bool) (modifyDuration : Option Bool) :
    CreateResult InterleaveData :=
  let modifyDuration := modifyDuration.getD true
  let numclips : Int := vis.length
  if numclips = 1 then .passthrough 0
  else
    let node := List.range vis.length
    let compat := vis.any isCompatFormat
    let (mismatchCause, vi) := findCommonVi vis true
    let mismatchError :=
      if mismatchCause ≠ 0 ∧ (mismatch = false ∨ compat = true) then
        interleaveMismatchMessage mismatchCause
      else none
    match mismatchError with
    | some msg => .error msg node
    | none =>
        let (overflow, numFrames) :=
          if extend = true then
            (decide (vi.numFrames > INT_MAX.tdiv numclips), wrapInt32 (vi.numFrames * numclips))
          else if vi.numFrames ≠ 0 then
            interleaveLengthLoop numclips (vis.map (fun v => v.numFrames)) 0
              (false, wrapInt32 (wrapInt32 (wrapInt32 ((vis.headD vi).numFrames - 1) * numclips) + 1))
          else (false, vi.numFrames)
        if overflow = true then .error "Interleave: resulting clip is too long" node
        else
          let fps :=
            if modifyDuration = true then muldivRational vi.fpsNum vi.fpsDen numclips 1
            else (vi.fpsNum, vi.fpsDen)
          .filter { node := node
                    vi := { vi with numFrames := numFrames, fpsNum := fps.1, fpsDen := fps.2 }
                    numclips := numclips
                    modifyDuration := modifyDuration }

/-! ## SelectEvery -/

/-- Instance data `SelectEveryData`. -/
structure SelectEveryData where
  node : Nat
  vi : VSVideoInfo
  cycle : Int
  offsets : List Int
  num : Int
  modifyDuration : Bool
deriving DecidableEq, Repr

/-- The frame function `selectEveryGetframe`: the result together with the new `*frameData`,
the upstream index computed in phase one. With `modifyDuration` the frame returned is the copy
of the source whose duration properties went through `muldivRational (cycle, num)`. -/
def selectEveryGetframe {F : Type} (getFrameFilter : Nat → Int → F)
    (scaleDuration : Int → Int → F → F) (d : SelectEveryData) (n : Int)
    (frameData : Option Int) : ActivationReason → FrameResult F × Option Int
  | .arInitial =>
      if d.num = 0 then (.fault, frameData)
      else
        let idx := wrapInt32 (wrapInt32 (n.tdiv d.num * d.cycle)
          + d.offsets.getD (n.tmod d.num).toNat 0)
        (.requested [(d.node, idx)], some idx)
  | .arAllFramesReady =>
      match frameData with
      | some idx =>
          let src := getFrameFilter d.node idx
          if d.modifyDuration = true then (.frame (scaleDuration d.cycle d.num src), frameData)
          else (.frame src, frameData)
      | none => (.fault, frameData)
  | _ => (.null, frameData)

/-- The counting loop of `selectEveryCreate`: `d.vi.numFrames` after
`for (i …) if (d.offsets[i] < inputnframes % d.cycle) d.vi.numFrames++`. -/
def selectEveryCount (remainder : Int) : List Int → Int → Int
  | [], numFrames => numFrames
  | o :: rest, numFrames =>
      selectEveryCount remainder rest
        (if o < remainder then wrapInt32 (numFrames + 1) else numFrames)

/-- The constructor `selectEveryCreate` on the upstream node `node` with descriptor `vi`;
`modifyDuration` is the property `modify_duration` when present, `muldivRational` the helper of
`filtershared.h`. -/
def selectEveryCreate (muldivRational : Int → Int → Int → Int → Int × Int)
    (cycle : Int) (offsets : List Int) (modifyDuration : Option Bool) (node : Nat)
    (vi : VSVideoInfo) : CreateResult SelectEveryData :=
  if cycle ≤ 1 then
    .error "SelectEvery: invalid cycle size (must be greater than 1)" []
  else
    let num : Int := offsets.length
    let modifyDuration := modifyDuration.getD true
    if offsets.any (fun o => decide (o < 0 ∨ o ≥ cycle)) = true then
      .error "SelectEvery: invalid offset specified" []
    else
      let inputnframes := vi.numFrames
      let numFrames :=
        if inputnframes ≠ 0 then
          selectEveryCount (inputnframes.tmod cycle) offsets
            (wrapInt32 (inputnframes.tdiv cycle * num))
        else vi.numFrames
      if numFrames = 0 then
        .error "SelectEvery: no frames to output, all offsets outside available frames" [node]
      else
        let fps :=
          if modifyDuration = true then muldivRational vi.fpsNum vi.fpsDen num cycle
          else (vi.fpsNum, vi.fpsDen)
        .filter { node := node
                  vi := { vi with numFrames := numFrames, fpsNum := fps.1, fpsDen := fps.2 }
                  cycle := cycle
                  offsets := offsets
                  num := num
                  modifyDuration := modifyDuration }

/-! ## DeleteFrames -/

/-- The comparator `compareInts`. -/
def compareInts (arg1 arg2 : Int) : Int :=
  if arg1 < arg2 then -1 else if arg1 > arg2 then 1 else 0

/-- The call `qsort (a, num, sizeof (int), compareInts)`: the array in the order of the
comparator. -/
def qsortInts (a : List Int) : List Int :=
  a.insertionSort (fun x y => compareInts x y ≤ 0)

/-- Instance data `DeleteFramesData`; `delete` is the sorted array. -/
structure DeleteFramesData where
  node : Nat
  vi : VSVideoInfo
  delete : List Int
  num_delete : Int
deriving DecidableEq, Repr

/-- The loop of `deleteFramesGetFrame` over the remaining entries `d->delete[i..]`:
`if (n >= d->delete[i]) n++; else break;`. -/
def deleteFramesSkip : List Int → Int → Int
  | [], n => n
  | del :: rest, n => if n ≥ del then deleteFramesSkip rest (wrapInt32 (n + 1)) else n

/-- The frame function `deleteFramesGetFrame`: the result together with the new `*frameData`. -/
def deleteFramesGetFrame {F : Type} (getFrameFilter : Nat → Int → F) (d : DeleteFramesData)
    (n : Int) (frameData : Option Int) : ActivationReason → FrameResult F × Option Int
  | .arInitial =>
      let n' := deleteFramesSkip d.delete n
      (.requested [(d.node, n')], some n')
  | .arAllFramesReady =>
      match frameData with
      | some idx => (.frame (getFrameFilter d.node idx), frameData)
      | none => (.fault, frameData)
  | _ => (.null, frameData)

/-- The scan `for (i = 0; i < num - 1; i++) if (a[i] == a[i + 1])` of `deleteFramesCreate`. -/
def hasAdjacentEqual : List Int → Bool
  | a :: b :: rest => a == b || hasAdjacentEqual (b :: rest)
  | _ => false

/-- The constructor `deleteFramesCreate` on the upstream node `node` with descriptor `vi` and
the property `frames` (each entry a C `int`). -/
def deleteFramesCreate (frames : List Int) (node : Nat) (vi : VSVideoInfo) :
    CreateResult DeleteFramesData :=
  let num_delete : Int := frames.length
  if frames.any (fun x => decide (x < 0 ∨ (vi.numFrames ≠ 0 ∧ x ≥ vi.numFrames))) = true then
    .error "DeleteFrames: out of bounds frame number" [node]
  else
    let delete := qsortInts frames
    if hasAdjacentEqual delete = true then
      .error "DeleteFrames: can't delete a frame more than once" [node]
    else if vi.numFrames ≠ 0 ∧ wrapInt32 (vi.numFrames - num_delete) = 0 then
      .error "DeleteFrames: can't delete all frames" [node]
    else
      .filter { node := node
                vi := { vi with numFrames :=
                  if vi.numFrames ≠ 0 then wrapInt32 (vi.numFrames - num_delete)
                  else vi.numFrames }
                delete := delete
                num_delete := num_delete }

/-! ## Reverse -/

/-- Modelled from the spec: the macro `VSMAX` of `VSHelper.h`, the larger of two values
(`n -> max(len-1-n, 0)`). -/
def VSMAX (a b : Int) : Int := if a > b then a else b

/-- Modelled from the spec: the instance data `SingleClipData` of `filtershared.h`, an upstream
clip handle with its descriptor; these are the two fields `reverseGetframe` reads. -/
structure SingleClipData where
  node : Nat
  vi : VSVideoInfo
deriving DecidableEq, Repr

/-- The frame function `reverseGetframe`. -/
def reverseGetframe {F : Type} (getFrameFilter : Nat → Int → F) (d : SingleClipData) (n : Int) :
    ActivationReason → FrameResult F
  | .arInitial =>
      .requested [(d.node, VSMAX (wrapInt32 (wrapInt32 (d.vi.numFrames - n) - 1)) 0)]
  | .arAllFramesReady =>
      .frame (getFrameFilter d.node (VSMAX (wrapInt32 (wrapInt32 (d.vi.numFrames - n) - 1)) 0))
  | _ => .null

/-- The constructor `reverseCreate` on the upstream node `node` with descriptor `vi`. -/
def reverseCreate (node : Nat) (vi : VSVideoInfo) : CreateResult SingleClipData :=
  .filter { node := node, vi := vi }

/-! ## DuplicateFrames -/

/-- Instance data `DuplicateFramesData`; `dups` is the sorted array. -/
structure DuplicateFramesData where
  node : Nat
  vi : VSVideoInfo
  dups : List Int
  num_dups : Int
deriving DecidableEq, Repr

/-- The loop of `duplicateFramesGetFrame` over the remaining entries `d->dups[i..]`:
`if (n > d->dups[i]) n--; else break;`. -/
def duplicateFramesSkip : List Int → Int → Int
  | [], n => n
  | dup :: rest, n => if n > dup then duplicateFramesSkip rest (wrapInt32 (n - 1)) else n

/-- The frame function `duplicateFramesGetFrame`: the result together with the new
`*frameData`. -/
def duplicateFramesGetFrame {F : Type} (getFrameFilter : Nat → Int → F)
    (d : DuplicateFramesData) (n : Int) (frameData : Option Int) :
    ActivationReason → FrameResult F × Option Int
  | .arInitial =>
      let n' := duplicateFramesSkip d.dups n
      (.requested [(d.node, n')], some n')
  | .arAllFramesReady =>
      match frameData with
      | some idx => (.frame (getFrameFilter d.node idx), frameData)
      | none => (.fault, frameData)
  | _ => (.null, frameData)

/-- The constructor `duplicateFramesCreate` on the upstream node `node` with descriptor `vi`
and the property `frames` (each entry a C `int`). -/
def duplicateFramesCreate (frames : List Int) (node : Nat) (vi : VSVideoInfo) :
    CreateResult DuplicateFramesData :=
  let num_dups : Int := frames.length
  if frames.any (fun x =>
      decide (x < 0 ∨ (vi.numFrames ≠ 0 ∧ x > wrapInt32 (vi.numFrames - 1)))) = true then
    .error "DuplicateFrames: out of bounds frame number" [node]
  else
    let dups := qsortInts frames
    if wrapInt32 (vi.numFrames + num_dups) < vi.numFrames then
      .error "DuplicateFrames: resulting clip is too long" [node]
    else
      .filter { node := node
                vi := { vi with numFrames := wrapInt32 (vi.numFrames + num_dups) }
                dups := dups
                num_dups := num_dups }

/-- The scan of the duplicate list as the specification words it: `n` is decremented once for
each duplicate index that is `≤` the current `n`, stopping at the first one that is not. -/
def duplicateFramesSkipAsSpecified : List Int → Int → Int
  | [], n => n
  | dup :: rest, n => if dup ≤ n then duplicateFramesSkipAsSpecified rest (n - 1) else n

/-! ## FreezeFrames -/

/-- The table entry `struct Freeze`. -/
structure Freeze where
  first : Int
  last : Int
  replacement : Int
deriving DecidableEq, Repr

/-- Instance data `FreezeFramesData`; `freeze` is the sorted table and `vi` the upstream
descriptor the instance points to. -/
structure FreezeFramesData where
  node : Nat
  vi : VSVideoInfo
  freeze : List Freeze
  num_freeze : Int
deriving DecidableEq, Repr

/-- The loop of `freezeFramesGetFrame` over the remaining entries `d->freeze[i..]`: the first
entry whose range holds `n` replaces it (`break`). -/
def freezeFramesLookup : List Freeze → Int → Int
  | [], n => n
  | z :: rest, n =>
      if n ≥ z.first ∧ n ≤ z.last then z.replacement else freezeFramesLookup rest n

/-- The read `d->freeze[i]`, `none` outside the table. -/
def freezeAt (d : FreezeFramesData) (i : Int) : Option Freeze :=
  if i < 0 then none else d.freeze[i.toNat]?

/-- The frame function `freezeFramesGetFrame`: the result together with the new `*frameData`.
A read outside the table (`freeze[0]` or `freeze[num_freeze - 1]` of an empty table) is a
`fault`; `&&` reads `freeze[num_freeze - 1]` only when `n >= freeze[0].first`. -/
def freezeFramesGetFrame {F : Type} (getFrameFilter : Nat → Int → F) (d : FreezeFramesData)
    (n : Int) (frameData : Option Int) : ActivationReason → FrameResult F × Option Int
  | .arInitial =>
      match freezeAt d 0 with
      | none => (.fault, frameData)
      | some z0 =>
          if n ≥ z0.first then
            match freezeAt d (d.num_freeze - 1) with
            | none => (.fault, frameData)
            | some zl =>
                let n' := if n ≤ zl.last then freezeFramesLookup d.freeze n else n
                (.requested [(d.node, n')], some n')
          else (.requested [(d.node, n)], some n)
  | .arAllFramesReady =>
      match frameData with
      | some idx => (.frame (getFrameFilter d.node idx), frameData)
      | none => (.fault, frameData)
  | _ => (.null, frameData)

/-- The comparator `freezeFramesSort`. -/
def freezeFramesSort (x y : Freeze) : Int := wrapInt32 (x.first - y.first)

/-- The call `qsort (d.freeze, d.num_freeze, sizeof (d.freeze[0]), freezeFramesSort)`: the
table in the order of the comparator. -/
def qsortFreeze (a : List Freeze) : List Freeze :=
  a.insertionSort (fun x y => freezeFramesSort x y ≤ 0)

/-- The entries read by the first loop of `freezeFramesCreate` from the properties `first`,
`last`, `replacement` (lists of equal length), each with `first` and `last` swapped when
`first > last`. -/
def freezeFramesRead : List Int → List Int → List Int → List Freeze
  | f :: fs, l :: ls, r :: rs =>
      (if f > l then { first := l, last := f, replacement := r }
       else { first := f, last := l, replacement := r }) :: freezeFramesRead fs ls rs
  | _, _, _ => []

/-- The scan `for (i = 0; i < num_freeze - 1; i++) if (freeze[i].last >= freeze[i + 1].first)`
of `freezeFramesCreate`. -/
def hasOverlap : List Freeze → Bool
  | a :: b :: rest => decide (a.last ≥ b.first) || hasOverlap (b :: rest)
  | _ => false

/-- The constructor `freezeFramesCreate` on the upstream node `node` with descriptor `vi` and
the properties `first`, `last`, `replacement` (each entry a C `int`). -/
def freezeFramesCreate (first last replacement : List Int) (node : Nat) (vi : VSVideoInfo) :
    CreateResult FreezeFramesData :=
  let num_freeze : Int := first.length
  if num_freeze ≠ last.length ∨ num_freeze ≠ replacement.length then
    .error "FreezeFrames: 'first', 'last', and 'replacement' must have the same length." []
  else
    let freeze := freezeFramesRead first last replacement
    if freeze.any (fun z =>
        decide (z.first < 0 ∨ (vi.numFrames ≠ 0 ∧ z.last ≥ vi.numFrames)
          ∨ z.replacement < 0
          ∨ (vi.numFrames ≠ 0 ∧ z.replacement ≥ vi.numFrames))) = true then
      .error "FreezeFrames: out of bounds frame number(s)" [node]
    else
      let freeze := qsortFreeze freeze
      if hasOverlap freeze = true then
        .error "FreezeFrames: the frame ranges must not overlap" [node]
      else
        .filter { node := node, vi := vi, freeze := freeze, num_freeze := num_freeze }

/-! ## Frames fetched in phase two -/

/-- The `requestFrameFilter` calls a result records, as (node, frame index) in call order. -/
def FrameResult.requests {F : Type} : FrameResult F → List (Nat × Int)
  | .requested reqs => reqs
  | _ => []

/-- The `getFrameFilter` calls of `trimGetframe` in phase two, as (node, frame index). -/
def trimFetched (d : TrimData) (n : Int) : List (Nat × Int) :=
  [(d.node, wrapInt32 (n + d.first))]

/-- The `getFrameFilter` calls of `audioTrimGetframe` in phase two, in call order. -/
def audioTrimFetched (d : AudioTrimData) (n : Int) : List (Nat × Int) :=
  let spf := d.ai.format.samplesPerFrame
  let startSample := n * spf + d.first
  let startFrame := wrapInt32 (startSample.tdiv spf)
  let length := wrapInt32 (min (d.ai.numSamples - n * spf) spf)
  if startSample.tmod spf = 0 ∧ n ≠ d.ai.numFrames - 1 then [(d.node, startFrame)]
  else
    let numSrc1Samples := wrapInt32 (spf - startSample.tmod spf)
    (d.node, startFrame) ::
      (if length > numSrc1Samples then [(d.node, wrapInt32 (startFrame + 1))] else [])

/-- The `getFrameFilter` call of `interleaveGetframe` in phase two. -/
def interleaveFetched (d : InterleaveData) (n : Int) : List (Nat × Int) :=
  if d.numclips = 0 then []
  else [(d.node.getD (n.tmod d.numclips).toNat 0, n.tdiv d.numclips)]

/-- The `getFrameFilter` call of `reverseGetframe` in phase two. -/
def reverseFetched (d : SingleClipData) (n : Int) : List (Nat × Int) :=
  [(d.node, VSMAX (wrapInt32 (wrapInt32 (d.vi.numFrames - n) - 1)) 0)]

/-- The `getFrameFilter` call of `loopGetframe` in phase two. -/
def loopFetched (d : LoopData) (n : Int) : List (Nat × Int) :=
  if d.numFramesIn = 0 then [] else [(d.node, n.tmod d.numFramesIn)]

/-- The `getFrameFilter` call of `selectEveryGetframe` in phase two, at the index kept in
`*frameData`. -/
def selectEveryFetched (d : SelectEveryData) (frameData : Option Int) : List (Nat × Int) :=
  match frameData with
  | some idx => [(d.node, idx)]
  | none => []

/-- The `getFrameFilter` call of `spliceGetframe` in phase two, at the clip and index kept in
`*frameData`. -/
def spliceFetched (d : SpliceData) (frameData : Option SpliceCtx) : List (Nat × Int) :=
  match frameData with
  | some s => [(d.node.getD s.idx.toNat 0, s.f)]
  | none => []

/-- The `getFrameFilter` call of `audioSplice2PassthroughGetframe` in phase two. -/
def audioSplice2PassthroughFetched (d : AudioSplice2Data) (n : Int) : List (Nat × Int) :=
  if n < d.numFrames1 then [(d.node1, n)] else [(d.node2, wrapInt32 (n - d.numFrames1))]

/-- The `getFrameFilter` calls of `audioSplice2Getframe` in phase two, in call order. -/
def audioSplice2Fetched (d : AudioSplice2Data) (n : Int) : List (Nat × Int) :=
  if n < d.numFrames1 - 1 then [(d.node1, n)]
  else if n = d.numFrames1 - 1 then [(d.node1, n), (d.node2, 0)]
  else [(d.node2, wrapInt32 (n - d.numFrames1)),
    (d.node2, wrapInt32 (wrapInt32 (n - d.numFrames1) + 1))]

/-- The `getFrameFilter` call of `duplicateFramesGetFrame` in phase two, at the index kept in
`*frameData`. -/
def duplicateFramesFetched (d : DuplicateFramesData) (frameData : Option Int) :
    List (Nat × Int) :=
  match frameData with
  | some idx => [(d.node, idx)]
  | none => []

/-- The `getFrameFilter` call of `deleteFramesGetFrame` in phase two, at the index kept in
`*frameData`. -/
def deleteFramesFetched (d : DeleteFramesData) (frameData : Option Int) : List (Nat × Int) :=
  match frameData with
  | some idx => [(d.node, idx)]
  | none => []

/-- The `getFrameFilter` call of `freezeFramesGetFrame` in phase two, at the index kept in
`*frameData`. -/
def freezeFramesFetched (d : FreezeFramesData) (frameData : Option Int) : List (Nat × Int) :=
  match frameData with
  | some idx => [(d.node, idx)]
  | none => []

/-! ## Agreement of clip descriptors -/

/-- Two descriptors have the same width, height, format, `fpsNum` and `fpsDen`. -/
def SameFormatAndRate (a b : VSVideoInfo) : Prop :=
  a.width = b.width ∧ a.height = b.height ∧ a.format = b.format ∧ a.fpsNum = b.fpsNum
    ∧ a.fpsDen = b.fpsDen

/-! ## Copy lengths of `audioTrimGetframe` -/

/-- The value `length` of `audioTrimGetframe`, the length of the output frame in samples. -/
def audioTrimLength (d : AudioTrimData) (n : Int) : Int :=
  wrapInt32 (min (d.ai.numSamples - n * d.ai.format.samplesPerFrame)
    d.ai.format.samplesPerFrame)

/-- The value `numSrc1Samples` of the stitching branch of `audioTrimGetframe`, the number of
samples its first `memcpy` copies from the first source frame. -/
def audioTrimNumSrc1Samples (d : AudioTrimData) (n : Int) : Int :=
  wrapInt32 (d.ai.format.samplesPerFrame
    - (n * d.ai.format.samplesPerFrame + d.first).tmod d.ai.format.samplesPerFrame)

/-- The test that sends `audioTrimGetframe` to its pass-through branch; the stitching branch
is taken when it fails. -/
def audioTrimPassesThrough (d : AudioTrimData) (n : Int) : Bool :=
  decide ((n * d.ai.format.samplesPerFrame + d.first).tmod d.ai.format.samplesPerFrame = 0
    ∧ n ≠ d.ai.numFrames - 1)

/-! # Theorems -/

/-! ## Machine integers -/

theorem wrapInt32_eq_self {x : Int} (h : IsInt32 x) : wrapInt32 x = x := by
  unfold IsInt32 INT_MIN INT_MAX at h
  unfold wrapInt32
  omega

theorem wrapInt64_eq_self {x : Int}
    (h : -9223372036854775808 ≤ x ∧ x ≤ 9223372036854775807) : wrapInt64 x = x := by
  unfold wrapInt64
  omega

/-! ## Trim -/

/-- C7. Trim mapping: on an upstream clip of `N` frames (a C `int`), Trim with `last` given and
`length` absent, `0 ≤ first ≤ last < N`, yields exactly `last - first + 1` frames and its frame
`n` is upstream frame `n + first`; with `length` given instead, `length ≥ 1` and
`first + length ≤ N`, it yields exactly `length` frames with the same mapping. -/
theorem trim_mapping {F : Type} (getFrameFilter : Nat → Int → F) (node : Nat)
    (vi : VSVideoInfo) (firstArg : Option Int) (last length : Int)
    (hN : vi.numFrames ≤ INT_MAX) (hfirst : 0 ≤ firstArg.getD 0) :
    (firstArg.getD 0 ≤ last → last < vi.numFrames →
      ∃ clip, trimOutClip getFrameFilter vi (trimCreate ⟨firstArg, some last, none⟩ node vi)
          = some clip
        ∧ clip.1 = last - firstArg.getD 0 + 1
        ∧ ∀ n : Int, 0 ≤ n → n < last - firstArg.getD 0 + 1 →
            clip.2 n = .frame (getFrameFilter node (n + firstArg.getD 0)))
    ∧ (1 ≤ length → firstArg.getD 0 + length ≤ vi.numFrames →
      ∃ clip, trimOutClip getFrameFilter vi (trimCreate ⟨firstArg, none, some length⟩ node vi)
          = some clip
        ∧ clip.1 = length
        ∧ ∀ n : Int, 0 ≤ n → n < length →
            clip.2 n = .frame (getFrameFilter node (n + firstArg.getD 0))) := by
  unfold INT_MAX at hN
  constructor
  · intro h1 h2
    have hw : wrapInt32 (wrapInt32 (last - firstArg.getD 0) + 1) = last - firstArg.getD 0 + 1 := by
      unfold wrapInt32; omega
    by_cases hp : last - firstArg.getD 0 + 1 = vi.numFrames
    · refine ⟨(vi.numFrames, fun n => .frame (getFrameFilter node n)), ?_, hp.symm, ?_⟩
      · have hc : trimCreate ⟨firstArg, some last, none⟩ node vi = .passthrough node := by
          simp only [trimCreate, Option.getD_some, Option.isSome_some, Option.isSome_none, hw,
            if_true]
          rw [if_neg (by simp), if_neg (by omega), if_neg (by simp), if_neg (by omega),
            if_neg (by simp; omega), if_pos (by right; omega)]
        rw [hc]; rfl
      · intro n _ _
        have : firstArg.getD 0 = 0 := by omega
        simp [this]
    · refine ⟨(last - firstArg.getD 0 + 1, fun n =>
        trimGetframe getFrameFilter ⟨node, firstArg.getD 0⟩ n .arAllFramesReady), ?_, rfl, ?_⟩
      · have hc : trimCreate ⟨firstArg, some last, none⟩ node vi
            = .filter (⟨node, firstArg.getD 0⟩,
                { vi with numFrames := last - firstArg.getD 0 + 1 }) := by
          simp only [trimCreate, Option.getD_some, Option.isSome_some, Option.isSome_none, hw,
            if_true]
          rw [if_neg (by simp), if_neg (by omega), if_neg (by simp), if_neg (by omega),
            if_neg (by simp; omega), if_neg (by simp; omega)]
        rw [hc]; rfl
      · intro n h3 h4
        have : wrapInt32 (n + firstArg.getD 0) = n + firstArg.getD 0 := by
          unfold wrapInt32; omega
        simp [trimGetframe, this]
  · intro h1 h2
    have hw : wrapInt32 (firstArg.getD 0 + length) = firstArg.getD 0 + length := by
      unfold wrapInt32; omega
    by_cases hp : length = vi.numFrames
    · refine ⟨(vi.numFrames, fun n => .frame (getFrameFilter node n)), ?_, hp.symm, ?_⟩
      · have hc : trimCreate ⟨firstArg, none, some length⟩ node vi = .passthrough node := by
          simp only [trimCreate, Option.getD_some, Option.isSome_some, Option.isSome_none, hw,
            if_true, Bool.false_eq_true, if_false]
          rw [if_neg (by simp), if_neg (by simp), if_neg (by omega), if_neg (by omega),
            if_neg (by simp; omega), if_pos (by right; omega)]
        rw [hc]; rfl
      · intro n _ _
        have : firstArg.getD 0 = 0 := by omega
        simp [this]
    · refine ⟨(length, fun n =>
        trimGetframe getFrameFilter ⟨node, firstArg.getD 0⟩ n .arAllFramesReady), ?_, rfl, ?_⟩
      · have hc : trimCreate ⟨firstArg, none, some length⟩ node vi
            = .filter (⟨node, firstArg.getD 0⟩, { vi with numFrames := length }) := by
          simp only [trimCreate, Option.getD_some, Option.isSome_some, Option.isSome_none, hw,
            if_true, Bool.false_eq_true, if_false]
          rw [if_neg (by simp), if_neg (by simp), if_neg (by omega), if_neg (by omega),
            if_neg (by simp; omega), if_neg (by simp; omega)]
        rw [hc]; rfl
      · intro n h3 h4
        have : wrapInt32 (n + firstArg.getD 0) = n + firstArg.getD 0 := by
          unfold wrapInt32; omega
        simp [trimGetframe, this]

/-- Witness of C7: `first = 2`, `last = 5` on a 10-frame clip gives four frames, the upstream
frames 2, 3, 4, 5 (frames are named by their upstream index). -/
theorem trim_mapping_witness :
    ((2 : Int) ≤ 5 ∧ (5 : Int) < 10)
    ∧ ∃ clip, trimOutClip (fun _ i => i) ⟨0, 0, 0, 0, 0, 10⟩
          (trimCreate ⟨some 2, some 5, none⟩ 0 ⟨0, 0, 0, 0, 0, 10⟩) = some clip
        ∧ clip.1 = 4
        ∧ [clip.2 0, clip.2 1, clip.2 2, clip.2 3]
            = [.frame 2, .frame 3, .frame 4, .frame 5] := by
  refine ⟨by decide, ?_⟩
  obtain ⟨clip, h1, h2, h3⟩ :=
    (trim_mapping (fun _ i => i) 0 ⟨0, 0, 0, 0, 0, 10⟩ (some 2) 5 1 (by decide) (by decide)).1
      (by decide) (by decide)
  refine ⟨clip, h1, by simpa using h2, ?_⟩
  have e0 := h3 0 (by decide) (by decide)
  have e1 := h3 1 (by decide) (by decide)
  have e2 := h3 2 (by decide) (by decide)
  have e3 := h3 3 (by decide) (by decide)
  simp only [Option.getD_some] at e0 e1 e2 e3
  rw [e0, e1, e2, e3]
  rfl

/-- C8 (the code at the failing input). With `first = 1`, `length = INT_MAX` on a 10-frame clip
the sum `first + length` wraps to `INT_MIN`, the range test does not fire, and Trim is built
with `numFrames = INT_MAX` although `first + length > 10`. -/
theorem trim_length_overflow_accepted :
    trimCreate ⟨some 1, none, some 2147483647⟩ 0 ⟨0, 0, 0, 0, 0, 10⟩
      = .filter (⟨0, 1⟩, ⟨0, 0, 0, 0, 0, 2147483647⟩) := by
  decide

/-- C9 (counterexample). On a clip whose frame count is `0`, Trim without `first`, `last` and
`length` is rejected by the range test `vi.numFrames <= d.first` instead of returning the
upstream clip. -/
theorem trim_identity_zero_frames_rejected :
    trimCreate ⟨none, none, none⟩ 7 ⟨0, 0, 0, 0, 0, 0⟩
        = .error "Trim: last frame beyond clip end" [7]
      ∧ trimCreate ⟨none, none, none⟩ 7 ⟨0, 0, 0, 0, 0, 0⟩ ≠ .passthrough 7 := by
  decide

/-- C9 (amended). On every upstream clip of at least one frame, Trim called with none of
`first`, `last`, `length` returns the upstream node itself. -/
theorem trim_identity (node : Nat) (vi : VSVideoInfo) (hN : 1 ≤ vi.numFrames) :
    trimCreate ⟨none, none, none⟩ node vi = .passthrough node := by
  have h : ¬ vi.numFrames ≤ 0 := by omega
  simp [trimCreate, h]

/-- Witness of C9 (amended) on a one-frame clip. -/
theorem trim_identity_witness :
    (1 : Int) ≤ (⟨0, 0, 0, 0, 0, 1⟩ : VSVideoInfo).numFrames
      ∧ trimCreate ⟨none, none, none⟩ 3 ⟨0, 0, 0, 0, 0, 1⟩ = .passthrough 3 :=
  ⟨by decide, trim_identity 3 ⟨0, 0, 0, 0, 0, 1⟩ (by decide)⟩

/-! ## Splice -/

theorem sum_nonneg_of_pos : ∀ (l : List Int), (∀ x ∈ l, 1 ≤ x) → 0 ≤ l.sum
  | [], _ => by simp
  | x :: l, h => by
      have h1 := h x (by simp)
      have h2 := sum_nonneg_of_pos l (fun y hy => h y (by simp [hy]))
      simp only [List.sum_cons]
      omega

theorem take_sum_mono : ∀ (l : List Int), (∀ x ∈ l, 1 ≤ x) → ∀ i j : Nat, i ≤ j →
    (l.take i).sum ≤ (l.take j).sum
  | [], _, i, j, _ => by simp
  | x :: l, h, i, j, hij => by
      cases i with
      | zero =>
          simp only [List.take_zero, List.sum_nil]
          exact sum_nonneg_of_pos _ (fun y hy => h y (List.mem_of_mem_take hy))
      | succ i =>
          cases j with
          | zero => omega
          | succ j =>
              have := take_sum_mono l (fun y hy => h y (by simp [hy])) i j (by omega)
              simp only [List.take_succ_cons, List.sum_cons]
              omega

theorem spliceSum_eq : ∀ (l : List Int) (acc : Int), (∀ x ∈ l, 1 ≤ x) → 0 ≤ acc →
    acc + l.sum ≤ INT_MAX → spliceSum l acc = some (acc + l.sum)
  | [], acc, _, _, _ => by simp [spliceSum]
  | x :: l, acc, h, h0, hT => by
      have h1 := h x (by simp)
      have h2 := sum_nonneg_of_pos l (fun y hy => h y (by simp [hy]))
      simp only [List.sum_cons] at hT
      unfold INT_MAX at hT
      have hw : wrapInt32 (acc + x) = acc + x := by unfold wrapInt32; omega
      have ih := spliceSum_eq l (acc + x) (fun y hy => h y (by simp [hy])) (by omega)
        (by unfold INT_MAX; omega)
      simp only [spliceSum, hw, List.sum_cons]
      rw [if_neg (by omega), ih]
      congr 1
      omega

theorem spliceSearch_spec (numclips n : Int) (hn : n ≤ INT_MAX) :
    ∀ (rest : List Int) (i cum : Int), rest ≠ [] → (∀ x ∈ rest, 1 ≤ x) → 0 ≤ cum →
      cum + rest.sum ≤ INT_MAX → cum ≤ n → i + rest.length = numclips →
      ∃ j : Nat, j < rest.length
        ∧ spliceSearch numclips n rest i cum = (i + j, n - (cum + (rest.take j).sum))
        ∧ cum + (rest.take j).sum ≤ n
        ∧ (n < cum + rest.sum → n < cum + (rest.take (j + 1)).sum)
        ∧ (cum + rest.sum ≤ n → j + 1 = rest.length)
  | [], _, _, hne, _, _, _, _, _ => absurd rfl hne
  | len :: rest, i, cum, _, hpos, hcum, hfit, hle, hk => by
      have h1 := hpos len (by simp)
      have hpos' : ∀ x ∈ rest, 1 ≤ x := fun y hy => hpos y (by simp [hy])
      have h2 := sum_nonneg_of_pos rest hpos'
      simp only [List.sum_cons] at hfit
      simp only [List.length_cons, Nat.cast_add, Nat.cast_one] at hk
      unfold INT_MAX at hfit hn
      have hw : wrapInt32 (cum + len) = cum + len := by unfold wrapInt32; omega
      have hw' : wrapInt32 (n - cum) = n - cum := by unfold wrapInt32; omega
      by_cases hc : (n ≥ cum ∧ n < cum + len) ∨ i = numclips - 1
      · refine ⟨0, by simp, ?_, by simpa using hle, ?_, ?_⟩
        · simp only [spliceSearch, hw, hw']
          rw [if_pos hc]
          simp
        · intro h3
          simp only [List.sum_cons] at h3
          simp only [zero_add, List.take_succ_cons, List.take_zero, List.sum_cons, List.sum_nil]
          rcases hc with hc | hc
          · omega
          · have : rest = [] := List.eq_nil_of_length_eq_zero (by omega)
            subst this
            simp only [List.sum_nil] at h3
            omega
        · intro h3
          simp only [List.sum_cons] at h3
          rcases hc with hc | hc
          · omega
          · simp only [List.length_cons]
            omega
      · have hne : rest ≠ [] := by
          intro h
          subst h
          simp only [List.length_nil, Nat.cast_zero] at hk
          exact hc (Or.inr (by omega))
        have hge : cum + len ≤ n := by
          by_contra h
          exact hc (Or.inl ⟨hle, by omega⟩)
        obtain ⟨j, hj1, hj2, hj3, hj4, hj5⟩ :=
          spliceSearch_spec numclips n (by unfold INT_MAX; exact hn) rest (i + 1) (cum + len)
            hne hpos' (by omega) (by unfold INT_MAX; omega) hge (by omega)
        refine ⟨j + 1, by simpa using hj1, ?_, ?_, ?_, ?_⟩
        · simp only [spliceSearch, hw]
          rw [if_neg hc, hj2]
          simp only [List.take_succ_cons, List.sum_cons, Nat.cast_add, Nat.cast_one,
            Prod.mk.injEq]
          constructor <;> omega
        · simp only [List.take_succ_cons, List.sum_cons]
          omega
        · intro h3
          simp only [List.sum_cons] at h3
          have := hj4 (by omega)
          simp only [List.take_succ_cons, List.sum_cons]
          omega
        · intro h3
          simp only [List.sum_cons] at h3
          have := hj5 (by omega)
          simp only [List.length_cons]
          omega

theorem spliceOverflowCleanup_none (node : List Nat) (numclips : Int) (h : 0 < numclips) :
    ∀ (fuel : Nat) (i : Int) (freed : List Nat),
      spliceOverflowCleanup node numclips fuel i 0 freed = none
  | 0, _, _ => rfl
  | fuel + 1, i, freed => by
      simp only [spliceOverflowCleanup]
      rw [if_pos h]
      exact spliceOverflowCleanup_none node numclips h fuel _ _

/-- C5. Splice index mapping is concatenation: for `k ≥ 2` clips of lengths `len_i ≥ 1` whose sum
`T` fits a C `int`, `spliceCreate` either reports a descriptor mismatch or builds a clip with
`numFrames = T`; for every index `n ≥ 0` phase one of `spliceGetframe` requests, and phase two
returns, frame `n - sum_{i<idx} len_i` of clip `idx`, where for `n < T` the index `idx` is the
unique one with `sum_{i<idx} len_i ≤ n < sum_{i≤idx} len_i`, and for `n ≥ T` it is the final
clip. -/
theorem splice_mapping {F : Type} (getFrameFilter : Nat → Int → F)
    (isCompatFormat : VSVideoInfo → Bool) (isSameFormat : VSVideoInfo → VSVideoInfo → Bool)
    (fuel : Nat) (vis : List VSVideoInfo) (mismatch : Bool)
    (hk : 2 ≤ vis.length) (hlen : ∀ v ∈ vis, 1 ≤ v.numFrames)
    (hT : (vis.map (fun v => v.numFrames)).sum ≤ INT_MAX) :
    (∃ msg, spliceMismatchMessage (findCommonVi vis true).1 = some msg
        ∧ spliceCreate isCompatFormat isSameFormat fuel vis mismatch
            = some (.error msg (List.range vis.length)))
    ∨ ∃ d vi, spliceCreate isCompatFormat isSameFormat fuel vis mismatch = some (.filter (d, vi))
        ∧ vi.numFrames = (vis.map (fun v => v.numFrames)).sum
        ∧ ∀ n : Int, 0 ≤ n → n ≤ INT_MAX →
          ∃ idx : Nat, idx < vis.length
            ∧ spliceGetframe getFrameFilter d n none .arInitial
                = (.requested [(idx, n - ((vis.map (fun v => v.numFrames)).take idx).sum)],
                    some ⟨n - ((vis.map (fun v => v.numFrames)).take idx).sum, idx⟩)
            ∧ spliceGetframe getFrameFilter d n
                  (some ⟨n - ((vis.map (fun v => v.numFrames)).take idx).sum, idx⟩)
                  .arAllFramesReady
                = (.frame (getFrameFilter idx
                    (n - ((vis.map (fun v => v.numFrames)).take idx).sum)), none)
            ∧ 0 ≤ n - ((vis.map (fun v => v.numFrames)).take idx).sum
            ∧ (n < (vis.map (fun v => v.numFrames)).sum →
                n < ((vis.map (fun v => v.numFrames)).take (idx + 1)).sum
                ∧ ∀ idx' : Nat, ((vis.map (fun v => v.numFrames)).take idx').sum ≤ n →
                    n < ((vis.map (fun v => v.numFrames)).take (idx' + 1)).sum → idx' = idx)
            ∧ ((vis.map (fun v => v.numFrames)).sum ≤ n → idx + 1 = vis.length) := by
  have hpos : ∀ x ∈ vis.map (fun v => v.numFrames), 1 ≤ x := by
    intro x hx
    obtain ⟨v, hv, rfl⟩ := List.mem_map.1 hx
    exact hlen v hv
  have hk1 : ¬ ((vis.length : Int) = 1) := by omega
  have hsum := spliceSum_eq (vis.map (fun v => v.numFrames)) 0 hpos (le_refl 0) (by simpa using hT)
  rw [zero_add] at hsum
  unfold spliceCreate
  simp only [hk1, if_false, hsum]
  split
  · rename_i msg hmsg
    left
    refine ⟨msg, ?_, rfl⟩
    split at hmsg
    · exact hmsg
    · exact absurd hmsg (by simp)
  · right
    refine ⟨_, _, rfl, rfl, ?_⟩
    intro n hn0 hn1
    have hne : vis.map (fun v => v.numFrames) ≠ [] := by
      intro h
      have := congrArg List.length h
      simp only [List.length_map, List.length_nil] at this
      omega
    obtain ⟨j, hj1, hj2, hj3, hj4, hj5⟩ :=
      spliceSearch_spec (vis.length : Int) n hn1 (vis.map (fun v => v.numFrames)) 0 0 hne hpos
        (le_refl 0) (by simpa using hT) hn0 (by simp)
    simp only [zero_add] at hj2 hj3 hj4 hj5
    simp only [List.length_map] at hj1 hj5
    have hnode : (List.range vis.length).getD j 0 = j := by
      simp [List.getD_eq_getElem?_getD, hj1]
    refine ⟨j, hj1, ?_, ?_, by omega, ?_, hj5⟩
    · simp only [spliceGetframe, hj2, Int.toNat_ofNat, hnode]
    · simp only [spliceGetframe, Int.toNat_ofNat, hnode]
    · intro hlt
      refine ⟨hj4 hlt, ?_⟩
      intro idx' h1 h2
      by_contra hne'
      rcases Nat.lt_or_gt_of_ne hne' with h | h
      · have := take_sum_mono _ hpos (idx' + 1) j (by omega)
        omega
      · have := take_sum_mono _ hpos (j + 1) idx' (by omega)
        have := hj4 hlt
        omega

/-- Witness of C5: three clips of 2, 3 and 1 frames give 6 frames; index 4 is frame 2 of clip 1,
and the indices 0 … 7 are served by the clips 0, 0, 1, 1, 1, 2, 2, 2. -/
theorem splice_mapping_witness :
    ∃ d vi, spliceCreate (fun _ => false) (fun _ _ => true) 0
          [⟨1, 25, 1, 4, 4, 2⟩, ⟨1, 25, 1, 4, 4, 3⟩, ⟨1, 25, 1, 4, 4, 1⟩] false
        = some (.filter (d, vi))
      ∧ vi.numFrames = 6
      ∧ (∃ idx : Nat, spliceGetframe (fun c i => (c, i)) d 4 none .arInitial
          = (.requested [(idx, 4 - (List.take idx [2, 3, 1]).sum)],
              some ⟨4 - (List.take idx [2, 3, 1]).sum, idx⟩))
      ∧ (List.range 8).map (fun n =>
            (spliceGetframe (fun c i => (c, i)) d n none .arInitial).1)
          = [.requested [(0, 0)], .requested [(0, 1)], .requested [(1, 0)], .requested [(1, 1)],
             .requested [(1, 2)], .requested [(2, 0)], .requested [(2, 1)],
             .requested [(2, 2)]] := by
  rcases splice_mapping (fun c i => (c, i)) (fun _ => false) (fun _ _ => true) 0
      [⟨1, 25, 1, 4, 4, 2⟩, ⟨1, 25, 1, 4, 4, 3⟩, ⟨1, 25, 1, 4, 4, 1⟩] false
      (by decide) (by decide) (by decide) with ⟨msg, h, _⟩ | ⟨d, vi, h1, h2, h3⟩
  · have hm : spliceMismatchMessage (findCommonVi
        [⟨1, 25, 1, 4, 4, 2⟩, ⟨1, 25, 1, 4, 4, 3⟩, ⟨1, 25, 1, 4, 4, 1⟩] true).1 = none := by
      decide
    rw [hm] at h
    exact absurd h (by simp)
  · obtain ⟨idx, _, h4, _⟩ := h3 4 (by decide) (by decide)
    refine ⟨d, vi, h1, h2, ⟨idx, h4⟩, ?_⟩
    have hd : d = ⟨[0, 1, 2], [2, 3, 1], 3⟩ := by
      have h5 : spliceCreate (fun _ => false) (fun _ _ => true) 0
          [⟨1, 25, 1, 4, 4, 2⟩, ⟨1, 25, 1, 4, 4, 3⟩, ⟨1, 25, 1, 4, 4, 1⟩] false
          = some (.filter (⟨[0, 1, 2], [2, 3, 1], 3⟩, ⟨1, 25, 1, 4, 4, 6⟩)) := by decide
      rw [h5] at h1
      injection h1 with h1
      injection h1 with h1
      injection h1 with h1
      exact h1.symm
    subst hd
    decide

/-- C6 (the code at the failing input). With two clips of `INT_MAX` and `1` frames the overflow
test fires, and the clean-up loop `for (int j = 0; j < d.numclips; i++)` never ends: for every
number of iterations allowed, `spliceCreate` has not returned, so no error is reported. -/
theorem splice_overflow_cleanup_diverges (isCompatFormat : VSVideoInfo → Bool)
    (isSameFormat : VSVideoInfo → VSVideoInfo → Bool) (mismatch : Bool) (fuel : Nat) :
    spliceCreate isCompatFormat isSameFormat fuel
      [⟨1, 25, 1, 4, 4, 2147483647⟩, ⟨1, 25, 1, 4, 4, 1⟩] mismatch = none := by
  have hs : spliceSum [2147483647, 1] 0 = none := by decide
  have hf : findCommonVi [⟨1, 25, 1, 4, 4, 2147483647⟩, ⟨1, 25, 1, 4, 4, 1⟩] true
      = (0, ⟨1, 25, 1, 4, 4, 2147483647⟩) := by decide
  unfold spliceCreate
  simp only [hf, List.map, hs, List.length_cons, List.length_nil]
  rw [if_neg (by decide)]
  simp only [ne_eq, not_true_eq_false, false_and, if_false]
  have hz : (0 : Int) < ((0 + 1 + 1 : Nat) : Int) := by decide
  rw [spliceOverflowCleanup_none _ _ hz fuel 0 []]

/-! ## Sample buffers -/

theorem patch_getElem? {α : Type} (dst src : List α) (a s l : Nat) (h1 : a + l ≤ dst.length)
    (h2 : s + l ≤ src.length) (j : Nat) :
    (dst.take a ++ (src.drop s).take l ++ dst.drop (a + l))[j]?
      = if a ≤ j ∧ j < a + l then src[s + (j - a)]? else dst[j]? := by
  have la : (dst.take a).length = a := by rw [List.length_take]; omega
  have ll : ((src.drop s).take l).length = l := by
    rw [List.length_take, List.length_drop]; omega
  by_cases hj : j < a
  · rw [if_neg (by omega), List.append_assoc, List.getElem?_append_left (by omega),
      List.getElem?_take, if_pos hj]
  · by_cases hj2 : j < a + l
    · rw [if_pos (by omega), List.getElem?_append_left (by rw [List.length_append]; omega),
        List.getElem?_append_right (by omega), la, List.getElem?_take, if_pos (by omega),
        List.getElem?_drop]
    · rw [if_neg (by omega), List.getElem?_append_right (by rw [List.length_append]; omega),
        List.length_append, la, ll, List.getElem?_drop]
      congr 1
      omega

theorem patch_length {α : Type} (dst src : List α) (a s l : Nat) (h1 : a + l ≤ dst.length)
    (h2 : s + l ≤ src.length) :
    (dst.take a ++ (src.drop s).take l ++ dst.drop (a + l)).length = dst.length := by
  simp only [List.length_append, List.length_take, List.length_drop]
  omega

/-- A copy inside both buffers succeeds, keeps the capacity of `dst`, and replaces exactly the
samples `doff ≤ j < doff + len` by the samples of `src` from `soff` on. -/
theorem memcpy_spec {α : Type} (dst : List α) (doff : Int) (src : List α) (soff len : Int)
    (h0 : 0 ≤ len) (h1 : 0 ≤ doff) (h2 : 0 ≤ soff) (h3 : doff + len ≤ dst.length)
    (h4 : soff + len ≤ src.length) :
    ∃ r, memcpy dst doff src soff len = some r ∧ r.length = dst.length
      ∧ ∀ j : Nat, r[j]? = if doff ≤ j ∧ (j : Int) < doff + len
          then src[(soff + (j - doff)).toNat]? else dst[j]? := by
  refine ⟨_, by unfold memcpy; rw [if_pos ⟨h0, h1, h2, h3, h4⟩],
    patch_length dst src _ _ _ (by omega) (by omega), ?_⟩
  intro j
  rw [patch_getElem? dst src _ _ _ (by omega) (by omega)]
  by_cases hc : doff ≤ j ∧ (j : Int) < doff + len
  · rw [if_pos (by omega), if_pos hc]
    congr 1
    omega
  · rw [if_neg (by omega), if_neg hc]

/-- The two copies of a stitched frame: `c1` samples of `b1` from `off` on, then `c2` samples from
the head of `b2`, into a buffer of capacity `cap`. -/
theorem memcpy_two {α : Type} (w b1 b2 : List α) (cap off c1 c2 : Int)
    (hw : (w.length : Int) = cap) (hb1 : (b1.length : Int) = cap)
    (hb2 : c2 ≤ (b2.length : Int))
    (hoff : 0 ≤ off) (hc1 : 0 ≤ c1) (hc2 : 0 ≤ c2) (h1 : off + c1 ≤ cap) (h2 : c1 + c2 ≤ cap) :
    ∃ r, (memcpy w 0 b1 off c1).bind (fun w' => memcpy w' c1 b2 0 c2) = some r
      ∧ (r.length : Int) = cap
      ∧ ∀ j : Nat, (j : Int) < c1 + c2 →
          r[j]? = if (j : Int) < c1 then b1[(off + j).toNat]? else b2[(j - c1).toNat]? := by
  obtain ⟨r1, e1, l1, g1⟩ := memcpy_spec w 0 b1 off c1 hc1 (le_refl 0) hoff (by omega) (by omega)
  obtain ⟨r2, e2, l2, g2⟩ := memcpy_spec r1 c1 b2 0 c2 hc2 hc1 (le_refl 0) (by omega) (by omega)
  refine ⟨r2, by rw [e1]; exact e2, by omega, ?_⟩
  intro j hj
  rw [g2 j]
  by_cases hc : (j : Int) < c1
  · rw [if_neg (by omega), if_pos hc, g1 j, if_pos (by omega)]
    congr 1
  · rw [if_pos (by omega), if_neg hc]
    congr 1
    omega

theorem channelLoop_eq {α : Type} (body : Nat → Option (List α)) (g : Nat → List α) :
    ∀ cs : List Nat, (∀ c ∈ cs, body c = some (g c)) → channelLoop body cs = some (cs.map g)
  | [], _ => rfl
  | c :: cs, h => by
      have h1 := h c (by simp)
      have h2 := channelLoop_eq body g cs (fun x hx => h x (by simp [hx]))
      simp only [channelLoop, h1, h2, List.map_cons]

/-- When every channel has a buffer and the body succeeds on it, the channel loop succeeds,
keeps the frame length, and leaves in channel `c` what the body computed. -/
theorem forEachChannel_spec {α : Type} (nch : Int) (f : AudioFrame α)
    (body : Nat → List α → Option (List α))
    (h : ∀ c : Nat, (c : Int) < nch → ∃ w r, f.data[c]? = some w ∧ body c w = some r) :
    ∃ out, forEachChannel nch f body = some out ∧ out.length = f.length
      ∧ ∀ c : Nat, (c : Int) < nch → out.data[c]? = (f.data[c]?).bind (body c) := by
  have hloop := channelLoop_eq (fun c => (f.data[c]?).bind (body c))
    (fun c => ((f.data[c]?).bind (body c)).getD []) (List.range nch.toNat) (by
      intro c hc
      obtain ⟨w, r, e1, e2⟩ := h c (by have := List.mem_range.1 hc; omega)
      simp [e1, e2])
  refine ⟨⟨f.length, (List.range nch.toNat).map
      (fun c => ((f.data[c]?).bind (body c)).getD []) ++ f.data.drop nch.toNat⟩,
    by unfold forEachChannel; rw [hloop], rfl, ?_⟩
  intro c hc
  obtain ⟨w, r, e1, e2⟩ := h c hc
  have hc' : c < nch.toNat := by omega
  rw [List.getElem?_append_left (by simpa using hc'), List.getElem?_map,
    List.getElem?_range hc']
  simp [e1, e2]

theorem newAudioFrame_data {α : Type} (fmt : VSAudioFormat) (len : Int) (junk : α) (c : Nat)
    (hc : (c : Int) < fmt.numChannels) :
    (newAudioFrame fmt len junk).data[c]?
      = some (List.replicate fmt.samplesPerFrame.toNat junk) := by
  unfold newAudioFrame
  simp only [List.getElem?_replicate]
  rw [if_pos (by omega)]

/-! ## Frame counts -/

theorem lt_ceil_iff (spf S n : Int) (hspf : 0 < spf) :
    n < (S + spf - 1) / spf ↔ n * spf < S := by
  have h := @Int.le_ediv_iff_mul_le (n + 1) (S + spf - 1) spf hspf
  have e : (n + 1) * spf = n * spf + spf := by ring
  rw [e] at h
  constructor
  · intro hn
    have := h.1 (by omega)
    omega
  · intro hn
    have := h.2 (by omega)
    omega

/-! ## Frames written by the channel loops -/

/-- One copy per channel: `len` samples of `src` from `soff` on go to `doff` on in `f`. -/
theorem copy_channels {α : Type} (nch cap : Int) (f src : AudioFrame α) (doff soff len : Int)
    (hf : ∀ c : Nat, (c : Int) < nch → ∃ w, f.data[c]? = some w ∧ (w.length : Int) = cap)
    (hsrc : ∀ c : Nat, (c : Int) < nch → ∃ b, src.data[c]? = some b ∧ (b.length : Int) = cap)
    (h0 : 0 ≤ len) (h1 : 0 ≤ doff) (h2 : 0 ≤ soff) (h3 : doff + len ≤ cap)
    (h4 : soff + len ≤ cap) :
    ∃ out, forEachChannel nch f (fun channel w =>
          (src.data[channel]?).bind (fun r => memcpy w doff r soff len)) = some out
      ∧ out.length = f.length
      ∧ (∀ c : Nat, (c : Int) < nch → ∃ w, out.data[c]? = some w ∧ (w.length : Int) = cap)
      ∧ ∀ c : Nat, (c : Int) < nch → ∀ j : Nat,
          out.sample c j = if doff ≤ j ∧ (j : Int) < doff + len
            then src.sample c (soff + (j - doff)).toNat else f.sample c j := by
  have key : ∀ c : Nat, (c : Int) < nch → ∃ w b r, f.data[c]? = some w ∧ src.data[c]? = some b
      ∧ (src.data[c]?).bind (fun r => memcpy w doff r soff len) = some r
      ∧ (r.length : Int) = cap
      ∧ ∀ j : Nat, r[j]? = if doff ≤ j ∧ (j : Int) < doff + len
          then b[(soff + (j - doff)).toNat]? else w[j]? := by
    intro c hc
    obtain ⟨w, ew, lw⟩ := hf c hc
    obtain ⟨b, eb, lb⟩ := hsrc c hc
    obtain ⟨r, er, lr, gr⟩ := memcpy_spec w doff b soff len h0 h1 h2 (by omega) (by omega)
    exact ⟨w, b, r, ew, eb, by rw [eb]; exact er, by omega, gr⟩
  obtain ⟨out, e, l, g⟩ := forEachChannel_spec nch f
    (fun channel w => (src.data[channel]?).bind (fun r => memcpy w doff r soff len))
    (fun c hc => by
      obtain ⟨w, b, r, ew, _, er, _⟩ := key c hc
      exact ⟨w, r, ew, er⟩)
  refine ⟨out, e, l, ?_, ?_⟩
  · intro c hc
    obtain ⟨w, b, r, ew, _, er, lr, _⟩ := key c hc
    exact ⟨r, by rw [g c hc, ew]; exact er, lr⟩
  · intro c hc j
    obtain ⟨w, b, r, ew, eb, er, _, gr⟩ := key c hc
    have eo : out.data[c]? = some r := by rw [g c hc, ew]; exact er
    simp only [AudioFrame.sample, eo, ew, eb, Option.some_bind]
    exact gr j

/-- The two copies per channel of a stitched frame: the first `c1` samples come from `f1` at
`off`, the next `c2` from the head of `f2`. -/
theorem stitch_channels {α : Type} (fmt : VSAudioFormat) (junk : α) (samplesOut : Int)
    (f1 f2 : AudioFrame α) (off c1 c2 : Int)
    (hf1 : ∀ c : Nat, (c : Int) < fmt.numChannels →
      ∃ b, f1.data[c]? = some b ∧ (b.length : Int) = fmt.samplesPerFrame)
    (hf2 : ∀ c : Nat, (c : Int) < fmt.numChannels →
      ∃ b, f2.data[c]? = some b ∧ (b.length : Int) = fmt.samplesPerFrame)
    (hoff : 0 ≤ off) (hc1 : 0 ≤ c1) (hc2 : 0 ≤ c2) (h1 : off + c1 ≤ fmt.samplesPerFrame)
    (h2 : c1 + c2 ≤ fmt.samplesPerFrame) :
    ∃ out, forEachChannel fmt.numChannels (newAudioFrame fmt samplesOut junk)
          (fun channel w => (f1.data[channel]?).bind (fun r1 =>
            (memcpy w 0 r1 off c1).bind (fun w' =>
              (f2.data[channel]?).bind (fun r2 => memcpy w' c1 r2 0 c2)))) = some out
      ∧ out.length = samplesOut
      ∧ ∀ c : Nat, (c : Int) < fmt.numChannels → ∀ j : Nat, (j : Int) < c1 + c2 →
          out.sample c j = if (j : Int) < c1 then f1.sample c (off + j).toNat
            else f2.sample c (j - c1).toNat := by
  have key : ∀ c : Nat, (c : Int) < fmt.numChannels → ∃ b1 b2 r,
      f1.data[c]? = some b1 ∧ f2.data[c]? = some b2
      ∧ (f1.data[c]?).bind (fun r1 =>
          (memcpy (List.replicate fmt.samplesPerFrame.toNat junk) 0 r1 off c1).bind (fun w' =>
            (f2.data[c]?).bind (fun r2 => memcpy w' c1 r2 0 c2))) = some r
      ∧ ∀ j : Nat, (j : Int) < c1 + c2 →
          r[j]? = if (j : Int) < c1 then b1[(off + j).toNat]? else b2[(j - c1).toNat]? := by
    intro c hc
    obtain ⟨b1, e1, l1⟩ := hf1 c hc
    obtain ⟨b2, e2, l2⟩ := hf2 c hc
    obtain ⟨r, er, _, gr⟩ := memcpy_two (List.replicate fmt.samplesPerFrame.toNat junk) b1 b2
      fmt.samplesPerFrame off c1 c2 (by rw [List.length_replicate]; omega) l1 (by omega)
      hoff hc1 hc2 h1 h2
    refine ⟨b1, b2, r, e1, e2, ?_, gr⟩
    simp only [e1, e2, Option.some_bind]
    exact er
  obtain ⟨out, e, l, g⟩ := forEachChannel_spec fmt.numChannels
    (newAudioFrame fmt samplesOut junk)
    (fun channel w => (f1.data[channel]?).bind (fun r1 =>
      (memcpy w 0 r1 off c1).bind (fun w' =>
        (f2.data[channel]?).bind (fun r2 => memcpy w' c1 r2 0 c2))))
    (fun c hc => by
      obtain ⟨b1, b2, r, _, _, er, _⟩ := key c hc
      exact ⟨_, r, newAudioFrame_data fmt samplesOut junk c hc, er⟩)
  refine ⟨out, e, l, ?_⟩
  intro c hc j hj
  obtain ⟨b1, b2, r, e1, e2, er, gr⟩ := key c hc
  have eo : out.data[c]? = some r := by
    rw [g c hc, newAudioFrame_data fmt samplesOut junk c hc]
    exact er
  simp only [AudioFrame.sample, eo, e1, e2, Option.some_bind]
  exact gr j hj

/-! ## AudioSplice2 -/

/-- A sample count whose frame count fits a C `int` stays far below the `int64_t` range. -/
theorem samples_le_of_frames_le (spf T : Int) (hspf : 1 ≤ spf) (hspfmax : spf ≤ INT_MAX)
    (hrep : (T + spf - 1) / spf ≤ INT_MAX) : T ≤ 2147483647 * 2147483647 := by
  have h1 : ¬ ((T + spf - 1) / spf) * spf < T := fun h =>
    lt_irrefl _ ((lt_ceil_iff spf T _ (by omega)).2 h)
  have h2 : ((T + spf - 1) / spf) * spf ≤ INT_MAX * spf :=
    Int.mul_le_mul_of_nonneg_right hrep (by omega)
  unfold INT_MAX at h2 hspfmax
  omega

/-- On two descriptors of the same format whose merged frame count fits a C `int`,
`audioSplice2Create` builds the filter with the exact sample and frame counts. -/
theorem audioSplice2Create_ok (isSameAudioFormat : VSAudioInfo → VSAudioInfo → Bool)
    (node1 node2 : Nat) (ai1 ai2 : VSAudioInfo)
    (hsame : isSameAudioFormat ai1 ai2 = true)
    (hspf : 1 ≤ ai1.format.samplesPerFrame) (hspfmax : ai1.format.samplesPerFrame ≤ INT_MAX)
    (hS1 : 0 ≤ ai1.numSamples) (hS2 : 0 ≤ ai2.numSamples)
    (hrep : (ai1.numSamples + ai2.numSamples + ai1.format.samplesPerFrame - 1)
      / ai1.format.samplesPerFrame ≤ INT_MAX) :
    audioSplice2Create isSameAudioFormat node1 node2 ai1 ai2
      = .filter (⟨{ ai1 with
            numSamples := ai1.numSamples + ai2.numSamples
            numFrames := (ai1.numSamples + ai2.numSamples + ai1.format.samplesPerFrame - 1)
              / ai1.format.samplesPerFrame },
          node1, node2, ai1.numFrames, ai1.numSamples, ai2.numSamples⟩,
        if ai1.numSamples % ai1.format.samplesPerFrame ≠ 0 then .stitching
        else .passthroughFn) := by
  have hT := samples_le_of_frames_le _ _ hspf hspfmax hrep
  have hmax := hspfmax
  unfold INT_MAX at hmax
  have hnn : 0 ≤ (ai1.numSamples + ai2.numSamples + ai1.format.samplesPerFrame - 1)
      / ai1.format.samplesPerFrame := Int.ediv_nonneg (by omega) (by omega)
  have w1 : wrapInt64 (ai1.numSamples + ai2.numSamples) = ai1.numSamples + ai2.numSamples :=
    wrapInt64_eq_self (by omega)
  have w2 : wrapInt64 (ai1.numSamples + ai2.numSamples + ai1.format.samplesPerFrame)
      = ai1.numSamples + ai2.numSamples + ai1.format.samplesPerFrame :=
    wrapInt64_eq_self (by omega)
  have w3 : wrapInt64 (ai1.numSamples + ai2.numSamples + ai1.format.samplesPerFrame - 1)
      = ai1.numSamples + ai2.numSamples + ai1.format.samplesPerFrame - 1 :=
    wrapInt64_eq_self (by omega)
  have w4 : wrapInt32 ((ai1.numSamples + ai2.numSamples + ai1.format.samplesPerFrame - 1)
      / ai1.format.samplesPerFrame)
      = (ai1.numSamples + ai2.numSamples + ai1.format.samplesPerFrame - 1)
        / ai1.format.samplesPerFrame :=
    wrapInt32_eq_self ⟨by unfold INT_MIN; omega, hrep⟩
  unfold audioSplice2Create
  simp only [hsame, w1, w2, w3, Int.tdiv_eq_ediv (show 0 ≤ ai1.numSamples + ai2.numSamples
    + ai1.format.samplesPerFrame - 1 by omega) (show 0 ≤ ai1.format.samplesPerFrame by omega),
    w4, Int.tmod_eq_emod hS1 (show 0 ≤ ai1.format.samplesPerFrame by omega)]
  rw [if_neg (by simp), if_neg (by omega)]

/-- Arithmetic of the seam frame `n = numFrames1 - 1` of a misaligned splice. -/
theorem seam_arith (spf S1 nf1 n : Int) (hspf : 1 ≤ spf) (hS1 : 1 ≤ S1)
    (hmis : S1 % spf ≠ 0) (hnf1 : nf1 = (S1 + spf - 1) / spf) (hn : n = nf1 - 1) :
    0 ≤ n ∧ n * spf < S1 ∧ S1 < n * spf + spf := by
  have a0 : 0 < nf1 := by rw [hnf1]; exact (lt_ceil_iff spf S1 0 (by omega)).2 (by omega)
  have a1 : n * spf < S1 := (lt_ceil_iff spf S1 n (by omega)).1 (by omega)
  have a2 : ¬ (n + 1) * spf < S1 := fun h => by
    have := (lt_ceil_iff spf S1 (n + 1) (by omega)).2 h
    omega
  have a3 : (n + 1) * spf = n * spf + spf := by ring
  have a4 : S1 ≠ (n + 1) * spf := fun h => hmis (by rw [h]; exact Int.mul_emod_left _ _)
  omega

/-- Arithmetic of a frame after the seam, `numFrames1 ≤ n`, of a misaligned splice: the offset
`f1offset` is the distance from the end of clip 1 to the next frame boundary. -/
theorem tail_arith (d : AudioSplice2Data) (hspf : 1 ≤ d.ai.format.samplesPerFrame)
    (hspfmax : d.ai.format.samplesPerFrame ≤ INT_MAX) (hS1 : 1 ≤ d.numSamples1)
    (hmis : d.numSamples1 % d.ai.format.samplesPerFrame ≠ 0)
    (hnf1 : d.numFrames1 = (d.numSamples1 + d.ai.format.samplesPerFrame - 1)
      / d.ai.format.samplesPerFrame) :
    audioSplice2F1offset d = d.numFrames1 * d.ai.format.samplesPerFrame - d.numSamples1
      ∧ 0 < d.numFrames1 * d.ai.format.samplesPerFrame - d.numSamples1
      ∧ d.numFrames1 * d.ai.format.samplesPerFrame - d.numSamples1
          < d.ai.format.samplesPerFrame := by
  obtain ⟨a0, a1, a2⟩ := seam_arith d.ai.format.samplesPerFrame d.numSamples1 d.numFrames1
    (d.numFrames1 - 1) hspf hS1 hmis hnf1 rfl
  have e1 : (d.numFrames1 - 1) * d.ai.format.samplesPerFrame
      = d.numFrames1 * d.ai.format.samplesPerFrame - d.ai.format.samplesPerFrame := by ring
  rw [e1] at a1 a2
  have hsplit : d.numSamples1 - 1
      = (d.numSamples1 - (d.numFrames1 * d.ai.format.samplesPerFrame
          - d.ai.format.samplesPerFrame) - 1)
        + (d.numFrames1 - 1) * d.ai.format.samplesPerFrame := by
    rw [e1]; ring
  have hmod : (d.numSamples1 - 1) % d.ai.format.samplesPerFrame
      = d.numSamples1 - (d.numFrames1 * d.ai.format.samplesPerFrame
          - d.ai.format.samplesPerFrame) - 1 := by
    conv_lhs => rw [hsplit]
    rw [Int.add_mul_emod_self, Int.emod_eq_of_lt (by omega) (by omega)]
  unfold INT_MAX at hspfmax
  refine ⟨?_, by omega, by omega⟩
  unfold audioSplice2F1offset
  rw [Int.tmod_eq_emod (by omega) (by omega), hmod]
  rw [wrapInt32_eq_self ⟨by unfold INT_MIN; omega, by unfold INT_MAX; omega⟩]
  omega

/-- The frames of a misaligned AudioSplice2 filter: frame `n` has the length of chunk `n` of the
concatenated streams and holds its samples. -/
theorem audioSplice2Getframe_spec {α : Type} (getFrameFilter : Nat → Int → AudioFrame α)
    (junk : α) (d : AudioSplice2Data) (stream1 stream2 : Nat → List α)
    (hspf : 1 ≤ d.ai.format.samplesPerFrame) (hspfmax : d.ai.format.samplesPerFrame ≤ INT_MAX)
    (hS1 : 1 ≤ d.numSamples1) (hS2 : 0 ≤ d.numSamples2)
    (hmis : d.numSamples1 % d.ai.format.samplesPerFrame ≠ 0)
    (hnf1 : d.numFrames1 = (d.numSamples1 + d.ai.format.samplesPerFrame - 1)
      / d.ai.format.samplesPerFrame)
    (hns : d.ai.numSamples = d.numSamples1 + d.numSamples2)
    (hnf : d.ai.numFrames = (d.ai.numSamples + d.ai.format.samplesPerFrame - 1)
      / d.ai.format.samplesPerFrame)
    (hrep : d.ai.numFrames ≤ INT_MAX)
    (hclip1 : IsAudioClip d.ai.format d.numSamples1 stream1 (getFrameFilter d.node1))
    (hclip2 : IsAudioClip d.ai.format d.numSamples2 stream2 (getFrameFilter d.node2))
    (n : Int) (hn0 : 0 ≤ n) (hn1 : n < d.ai.numFrames) :
    ∃ out, audioSplice2Getframe getFrameFilter junk d n .arAllFramesReady = .frame out
      ∧ out.length = min d.ai.format.samplesPerFrame
          (d.ai.numSamples - n * d.ai.format.samplesPerFrame)
      ∧ ∀ c : Nat, (c : Int) < d.ai.format.numChannels → ∀ j : Nat, (j : Int) < out.length →
          out.sample c j
            = (stream1 c ++ stream2 c)[(n * d.ai.format.samplesPerFrame).toNat + j]? := by
  obtain ⟨hoff, o1, o2⟩ := tail_arith d hspf hspfmax hS1 hmis hnf1
  obtain ⟨a0, a1, a2⟩ := seam_arith d.ai.format.samplesPerFrame d.numSamples1 d.numFrames1
    (d.numFrames1 - 1) hspf hS1 hmis hnf1 rfl
  have e1 : (d.numFrames1 - 1) * d.ai.format.samplesPerFrame
      = d.numFrames1 * d.ai.format.samplesPerFrame - d.ai.format.samplesPerFrame := by ring
  rw [e1] at a1 a2
  have hnS : n * d.ai.format.samplesPerFrame < d.ai.numSamples :=
    (lt_ceil_iff _ _ n (by omega)).1 (by rw [← hnf]; exact hn1)
  have hn00 : 0 ≤ n * d.ai.format.samplesPerFrame := Int.mul_nonneg hn0 (by omega)
  have hmax := hspfmax
  have hrep' := hrep
  unfold INT_MAX at hmax hrep'
  have hso : audioSplice2SamplesOut d n = min d.ai.format.samplesPerFrame
      (d.ai.numSamples - n * d.ai.format.samplesPerFrame) := by
    unfold audioSplice2SamplesOut
    exact wrapInt32_eq_self ⟨by unfold INT_MIN; omega, by unfold INT_MAX; omega⟩
  simp only [audioSplice2Getframe]
  by_cases c1 : n < d.numFrames1 - 1
  · rw [if_pos c1]
    have b1 : (n + 1) * d.ai.format.samplesPerFrame < d.numSamples1 :=
      (lt_ceil_iff _ _ (n + 1) (by omega)).1 (by omega)
    have e2 : (n + 1) * d.ai.format.samplesPerFrame
        = n * d.ai.format.samplesPerFrame + d.ai.format.samplesPerFrame := by ring
    have hl := hclip1.length_frame n hn0 (by omega)
    refine ⟨_, rfl, by rw [hl]; omega, ?_⟩
    intro c hc j hj
    have hs := hclip1.length_stream c hc
    rw [hclip1.samples n hn0 (by omega) c hc j hj, List.getElem?_append_left (by omega)]
  · rw [if_neg c1]
    by_cases c2 : n = d.numFrames1 - 1
    · simp only [if_pos c2]
      have en : n * d.ai.format.samplesPerFrame
          = d.numFrames1 * d.ai.format.samplesPerFrame - d.ai.format.samplesPerFrame := by
        rw [c2, e1]
      have hl1 := hclip1.length_frame n hn0 (by omega)
      have hseam : audioSplice2SeamCopy d n (getFrameFilter d.node1 n).length
          = (d.numSamples1 - n * d.ai.format.samplesPerFrame,
             min d.ai.format.samplesPerFrame (d.ai.numSamples - n * d.ai.format.samplesPerFrame)
               - (d.numSamples1 - n * d.ai.format.samplesPerFrame)) := by
        unfold audioSplice2SeamCopy
        simp only [hso, hl1, Prod.mk.injEq]
        refine ⟨by omega, ?_⟩
        rw [wrapInt32_eq_self ⟨by unfold INT_MIN; omega, by unfold INT_MAX; omega⟩]
        omega
      rw [hseam]
      simp only []
      obtain ⟨out, e, l, g⟩ := stitch_channels d.ai.format junk
        (audioSplice2SamplesOut d n)
        (getFrameFilter d.node1 n) (getFrameFilter d.node2 0) 0
        (d.numSamples1 - n * d.ai.format.samplesPerFrame)
        (min d.ai.format.samplesPerFrame (d.ai.numSamples - n * d.ai.format.samplesPerFrame)
          - (d.numSamples1 - n * d.ai.format.samplesPerFrame))
        (hclip1.capacity _) (hclip2.capacity 0) (le_refl 0) (by omega) (by omega) (by omega)
        (by omega)
      rw [e]
      refine ⟨out, rfl, by rw [l, hso], ?_⟩
      intro c hc j hj
      rw [l, hso] at hj
      have hs := hclip1.length_stream c hc
      rw [g c hc j (by omega)]
      by_cases hj1 : (j : Int) < d.numSamples1 - n * d.ai.format.samplesPerFrame
      · rw [if_pos hj1, hclip1.samples n hn0 (by omega) c hc _ (by omega),
          List.getElem?_append_left (by omega)]
        congr 1
        omega
      · have z : (0 : Int) * d.ai.format.samplesPerFrame = 0 := by ring
        have hl2 := hclip2.length_frame 0 (le_refl 0) (by omega)
        rw [if_neg hj1, hclip2.samples 0 (le_refl 0) (by omega) c hc _ (by omega),
          List.getElem?_append_right (by omega)]
        congr 1
        omega
    · have c3 : d.numFrames1 ≤ n := by omega
      simp only [if_neg c2]
      have em : n * d.ai.format.samplesPerFrame
          = (n - d.numFrames1) * d.ai.format.samplesPerFrame
            + d.numFrames1 * d.ai.format.samplesPerFrame := by ring
      have e3 : (n - d.numFrames1 + 1) * d.ai.format.samplesPerFrame
          = (n - d.numFrames1) * d.ai.format.samplesPerFrame + d.ai.format.samplesPerFrame := by
        ring
      have hm0 : 0 ≤ (n - d.numFrames1) * d.ai.format.samplesPerFrame :=
        Int.mul_nonneg (by omega) (by omega)
      have hwm : wrapInt32 (n - d.numFrames1) = n - d.numFrames1 :=
        wrapInt32_eq_self ⟨by unfold INT_MIN; omega, by unfold INT_MAX; omega⟩
      have hwm1 : wrapInt32 (n - d.numFrames1 + 1) = n - d.numFrames1 + 1 :=
        wrapInt32_eq_self ⟨by unfold INT_MIN; omega, by unfold INT_MAX; omega⟩
      rw [hwm, hwm1]
      have hl1 := hclip2.length_frame (n - d.numFrames1) (by omega) (by omega)
      have htail : audioSplice2TailCopy d n (getFrameFilter d.node2 (n - d.numFrames1)).length
          = (min (min d.ai.format.samplesPerFrame
                (d.ai.numSamples - n * d.ai.format.samplesPerFrame))
              (min d.ai.format.samplesPerFrame
                (d.numSamples2 - (n - d.numFrames1) * d.ai.format.samplesPerFrame)
                - (d.numFrames1 * d.ai.format.samplesPerFrame - d.numSamples1)),
             min d.ai.format.samplesPerFrame
                (d.ai.numSamples - n * d.ai.format.samplesPerFrame)
              - min (min d.ai.format.samplesPerFrame
                  (d.ai.numSamples - n * d.ai.format.samplesPerFrame))
                (min d.ai.format.samplesPerFrame
                  (d.numSamples2 - (n - d.numFrames1) * d.ai.format.samplesPerFrame)
                  - (d.numFrames1 * d.ai.format.samplesPerFrame - d.numSamples1))) := by
        unfold audioSplice2TailCopy
        simp only [hso, hl1, hoff]
        rw [wrapInt32_eq_self ⟨by unfold INT_MIN; omega, by unfold INT_MAX; omega⟩]
        rw [wrapInt32_eq_self ⟨by unfold INT_MIN; omega, by unfold INT_MAX; omega⟩]
      rw [htail]
      simp only []
      have hlast : n + 1 < d.ai.numFrames →
          (n + 1) * d.ai.format.samplesPerFrame < d.ai.numSamples := fun h =>
        (lt_ceil_iff _ _ (n + 1) (by omega)).1 (by rw [← hnf]; exact h)
      have e4 : (n + 1) * d.ai.format.samplesPerFrame
          = n * d.ai.format.samplesPerFrame + d.ai.format.samplesPerFrame := by ring
      rw [e4] at hlast
      rw [if_pos (by
        refine ⟨by omega, ?_⟩
        by_cases hx : n = d.ai.numFrames - 1
        · right; exact ⟨by omega, hx⟩
        · left
          have := hlast (by omega)
          omega)]
      obtain ⟨out, e, l, g⟩ := stitch_channels d.ai.format junk
        (audioSplice2SamplesOut d n)
        (getFrameFilter d.node2 (n - d.numFrames1))
        (getFrameFilter d.node2 (n - d.numFrames1 + 1))
        (audioSplice2F1offset d)
        (min (min d.ai.format.samplesPerFrame
            (d.ai.numSamples - n * d.ai.format.samplesPerFrame))
          (min d.ai.format.samplesPerFrame
            (d.numSamples2 - (n - d.numFrames1) * d.ai.format.samplesPerFrame)
            - (d.numFrames1 * d.ai.format.samplesPerFrame - d.numSamples1)))
        (min d.ai.format.samplesPerFrame
            (d.ai.numSamples - n * d.ai.format.samplesPerFrame)
          - min (min d.ai.format.samplesPerFrame
              (d.ai.numSamples - n * d.ai.format.samplesPerFrame))
            (min d.ai.format.samplesPerFrame
              (d.numSamples2 - (n - d.numFrames1) * d.ai.format.samplesPerFrame)
              - (d.numFrames1 * d.ai.format.samplesPerFrame - d.numSamples1)))
        (hclip2.capacity _) (hclip2.capacity _) (by omega) (by omega) (by omega) (by omega)
        (by omega)
      rw [e]
      refine ⟨out, rfl, by rw [l, hso], ?_⟩
      intro c hc j hj
      rw [l, hso] at hj
      have hs := hclip1.length_stream c hc
      rw [g c hc j (by omega), List.getElem?_append_right (by omega)]
      by_cases hj1 : (j : Int) < min (min d.ai.format.samplesPerFrame
            (d.ai.numSamples - n * d.ai.format.samplesPerFrame))
          (min d.ai.format.samplesPerFrame
            (d.numSamples2 - (n - d.numFrames1) * d.ai.format.samplesPerFrame)
            - (d.numFrames1 * d.ai.format.samplesPerFrame - d.numSamples1))
      · rw [if_pos hj1, hclip2.samples (n - d.numFrames1) (by omega) (by omega) c hc _
          (by omega)]
        congr 1
        omega
      · have hin : (n - d.numFrames1 + 1) * d.ai.format.samplesPerFrame < d.numSamples2 := by
          omega
        have hl2 := hclip2.length_frame (n - d.numFrames1 + 1) (by omega) hin
        rw [if_neg hj1, hclip2.samples (n - d.numFrames1 + 1) (by omega) hin c hc _
          (by omega)]
        congr 1
        omega

/-- The clip `chunkedClip` is a well-formed upstream clip of its streams. -/
theorem chunkedClip_isAudioClip {α : Type} (fmt : VSAudioFormat) (S : Int) (junk : α)
    (stream : Nat → List α) (hspf : 0 ≤ fmt.samplesPerFrame)
    (hlen : ∀ c : Nat, (c : Int) < fmt.numChannels → ((stream c).length : Int) = S) :
    IsAudioClip fmt S stream (chunkedClip fmt S junk stream) := by
  have hdata : ∀ (i : Int) (c : Nat), (c : Int) < fmt.numChannels →
      (chunkedClip fmt S junk stream i).data[c]?
        = some (((stream c).drop (i * fmt.samplesPerFrame).toNat).take
              fmt.samplesPerFrame.toNat
            ++ List.replicate (fmt.samplesPerFrame.toNat
              - (((stream c).drop (i * fmt.samplesPerFrame).toNat).take
                  fmt.samplesPerFrame.toNat).length) junk) := by
    intro i c hc
    unfold chunkedClip
    simp only [List.getElem?_map]
    rw [List.getElem?_range (by omega)]
    rfl
  refine ⟨hlen, ?_, fun _ _ _ => rfl, ?_⟩
  · intro i c hc
    refine ⟨_, hdata i c hc, ?_⟩
    simp only [List.length_append, List.length_replicate, List.length_take, List.length_drop]
    omega
  · intro i hi0 hi1 c hc j hj
    have hl := hlen c hc
    have hj' : (j : Int) < min fmt.samplesPerFrame (S - i * fmt.samplesPerFrame) := hj
    have hnn : 0 ≤ i * fmt.samplesPerFrame := Int.mul_nonneg hi0 hspf
    simp only [AudioFrame.sample, hdata i c hc, Option.some_bind]
    rw [List.getElem?_append_left (by
      simp only [List.length_take, List.length_drop]
      omega), List.getElem?_take, if_pos (by omega), List.getElem?_drop]

/-- C1. AudioSplice2, misaligned case: for two clips of the same format with `S1, S2 ≥ 1`
samples, `S1 mod spf ≠ 0`, upstream frames that are the chunks of their streams, and a merged
frame count that fits a C `int`, `audioSplice2Create` selects the stitching frame function, and
for every output index `0 ≤ n < ceil ((S1 + S2) / spf)` the frame it returns has length
`min (spf, S1 + S2 - n * spf)` and its sample `j` in every channel is sample `n * spf + j` of
the concatenation of the two streams. -/
theorem audioSplice2_misaligned_concatenation {α : Type}
    (getFrameFilter : Nat → Int → AudioFrame α) (junk : α)
    (isSameAudioFormat : VSAudioInfo → VSAudioInfo → Bool) (node1 node2 : Nat)
    (ai1 ai2 : VSAudioInfo) (stream1 stream2 : Nat → List α)
    (hsame : isSameAudioFormat ai1 ai2 = true)
    (hspf : 1 ≤ ai1.format.samplesPerFrame) (hspfmax : ai1.format.samplesPerFrame ≤ INT_MAX)
    (hS1 : 1 ≤ ai1.numSamples) (hS2 : 1 ≤ ai2.numSamples)
    (hmis : ai1.numSamples % ai1.format.samplesPerFrame ≠ 0)
    (hnf1 : ai1.numFrames = (ai1.numSamples + ai1.format.samplesPerFrame - 1)
      / ai1.format.samplesPerFrame)
    (hrep : (ai1.numSamples + ai2.numSamples + ai1.format.samplesPerFrame - 1)
      / ai1.format.samplesPerFrame ≤ INT_MAX)
    (hclip1 : IsAudioClip ai1.format ai1.numSamples stream1 (getFrameFilter node1))
    (hclip2 : IsAudioClip ai1.format ai2.numSamples stream2 (getFrameFilter node2)) :
    ∃ d, audioSplice2Create isSameAudioFormat node1 node2 ai1 ai2 = .filter (d, .stitching)
      ∧ ∀ n : Int, 0 ≤ n →
          n < (ai1.numSamples + ai2.numSamples + ai1.format.samplesPerFrame - 1)
            / ai1.format.samplesPerFrame →
          ∃ out, audioSplice2Getframe getFrameFilter junk d n .arAllFramesReady = .frame out
            ∧ out.length = min ai1.format.samplesPerFrame
                (ai1.numSamples + ai2.numSamples - n * ai1.format.samplesPerFrame)
            ∧ ∀ c : Nat, (c : Int) < ai1.format.numChannels →
                ∀ j : Nat, (j : Int) < out.length →
                  out.sample c j
                    = (stream1 c ++ stream2 c)[(n * ai1.format.samplesPerFrame).toNat + j]? := by
  have hc := audioSplice2Create_ok isSameAudioFormat node1 node2 ai1 ai2 hsame hspf hspfmax
    (by omega) (by omega) hrep
  rw [if_pos hmis] at hc
  refine ⟨_, hc, ?_⟩
  intro n hn0 hn1
  exact audioSplice2Getframe_spec getFrameFilter junk _ stream1 stream2 hspf hspfmax hS1
    (by simp only []; omega) hmis hnf1 rfl rfl hrep hclip1 hclip2 n hn0 hn1

theorem exampleHost_clip1 :
    IsAudioClip exampleFormat 6 exampleStream1 (exampleHost 0) :=
  chunkedClip_isAudioClip exampleFormat 6 0 exampleStream1 (by decide)
    (fun c _ => by unfold exampleStream1; rw [List.length_map, List.length_range]; rfl)

theorem exampleHost_clip2 :
    IsAudioClip exampleFormat 5 exampleStream2 (exampleHost 1) :=
  chunkedClip_isAudioClip exampleFormat 5 0 exampleStream2 (by decide)
    (fun c _ => by unfold exampleStream2; rw [List.length_map, List.length_range]; rfl)

/-- Witness of C1: clips of 6 and 5 samples in frames of 4; the seam frame `n = 1` holds the
last two samples of clip 1 followed by the first two of clip 2, in both channels. -/
theorem audioSplice2_misaligned_concatenation_witness :
    ∃ d out, audioSplice2Create (fun _ _ => true) 0 1 ⟨exampleFormat, 48000, 6, 2⟩
          ⟨exampleFormat, 48000, 5, 2⟩ = .filter (d, .stitching)
      ∧ audioSplice2Getframe exampleHost 0 d 1 .arAllFramesReady = .frame out
      ∧ out.length = 4
      ∧ [out.sample 0 0, out.sample 0 1, out.sample 0 2, out.sample 0 3]
          = [some 14, some 15, some 20, some 21]
      ∧ [out.sample 1 0, out.sample 1 1, out.sample 1 2, out.sample 1 3]
          = [some 114, some 115, some 120, some 121] := by
  obtain ⟨d, hd, h⟩ := audioSplice2_misaligned_concatenation exampleHost 0 (fun _ _ => true)
    0 1 ⟨exampleFormat, 48000, 6, 2⟩ ⟨exampleFormat, 48000, 5, 2⟩ exampleStream1 exampleStream2
    rfl (by decide) (by decide) (by decide) (by decide) (by decide) (by decide) (by decide)
    exampleHost_clip1 exampleHost_clip2
  obtain ⟨out, e, l, g⟩ := h 1 (by decide) (by decide)
  have l' : out.length = 4 := by rw [l]; decide
  refine ⟨d, out, hd, e, l', ?_, ?_⟩
  · rw [g 0 (by decide) 0 (by rw [l']; decide), g 0 (by decide) 1 (by rw [l']; decide),
      g 0 (by decide) 2 (by rw [l']; decide), g 0 (by decide) 3 (by rw [l']; decide)]
    decide
  · rw [g 1 (by decide) 0 (by rw [l']; decide), g 1 (by decide) 1 (by rw [l']; decide),
      g 1 (by decide) 2 (by rw [l']; decide), g 1 (by decide) 3 (by rw [l']; decide)]
    decide

/-- The copy lengths of the stitched frames of a misaligned AudioSplice2 filter. -/
theorem audioSplice2_copy_spec {α : Type} (getFrameFilter : Nat → Int → AudioFrame α)
    (d : AudioSplice2Data) (stream1 stream2 : Nat → List α)
    (hspf : 1 ≤ d.ai.format.samplesPerFrame) (hspfmax : d.ai.format.samplesPerFrame ≤ INT_MAX)
    (hS1 : 1 ≤ d.numSamples1) (hS2 : 0 ≤ d.numSamples2)
    (hmis : d.numSamples1 % d.ai.format.samplesPerFrame ≠ 0)
    (hnf1 : d.numFrames1 = (d.numSamples1 + d.ai.format.samplesPerFrame - 1)
      / d.ai.format.samplesPerFrame)
    (hns : d.ai.numSamples = d.numSamples1 + d.numSamples2)
    (hnf : d.ai.numFrames = (d.ai.numSamples + d.ai.format.samplesPerFrame - 1)
      / d.ai.format.samplesPerFrame)
    (hrep : d.ai.numFrames ≤ INT_MAX)
    (hclip1 : IsAudioClip d.ai.format d.numSamples1 stream1 (getFrameFilter d.node1))
    (hclip2 : IsAudioClip d.ai.format d.numSamples2 stream2 (getFrameFilter d.node2))
    (n : Int) (hn0 : 0 ≤ n) (hn1 : n < d.ai.numFrames) :
    (n = d.numFrames1 - 1 →
      (audioSplice2SeamCopy d n (getFrameFilter d.node1 n).length).1
          + (audioSplice2SeamCopy d n (getFrameFilter d.node1 n).length).2
        = audioSplice2SamplesOut d n
      ∧ 0 ≤ (audioSplice2SeamCopy d n (getFrameFilter d.node1 n).length).1
      ∧ 0 ≤ (audioSplice2SeamCopy d n (getFrameFilter d.node1 n).length).2)
    ∧ (d.numFrames1 - 1 < n →
      (audioSplice2TailCopy d n
            (getFrameFilter d.node2 (wrapInt32 (n - d.numFrames1))).length).1
          + (audioSplice2TailCopy d n
            (getFrameFilter d.node2 (wrapInt32 (n - d.numFrames1))).length).2
        = audioSplice2SamplesOut d n
      ∧ 0 < (audioSplice2TailCopy d n
            (getFrameFilter d.node2 (wrapInt32 (n - d.numFrames1))).length).1
      ∧ 0 ≤ (audioSplice2TailCopy d n
            (getFrameFilter d.node2 (wrapInt32 (n - d.numFrames1))).length).2
      ∧ ((audioSplice2TailCopy d n
            (getFrameFilter d.node2 (wrapInt32 (n - d.numFrames1))).length).2 = 0 →
          n = d.ai.numFrames - 1)) := by
  obtain ⟨hoff, o1, o2⟩ := tail_arith d hspf hspfmax hS1 hmis hnf1
  obtain ⟨a0, a1, a2⟩ := seam_arith d.ai.format.samplesPerFrame d.numSamples1 d.numFrames1
    (d.numFrames1 - 1) hspf hS1 hmis hnf1 rfl
  have e1 : (d.numFrames1 - 1) * d.ai.format.samplesPerFrame
      = d.numFrames1 * d.ai.format.samplesPerFrame - d.ai.format.samplesPerFrame := by ring
  rw [e1] at a1 a2
  have hnS : n * d.ai.format.samplesPerFrame < d.ai.numSamples :=
    (lt_ceil_iff _ _ n (by omega)).1 (by rw [← hnf]; exact hn1)
  have hn00 : 0 ≤ n * d.ai.format.samplesPerFrame := Int.mul_nonneg hn0 (by omega)
  have hmax := hspfmax
  have hrep' := hrep
  unfold INT_MAX at hmax hrep'
  have hso : audioSplice2SamplesOut d n = min d.ai.format.samplesPerFrame
      (d.ai.numSamples - n * d.ai.format.samplesPerFrame) := by
    unfold audioSplice2SamplesOut
    exact wrapInt32_eq_self ⟨by unfold INT_MIN; omega, by unfold INT_MAX; omega⟩
  constructor
  · intro c2
    have en : n * d.ai.format.samplesPerFrame
        = d.numFrames1 * d.ai.format.samplesPerFrame - d.ai.format.samplesPerFrame := by
      rw [c2, e1]
    have hl1 := hclip1.length_frame n hn0 (by omega)
    have hseam : audioSplice2SeamCopy d n (getFrameFilter d.node1 n).length
        = (d.numSamples1 - n * d.ai.format.samplesPerFrame,
           min d.ai.format.samplesPerFrame (d.ai.numSamples - n * d.ai.format.samplesPerFrame)
             - (d.numSamples1 - n * d.ai.format.samplesPerFrame)) := by
      unfold audioSplice2SeamCopy
      simp only [hso, hl1, Prod.mk.injEq]
      refine ⟨by omega, ?_⟩
      rw [wrapInt32_eq_self ⟨by unfold INT_MIN; omega, by unfold INT_MAX; omega⟩]
      omega
    rw [hseam, hso]
    simp only []
    omega
  · intro c3
    have em : n * d.ai.format.samplesPerFrame
        = (n - d.numFrames1) * d.ai.format.samplesPerFrame
          + d.numFrames1 * d.ai.format.samplesPerFrame := by ring
    have hm0 : 0 ≤ (n - d.numFrames1) * d.ai.format.samplesPerFrame :=
      Int.mul_nonneg (by omega) (by omega)
    have hwm : wrapInt32 (n - d.numFrames1) = n - d.numFrames1 :=
      wrapInt32_eq_self ⟨by unfold INT_MIN; omega, by unfold INT_MAX; omega⟩
    rw [hwm]
    have hl1 := hclip2.length_frame (n - d.numFrames1) (by omega) (by omega)
    have htail : audioSplice2TailCopy d n (getFrameFilter d.node2 (n - d.numFrames1)).length
        = (min (min d.ai.format.samplesPerFrame
              (d.ai.numSamples - n * d.ai.format.samplesPerFrame))
            (min d.ai.format.samplesPerFrame
              (d.numSamples2 - (n - d.numFrames1) * d.ai.format.samplesPerFrame)
              - (d.numFrames1 * d.ai.format.samplesPerFrame - d.numSamples1)),
           min d.ai.format.samplesPerFrame
              (d.ai.numSamples - n * d.ai.format.samplesPerFrame)
            - min (min d.ai.format.samplesPerFrame
                (d.ai.numSamples - n * d.ai.format.samplesPerFrame))
              (min d.ai.format.samplesPerFrame
                (d.numSamples2 - (n - d.numFrames1) * d.ai.format.samplesPerFrame)
                - (d.numFrames1 * d.ai.format.samplesPerFrame - d.numSamples1))) := by
      unfold audioSplice2TailCopy
      simp only [hso, hl1, hoff]
      rw [wrapInt32_eq_self ⟨by unfold INT_MIN; omega, by unfold INT_MAX; omega⟩]
      rw [wrapInt32_eq_self ⟨by unfold INT_MIN; omega, by unfold INT_MAX; omega⟩]
    have hlast : n + 1 < d.ai.numFrames →
        (n + 1) * d.ai.format.samplesPerFrame < d.ai.numSamples := fun h =>
      (lt_ceil_iff _ _ (n + 1) (by omega)).1 (by rw [← hnf]; exact h)
    have e4 : (n + 1) * d.ai.format.samplesPerFrame
        = n * d.ai.format.samplesPerFrame + d.ai.format.samplesPerFrame := by ring
    rw [e4] at hlast
    rw [htail, hso]
    simp only []
    refine ⟨by omega, by omega, by omega, ?_⟩
    intro hz
    by_contra hx
    have := hlast (by omega)
    omega

/-- C2. AudioSplice2 copy-length invariant: under the preconditions of the misaligned case, on
every stitched output frame the copy lengths `f1copy` and `f2copy` sum to `samplesOut`; on the
seam frame `n = numFrames1 - 1` both are `≥ 0`; on every frame `n > numFrames1 - 1`,
`f1copy > 0`, `f2copy ≥ 0`, and `f2copy = 0` only on the last output frame. -/
theorem audioSplice2_copy_lengths {α : Type}
    (getFrameFilter : Nat → Int → AudioFrame α)
    (isSameAudioFormat : VSAudioInfo → VSAudioInfo → Bool) (node1 node2 : Nat)
    (ai1 ai2 : VSAudioInfo) (stream1 stream2 : Nat → List α)
    (hsame : isSameAudioFormat ai1 ai2 = true)
    (hspf : 1 ≤ ai1.format.samplesPerFrame) (hspfmax : ai1.format.samplesPerFrame ≤ INT_MAX)
    (hS1 : 1 ≤ ai1.numSamples) (hS2 : 1 ≤ ai2.numSamples)
    (hmis : ai1.numSamples % ai1.format.samplesPerFrame ≠ 0)
    (hnf1 : ai1.numFrames = (ai1.numSamples + ai1.format.samplesPerFrame - 1)
      / ai1.format.samplesPerFrame)
    (hrep : (ai1.numSamples + ai2.numSamples + ai1.format.samplesPerFrame - 1)
      / ai1.format.samplesPerFrame ≤ INT_MAX)
    (hclip1 : IsAudioClip ai1.format ai1.numSamples stream1 (getFrameFilter node1))
    (hclip2 : IsAudioClip ai1.format ai2.numSamples stream2 (getFrameFilter node2)) :
    ∃ d, audioSplice2Create isSameAudioFormat node1 node2 ai1 ai2 = .filter (d, .stitching)
      ∧ ∀ n : Int, 0 ≤ n → n < d.ai.numFrames →
        (n = d.numFrames1 - 1 →
          (audioSplice2SeamCopy d n (getFrameFilter d.node1 n).length).1
              + (audioSplice2SeamCopy d n (getFrameFilter d.node1 n).length).2
            = audioSplice2SamplesOut d n
          ∧ 0 ≤ (audioSplice2SeamCopy d n (getFrameFilter d.node1 n).length).1
          ∧ 0 ≤ (audioSplice2SeamCopy d n (getFrameFilter d.node1 n).length).2)
        ∧ (d.numFrames1 - 1 < n →
          (audioSplice2TailCopy d n
                (getFrameFilter d.node2 (wrapInt32 (n - d.numFrames1))).length).1
              + (audioSplice2TailCopy d n
                (getFrameFilter d.node2 (wrapInt32 (n - d.numFrames1))).length).2
            = audioSplice2SamplesOut d n
          ∧ 0 < (audioSplice2TailCopy d n
                (getFrameFilter d.node2 (wrapInt32 (n - d.numFrames1))).length).1
          ∧ 0 ≤ (audioSplice2TailCopy d n
                (getFrameFilter d.node2 (wrapInt32 (n - d.numFrames1))).length).2
          ∧ ((audioSplice2TailCopy d n
                (getFrameFilter d.node2 (wrapInt32 (n - d.numFrames1))).length).2 = 0 →
              n = d.ai.numFrames - 1)) := by
  have hc := audioSplice2Create_ok isSameAudioFormat node1 node2 ai1 ai2 hsame hspf hspfmax
    (by omega) (by omega) hrep
  rw [if_pos hmis] at hc
  refine ⟨_, hc, ?_⟩
  intro n hn0 hn1
  exact audioSplice2_copy_spec getFrameFilter _ stream1 stream2 hspf hspfmax hS1
    (by simp only []; omega) hmis hnf1 rfl rfl hrep hclip1 hclip2 n hn0 hn1

/-- Witness of C2: clips of 6 and 5 samples in frames of 4. The seam frame `n = 1` copies 2 + 2
samples, the last frame `n = 2` copies 2 + 1. -/
theorem audioSplice2_copy_lengths_witness :
    ∃ d, audioSplice2Create (fun _ _ => true) 0 1 ⟨exampleFormat, 48000, 6, 2⟩
          ⟨exampleFormat, 48000, 5, 2⟩ = .filter (d, .stitching)
      ∧ ((audioSplice2SeamCopy d 1 (exampleHost d.node1 1).length).1
            + (audioSplice2SeamCopy d 1 (exampleHost d.node1 1).length).2
          = audioSplice2SamplesOut d 1)
      ∧ 0 < (audioSplice2TailCopy d 2
            (exampleHost d.node2 (wrapInt32 (2 - d.numFrames1))).length).1
      ∧ audioSplice2SeamCopy d 1 (exampleHost d.node1 1).length = (2, 2)
      ∧ audioSplice2TailCopy d 2 (exampleHost d.node2 (wrapInt32 (2 - d.numFrames1))).length
          = (2, 1) := by
  obtain ⟨d, hd, h⟩ := audioSplice2_copy_lengths exampleHost (fun _ _ => true)
    0 1 ⟨exampleFormat, 48000, 6, 2⟩ ⟨exampleFormat, 48000, 5, 2⟩ exampleStream1 exampleStream2
    rfl (by decide) (by decide) (by decide) (by decide) (by decide) (by decide) (by decide)
    exampleHost_clip1 exampleHost_clip2
  have hd' : audioSplice2Create (fun _ _ => true) 0 1 ⟨exampleFormat, 48000, 6, 2⟩
      ⟨exampleFormat, 48000, 5, 2⟩
      = .filter (⟨⟨exampleFormat, 48000, 11, 3⟩, 0, 1, 2, 6, 5⟩, .stitching) := by decide
  rw [hd'] at hd
  injection hd with hd
  injection hd with hd _
  subst hd
  exact ⟨_, hd', ((h 1 (by decide) (by decide)).1 (by decide)).1,
    ((h 2 (by decide) (by decide)).2 (by decide)).2.1, by decide, by decide⟩

/-- The frame count of a whole number of frames. -/
theorem ceil_add_of_aligned (spf S1 S2 : Int) (hspf : 1 ≤ spf) (hal : S1 % spf = 0) :
    (S1 + S2 + spf - 1) / spf = S1 / spf + (S2 + spf - 1) / spf := by
  have h : S1 + S2 + spf - 1 = (S2 + spf - 1) + (S1 / spf) * spf := by
    have := Int.ediv_add_emod S1 spf
    rw [hal, mul_comm] at this
    omega
  rw [h, Int.add_mul_ediv_right _ _ (by omega)]
  omega

theorem exampleHost3_clip1 :
    IsAudioClip exampleFormat3 6 exampleStream1 (exampleHost3 0) :=
  chunkedClip_isAudioClip exampleFormat3 6 0 exampleStream1 (by decide)
    (fun c _ => by unfold exampleStream1; rw [List.length_map, List.length_range]; rfl)

theorem exampleHost3_clip2 :
    IsAudioClip exampleFormat3 5 exampleStream2 (exampleHost3 1) :=
  chunkedClip_isAudioClip exampleFormat3 5 0 exampleStream2 (by decide)
    (fun c _ => by unfold exampleStream2; rw [List.length_map, List.length_range]; rfl)

/-- C3. AudioSplice2, aligned case: `audioSplice2Create` selects the pass-through frame function
exactly when `numSamples1 mod samplesPerFrame = 0`; in that case, for every `n` in
`[0, numFrames1 + numFrames2)`, the output frame is frame `n` of clip 1 when `n < numFrames1` and
frame `n - numFrames1` of clip 2 otherwise, and it is chunk `n` of the concatenated streams: its
length is `min (spf, S1 + S2 - n * spf)` and its sample `j` is sample `n * spf + j`. -/
theorem audioSplice2_aligned_passthrough {α : Type}
    (getFrameFilter : Nat → Int → AudioFrame α)
    (isSameAudioFormat : VSAudioInfo → VSAudioInfo → Bool) (node1 node2 : Nat)
    (ai1 ai2 : VSAudioInfo) (stream1 stream2 : Nat → List α)
    (hsame : isSameAudioFormat ai1 ai2 = true)
    (hspf : 1 ≤ ai1.format.samplesPerFrame) (hspfmax : ai1.format.samplesPerFrame ≤ INT_MAX)
    (hS1 : 0 ≤ ai1.numSamples) (hS2 : 0 ≤ ai2.numSamples)
    (hnf1 : ai1.numFrames = (ai1.numSamples + ai1.format.samplesPerFrame - 1)
      / ai1.format.samplesPerFrame)
    (hnf2 : ai2.numFrames = (ai2.numSamples + ai1.format.samplesPerFrame - 1)
      / ai1.format.samplesPerFrame)
    (hrep : (ai1.numSamples + ai2.numSamples + ai1.format.samplesPerFrame - 1)
      / ai1.format.samplesPerFrame ≤ INT_MAX)
    (hclip1 : IsAudioClip ai1.format ai1.numSamples stream1 (getFrameFilter node1))
    (hclip2 : IsAudioClip ai1.format ai2.numSamples stream2 (getFrameFilter node2)) :
    ∃ d fn, audioSplice2Create isSameAudioFormat node1 node2 ai1 ai2 = .filter (d, fn)
      ∧ (fn = .passthroughFn ↔ ai1.numSamples % ai1.format.samplesPerFrame = 0)
      ∧ (ai1.numSamples % ai1.format.samplesPerFrame = 0 →
          ∀ n : Int, 0 ≤ n → n < ai1.numFrames + ai2.numFrames →
            ∃ out, out = (if n < ai1.numFrames then getFrameFilter node1 n
                else getFrameFilter node2 (n - ai1.numFrames))
              ∧ audioSplice2PassthroughGetframe getFrameFilter d n .arAllFramesReady
                  = .frame out
              ∧ out.length = min ai1.format.samplesPerFrame
                  (ai1.numSamples + ai2.numSamples - n * ai1.format.samplesPerFrame)
              ∧ ∀ c : Nat, (c : Int) < ai1.format.numChannels →
                  ∀ j : Nat, (j : Int) < out.length →
                    out.sample c j = (stream1 c ++ stream2 c)[
                      (n * ai1.format.samplesPerFrame).toNat + j]?) := by
  have hc := audioSplice2Create_ok isSameAudioFormat node1 node2 ai1 ai2 hsame hspf hspfmax
    hS1 hS2 hrep
  refine ⟨_, _, hc, ?_, ?_⟩
  · by_cases h : ai1.numSamples % ai1.format.samplesPerFrame = 0
    · simp [h]
    · simp [h]
  · intro hal n hn0 hn1
    have hsum := ceil_add_of_aligned _ ai1.numSamples ai2.numSamples hspf hal
    have hz := ceil_add_of_aligned _ ai1.numSamples 0 hspf hal
    have hzz : (0 + ai1.format.samplesPerFrame - 1) / ai1.format.samplesPerFrame = 0 :=
      Int.ediv_eq_zero_of_lt (by omega) (by omega)
    rw [hzz] at hz
    have hq : ai1.numFrames = ai1.numSamples / ai1.format.samplesPerFrame := by
      rw [hnf1]
      simpa using hz
    have hS : ai1.numFrames * ai1.format.samplesPerFrame = ai1.numSamples := by
      have := Int.ediv_add_emod ai1.numSamples ai1.format.samplesPerFrame
      rw [hal, mul_comm, ← hq] at this
      omega
    have hnn : 0 ≤ ai1.numFrames := by
      rw [hq]
      exact Int.ediv_nonneg hS1 (by omega)
    have hmax := hrep
    unfold INT_MAX at hmax
    have hn00 : 0 ≤ n * ai1.format.samplesPerFrame := Int.mul_nonneg hn0 (by omega)
    simp only [audioSplice2PassthroughGetframe]
    by_cases c1 : n < ai1.numFrames
    · simp only [if_pos c1]
      have b0 : n * ai1.format.samplesPerFrame < ai1.numSamples :=
        (lt_ceil_iff _ _ n (by omega)).1 (by omega)
      have b1 : (n + 1) * ai1.format.samplesPerFrame
          ≤ ai1.numFrames * ai1.format.samplesPerFrame :=
        Int.mul_le_mul_of_nonneg_right (by omega) (by omega)
      have e2 : (n + 1) * ai1.format.samplesPerFrame
          = n * ai1.format.samplesPerFrame + ai1.format.samplesPerFrame := by ring
      have hl := hclip1.length_frame n hn0 b0
      refine ⟨_, rfl, rfl, by rw [hl]; omega, ?_⟩
      intro c hc' j hj
      have hs := hclip1.length_stream c hc'
      rw [hclip1.samples n hn0 b0 c hc' j hj, List.getElem?_append_left (by omega)]
    · simp only [if_neg c1]
      have hwm : wrapInt32 (n - ai1.numFrames) = n - ai1.numFrames :=
        wrapInt32_eq_self ⟨by unfold INT_MIN; omega, by unfold INT_MAX; omega⟩
      rw [hwm]
      have em : n * ai1.format.samplesPerFrame
          = (n - ai1.numFrames) * ai1.format.samplesPerFrame
            + ai1.numFrames * ai1.format.samplesPerFrame := by ring
      have hm0 : 0 ≤ (n - ai1.numFrames) * ai1.format.samplesPerFrame :=
        Int.mul_nonneg (by omega) (by omega)
      have b0 : (n - ai1.numFrames) * ai1.format.samplesPerFrame < ai2.numSamples :=
        (lt_ceil_iff _ _ _ (by omega)).1 (by omega)
      have hl := hclip2.length_frame (n - ai1.numFrames) (by omega) b0
      refine ⟨_, rfl, rfl, by rw [hl]; omega, ?_⟩
      intro c hc' j hj
      have hs := hclip1.length_stream c hc'
      rw [hclip2.samples (n - ai1.numFrames) (by omega) b0 c hc' j hj,
        List.getElem?_append_right (by omega)]
      congr 1
      omega

/-- Witness of C3: clips of 6 and 5 samples in frames of 3. Output frame 1 is frame 1 of clip 1,
output frame 2 is frame 0 of clip 2. -/
theorem audioSplice2_aligned_passthrough_witness :
    ∃ d, audioSplice2Create (fun _ _ => true) 0 1 ⟨exampleFormat3, 48000, 6, 2⟩
          ⟨exampleFormat3, 48000, 5, 2⟩ = .filter (d, .passthroughFn)
      ∧ audioSplice2PassthroughGetframe exampleHost3 d 1 .arAllFramesReady
          = .frame ⟨3, [[13, 14, 15], [113, 114, 115]]⟩
      ∧ audioSplice2PassthroughGetframe exampleHost3 d 2 .arAllFramesReady
          = .frame ⟨3, [[20, 21, 22], [120, 121, 122]]⟩ := by
  obtain ⟨d, fn, hd, hfn, h⟩ := audioSplice2_aligned_passthrough exampleHost3
    (fun _ _ => true) 0 1 ⟨exampleFormat3, 48000, 6, 2⟩ ⟨exampleFormat3, 48000, 5, 2⟩
    exampleStream1 exampleStream2 rfl (by decide) (by decide) (by decide) (by decide)
    (by decide) (by decide) (by decide) exampleHost3_clip1 exampleHost3_clip2
  have hfn' : fn = .passthroughFn := hfn.2 (by decide)
  subst hfn'
  obtain ⟨o1, e1, g1, _⟩ := h (by decide) 1 (by decide) (by decide)
  obtain ⟨o2, e2, g2, _⟩ := h (by decide) 2 (by decide) (by decide)
  refine ⟨d, hd, ?_, ?_⟩
  · rw [g1, e1]
    decide
  · rw [g2, e2]
    decide

/-- C4 (the code at the failing input). Two clips of `3072 * 2^30` samples each, in frames of
3072 samples (`2^30` frames each): the sample counts add up without wrap, so no error is
reported, but the frame count `2^31` does not fit the `int` it is stored in and the descriptor
gets `numFrames = -2147483648`. -/
theorem audioSplice2_frame_count_truncated :
    audioSplice2Create (fun _ _ => true) 0 1
        ⟨⟨4, 3072, 2⟩, 48000, 3298534883328, 1073741824⟩
        ⟨⟨4, 3072, 2⟩, 48000, 3298534883328, 1073741824⟩
      = .filter (⟨⟨⟨4, 3072, 2⟩, 48000, 6597069766656, -2147483648⟩, 0, 1, 1073741824,
          3298534883328, 3298534883328⟩, .passthroughFn) := by
  decide

/-! ## AudioTrim -/

/-- What an accepted AudioTrim keeps in its instance data: the upstream descriptor with the
trimmed sample count `T`, where `0 ≤ first`, `1 ≤ T` and `first + T ≤ S`. -/
theorem audioTrimCreate_filter (args : TrimArgs) (node : Nat) (ai : VSAudioInfo)
    (d : AudioTrimData) (h : audioTrimCreate args node ai = .filter d) :
    d.node = node ∧ d.ai.format = ai.format ∧ d.ai.numFrames = ai.numFrames
      ∧ 0 ≤ d.first ∧ 1 ≤ d.ai.numSamples ∧ d.first + d.ai.numSamples ≤ ai.numSamples := by
  obtain ⟨f, l, len⟩ := args
  unfold audioTrimCreate at h
  simp only [] at h
  split_ifs at h with h1 h2 h3 h4 h5 h6 h7 h8 h9
  all_goals
    injection h with h
    subst h
    simp only [not_or, not_and, not_le, not_lt, ge_iff_le, gt_iff_lt] at h1 h2 h3 h4 h5
    obtain ⟨h5a, h5b, h5c⟩ := h5
    refine ⟨rfl, rfl, rfl, h4, ?_, ?_⟩
  · have := h2 h6
    simp only []
    omega
  · have := h5a h6
    simp only []
    omega
  · have := h3 h8
    simp only []
    omega
  · have := h5b h8
    simp only []
    omega
  · simp only []
    omega
  · simp only []
    omega

/-- The frames of an AudioTrim filter that keeps the samples `[first, first + T)` of an upstream
clip of `S` samples: frame `n` has the length of chunk `n` of the trimmed stream and holds its
samples; with a frame-aligned start, away from the last frame, an upstream frame of the right
length is returned as it is. -/
theorem audioTrimGetframe_spec {α : Type} (getFrameFilter : Nat → Int → AudioFrame α)
    (junk : α) (d : AudioTrimData) (S : Int) (stream : Nat → List α)
    (hspf : 1 ≤ d.ai.format.samplesPerFrame) (hspfmax : d.ai.format.samplesPerFrame ≤ INT_MAX)
    (hfirst : 0 ≤ d.first) (hTS : d.first + d.ai.numSamples ≤ S)
    (hnf : d.ai.numFrames = (S + d.ai.format.samplesPerFrame - 1) / d.ai.format.samplesPerFrame)
    (hrep : d.ai.numFrames ≤ INT_MAX)
    (hclip : IsAudioClip d.ai.format S stream (getFrameFilter d.node))
    (n : Int) (hn0 : 0 ≤ n) (hn1 : n * d.ai.format.samplesPerFrame < d.ai.numSamples) :
    ∃ out, audioTrimGetframe getFrameFilter junk d n .arAllFramesReady = .frame out
      ∧ out.length = min d.ai.format.samplesPerFrame
          (d.ai.numSamples - n * d.ai.format.samplesPerFrame)
      ∧ (∀ c : Nat, (c : Int) < d.ai.format.numChannels → ∀ j : Nat, (j : Int) < out.length →
          out.sample c j
            = (stream c)[(d.first + n * d.ai.format.samplesPerFrame).toNat + j]?)
      ∧ ((n * d.ai.format.samplesPerFrame + d.first) % d.ai.format.samplesPerFrame = 0 →
          (n + 1) * d.ai.format.samplesPerFrame < d.ai.numSamples →
          (getFrameFilter d.node
              ((n * d.ai.format.samplesPerFrame + d.first) / d.ai.format.samplesPerFrame)).length
            = min d.ai.format.samplesPerFrame
                (d.ai.numSamples - n * d.ai.format.samplesPerFrame) →
          out = getFrameFilter d.node
            ((n * d.ai.format.samplesPerFrame + d.first) / d.ai.format.samplesPerFrame)) := by
  have hmax := hspfmax
  have hrep' := hrep
  unfold INT_MAX at hmax hrep'
  have hn00 : 0 ≤ n * d.ai.format.samplesPerFrame := Int.mul_nonneg hn0 (by omega)
  have hss : 0 ≤ n * d.ai.format.samplesPerFrame + d.first := by omega
  have hqr := Int.ediv_add_emod (n * d.ai.format.samplesPerFrame + d.first)
    d.ai.format.samplesPerFrame
  rw [mul_comm] at hqr
  have hr0 := Int.emod_nonneg (n * d.ai.format.samplesPerFrame + d.first)
    (show d.ai.format.samplesPerFrame ≠ 0 by omega)
  have hr1 := Int.emod_lt_of_pos (n * d.ai.format.samplesPerFrame + d.first)
    (show 0 < d.ai.format.samplesPerFrame by omega)
  have hq0 : 0 ≤ (n * d.ai.format.samplesPerFrame + d.first) / d.ai.format.samplesPerFrame :=
    Int.ediv_nonneg hss (by omega)
  have hqs0 : 0 ≤ (n * d.ai.format.samplesPerFrame + d.first) / d.ai.format.samplesPerFrame
      * d.ai.format.samplesPerFrame := Int.mul_nonneg hq0 (by omega)
  have e1 : ((n * d.ai.format.samplesPerFrame + d.first) / d.ai.format.samplesPerFrame + 1)
        * d.ai.format.samplesPerFrame
      = (n * d.ai.format.samplesPerFrame + d.first) / d.ai.format.samplesPerFrame
          * d.ai.format.samplesPerFrame + d.ai.format.samplesPerFrame := by ring
  have e2 : (n + 1) * d.ai.format.samplesPerFrame
      = n * d.ai.format.samplesPerFrame + d.ai.format.samplesPerFrame := by ring
  have hqS : (n * d.ai.format.samplesPerFrame + d.first) / d.ai.format.samplesPerFrame
      * d.ai.format.samplesPerFrame < S := by omega
  have hqlt : (n * d.ai.format.samplesPerFrame + d.first) / d.ai.format.samplesPerFrame
      < d.ai.numFrames := by
    rw [hnf]
    exact (lt_ceil_iff _ _ _ (by omega)).2 hqS
  have hwq : wrapInt32
        ((n * d.ai.format.samplesPerFrame + d.first) / d.ai.format.samplesPerFrame)
      = (n * d.ai.format.samplesPerFrame + d.first) / d.ai.format.samplesPerFrame :=
    wrapInt32_eq_self ⟨by unfold INT_MIN; omega, by unfold INT_MAX; omega⟩
  have hwq1 : wrapInt32
        ((n * d.ai.format.samplesPerFrame + d.first) / d.ai.format.samplesPerFrame + 1)
      = (n * d.ai.format.samplesPerFrame + d.first) / d.ai.format.samplesPerFrame + 1 :=
    wrapInt32_eq_self ⟨by unfold INT_MIN; omega, by unfold INT_MAX; omega⟩
  have hL : wrapInt32 (min (d.ai.numSamples - n * d.ai.format.samplesPerFrame)
        d.ai.format.samplesPerFrame)
      = min d.ai.format.samplesPerFrame
          (d.ai.numSamples - n * d.ai.format.samplesPerFrame) := by
    rw [wrapInt32_eq_self ⟨by unfold INT_MIN; omega, by unfold INT_MAX; omega⟩]
    omega
  have hw1 : wrapInt32 (d.ai.format.samplesPerFrame
        - (n * d.ai.format.samplesPerFrame + d.first) % d.ai.format.samplesPerFrame)
      = d.ai.format.samplesPerFrame
        - (n * d.ai.format.samplesPerFrame + d.first) % d.ai.format.samplesPerFrame :=
    wrapInt32_eq_self ⟨by unfold INT_MIN; omega, by unfold INT_MAX; omega⟩
  have hlq := hclip.length_frame _ hq0 hqS
  have hnew : ∀ c : Nat, (c : Int) < d.ai.format.numChannels →
      ∃ w, (newAudioFrame d.ai.format (min d.ai.format.samplesPerFrame
          (d.ai.numSamples - n * d.ai.format.samplesPerFrame)) junk).data[c]? = some w
        ∧ (w.length : Int) = d.ai.format.samplesPerFrame := by
    intro c hc
    exact ⟨_, newAudioFrame_data _ _ junk c hc, by rw [List.length_replicate]; omega⟩
  have hlast : (n + 1) * d.ai.format.samplesPerFrame < d.ai.numSamples →
      n ≠ d.ai.numFrames - 1 := by
    intro h
    have : n + 1 < d.ai.numFrames := by
      rw [hnf]
      exact (lt_ceil_iff _ _ _ (by omega)).2 (by omega)
    omega
  unfold audioTrimGetframe
  simp only [Int.tdiv_eq_ediv hss (show 0 ≤ d.ai.format.samplesPerFrame by omega),
    Int.tmod_eq_emod hss (show 0 ≤ d.ai.format.samplesPerFrame by omega), hwq, hL, hw1, hwq1]
  by_cases hb : (n * d.ai.format.samplesPerFrame + d.first) % d.ai.format.samplesPerFrame = 0
      ∧ n ≠ d.ai.numFrames - 1
  · rw [if_pos hb]
    by_cases hlen : min d.ai.format.samplesPerFrame
          (d.ai.numSamples - n * d.ai.format.samplesPerFrame)
        = (getFrameFilter d.node
            ((n * d.ai.format.samplesPerFrame + d.first) / d.ai.format.samplesPerFrame)).length
    · rw [if_pos hlen]
      refine ⟨_, rfl, hlen.symm, ?_, fun _ _ _ => rfl⟩
      intro c hc j hj
      rw [hclip.samples _ hq0 hqS c hc j hj]
      congr 1
      omega
    · rw [if_neg hlen]
      obtain ⟨out, e, l, _, g⟩ := copy_channels d.ai.format.numChannels
        d.ai.format.samplesPerFrame
        (newAudioFrame d.ai.format (min d.ai.format.samplesPerFrame
          (d.ai.numSamples - n * d.ai.format.samplesPerFrame)) junk)
        (getFrameFilter d.node
          ((n * d.ai.format.samplesPerFrame + d.first) / d.ai.format.samplesPerFrame))
        0 0 (min d.ai.format.samplesPerFrame
          (d.ai.numSamples - n * d.ai.format.samplesPerFrame))
        hnew (hclip.capacity _) (by omega) (le_refl 0) (le_refl 0) (by omega) (by omega)
      rw [e]
      refine ⟨out, rfl, l, ?_, fun _ _ hx => absurd hx.symm hlen⟩
      intro c hc j hj
      have hj' : (j : Int) < min d.ai.format.samplesPerFrame
          (d.ai.numSamples - n * d.ai.format.samplesPerFrame) := by
        rw [l] at hj
        exact hj
      rw [g c hc j, if_pos (by omega), hclip.samples _ hq0 hqS c hc _ (by omega)]
      congr 1
      omega
  · rw [if_neg hb]
    obtain ⟨o1, f1, l1, cap1, g1⟩ := copy_channels d.ai.format.numChannels
      d.ai.format.samplesPerFrame
      (newAudioFrame d.ai.format (min d.ai.format.samplesPerFrame
        (d.ai.numSamples - n * d.ai.format.samplesPerFrame)) junk)
      (getFrameFilter d.node
        ((n * d.ai.format.samplesPerFrame + d.first) / d.ai.format.samplesPerFrame))
      0 (d.ai.format.samplesPerFrame - (d.ai.format.samplesPerFrame
        - (n * d.ai.format.samplesPerFrame + d.first) % d.ai.format.samplesPerFrame))
      (d.ai.format.samplesPerFrame
        - (n * d.ai.format.samplesPerFrame + d.first) % d.ai.format.samplesPerFrame)
      hnew (hclip.capacity _) (by omega) (le_refl 0) (by omega) (by omega) (by omega)
    have hvac : (n * d.ai.format.samplesPerFrame + d.first) % d.ai.format.samplesPerFrame = 0 →
        (n + 1) * d.ai.format.samplesPerFrame < d.ai.numSamples → False :=
      fun h1 h2 => hb ⟨h1, hlast h2⟩
    by_cases hgt : min d.ai.format.samplesPerFrame
          (d.ai.numSamples - n * d.ai.format.samplesPerFrame)
        > d.ai.format.samplesPerFrame
          - (n * d.ai.format.samplesPerFrame + d.first) % d.ai.format.samplesPerFrame
    · rw [if_pos hgt, f1]
      simp only [Option.some_bind]
      obtain ⟨o2, f2, l2, _, g2⟩ := copy_channels d.ai.format.numChannels
        d.ai.format.samplesPerFrame o1
        (getFrameFilter d.node
          ((n * d.ai.format.samplesPerFrame + d.first) / d.ai.format.samplesPerFrame + 1))
        (d.ai.format.samplesPerFrame
          - (n * d.ai.format.samplesPerFrame + d.first) % d.ai.format.samplesPerFrame)
        0 (min d.ai.format.samplesPerFrame
            (d.ai.numSamples - n * d.ai.format.samplesPerFrame)
          - (d.ai.format.samplesPerFrame
            - (n * d.ai.format.samplesPerFrame + d.first) % d.ai.format.samplesPerFrame))
        cap1 (hclip.capacity _) (by omega) (by omega) (le_refl 0) (by omega) (by omega)
      rw [f2]
      refine ⟨o2, rfl, by rw [l2, l1]; rfl, ?_, fun h1 h2 _ => (hvac h1 h2).elim⟩
      intro c hc j hj
      have hj' : (j : Int) < min d.ai.format.samplesPerFrame
          (d.ai.numSamples - n * d.ai.format.samplesPerFrame) := by
        rw [l2, l1] at hj
        exact hj
      have hq1S : ((n * d.ai.format.samplesPerFrame + d.first) / d.ai.format.samplesPerFrame
          + 1) * d.ai.format.samplesPerFrame < S := by omega
      have hlq1 := hclip.length_frame _ (by omega) hq1S
      rw [g2 c hc j]
      by_cases hj2 : d.ai.format.samplesPerFrame
          - (n * d.ai.format.samplesPerFrame + d.first) % d.ai.format.samplesPerFrame ≤ (j : Int)
      · rw [if_pos (by omega), hclip.samples _ (by omega) hq1S c hc _ (by omega)]
        congr 1
        omega
      · rw [if_neg (by omega), g1 c hc j, if_pos (by omega),
          hclip.samples _ hq0 hqS c hc _ (by omega)]
        congr 1
        omega
    · rw [if_neg hgt, f1]
      refine ⟨o1, rfl, by rw [l1]; rfl, ?_, fun h1 h2 _ => (hvac h1 h2).elim⟩
      intro c hc j hj
      have hj' : (j : Int) < min d.ai.format.samplesPerFrame
          (d.ai.numSamples - n * d.ai.format.samplesPerFrame) := by
        rw [l1] at hj
        exact hj
      rw [g1 c hc j, if_pos (by omega), hclip.samples _ hq0 hqS c hc _ (by omega)]
      congr 1
      omega

/-- C10. AudioTrim sample mapping: for an upstream clip of `S` samples in frames of `spf`
(frames full except the last) and an accepted AudioTrim with start `first` and output sample
count `T` (so `0 ≤ first` and `first + T ≤ S`), for every `n` in `[0, ceil (T / spf))` the frame
produced has length `min (spf, T - n * spf)` and its sample `j` in every channel is upstream
sample `first + n * spf + j`; when `first + n * spf` is a multiple of `spf`, `n` is not the last
frame index and the upstream frame already has that length, the upstream frame itself is
returned. -/
theorem audioTrim_sample_mapping {α : Type} (getFrameFilter : Nat → Int → AudioFrame α)
    (junk : α) (args : TrimArgs) (node : Nat) (ai : VSAudioInfo) (stream : Nat → List α)
    (d : AudioTrimData)
    (hspf : 1 ≤ ai.format.samplesPerFrame) (hspfmax : ai.format.samplesPerFrame ≤ INT_MAX)
    (hnf : ai.numFrames = (ai.numSamples + ai.format.samplesPerFrame - 1)
      / ai.format.samplesPerFrame)
    (hrep : ai.numFrames ≤ INT_MAX)
    (hclip : IsAudioClip ai.format ai.numSamples stream (getFrameFilter node))
    (hcreate : audioTrimCreate args node ai = .filter d) :
    0 ≤ d.first ∧ d.first + d.ai.numSamples ≤ ai.numSamples
      ∧ ∀ n : Int, 0 ≤ n →
          n < (d.ai.numSamples + ai.format.samplesPerFrame - 1) / ai.format.samplesPerFrame →
          ∃ out, audioTrimGetframe getFrameFilter junk d n .arAllFramesReady = .frame out
            ∧ out.length = min ai.format.samplesPerFrame
                (d.ai.numSamples - n * ai.format.samplesPerFrame)
            ∧ (∀ c : Nat, (c : Int) < ai.format.numChannels →
                ∀ j : Nat, (j : Int) < out.length →
                  out.sample c j
                    = (stream c)[(d.first + n * ai.format.samplesPerFrame).toNat + j]?)
            ∧ ((n * ai.format.samplesPerFrame + d.first) % ai.format.samplesPerFrame = 0 →
                n ≠ (d.ai.numSamples + ai.format.samplesPerFrame - 1)
                  / ai.format.samplesPerFrame - 1 →
                (getFrameFilter node
                    ((n * ai.format.samplesPerFrame + d.first)
                      / ai.format.samplesPerFrame)).length
                  = min ai.format.samplesPerFrame
                      (d.ai.numSamples - n * ai.format.samplesPerFrame) →
                out = getFrameFilter node
                  ((n * ai.format.samplesPerFrame + d.first)
                    / ai.format.samplesPerFrame)) := by
  obtain ⟨hnode, hfmt, hnfd, hfirst, _, hTS⟩ := audioTrimCreate_filter args node ai d hcreate
  refine ⟨hfirst, hTS, ?_⟩
  intro n hn0 hn1
  rw [← hfmt] at hspf hspfmax hnf hclip hn1 ⊢
  rw [← hnode] at hclip ⊢
  rw [← hnfd] at hnf hrep
  have hn1' := (lt_ceil_iff _ _ n (by omega)).1 hn1
  obtain ⟨out, e, l, g, p⟩ := audioTrimGetframe_spec getFrameFilter junk d ai.numSamples stream
    hspf hspfmax hfirst hTS hnf hrep hclip n hn0 hn1'
  refine ⟨out, e, l, g, ?_⟩
  intro h1 h2 h3
  refine p h1 ?_ h3
  apply (lt_ceil_iff _ _ (n + 1) (by omega)).1
  omega

/-- Witness of C10: AudioTrim with `first = 1`, `last = 5` on the clip of 6 samples in frames of
4: output frame 0 is stitched from both upstream frames, output frame 1 is the single last
sample. -/
theorem audioTrim_sample_mapping_witness :
    audioTrimCreate ⟨some 1, some 5, none⟩ 0 ⟨exampleFormat, 48000, 6, 2⟩
        = .filter ⟨0, ⟨exampleFormat, 48000, 5, 2⟩, 1⟩
      ∧ ∃ out0 out1,
        audioTrimGetframe exampleHost 0 ⟨0, ⟨exampleFormat, 48000, 5, 2⟩, 1⟩ 0
            .arAllFramesReady = .frame out0
        ∧ audioTrimGetframe exampleHost 0 ⟨0, ⟨exampleFormat, 48000, 5, 2⟩, 1⟩ 1
            .arAllFramesReady = .frame out1
        ∧ out0.length = 4 ∧ out1.length = 1
        ∧ [out0.sample 0 0, out0.sample 0 1, out0.sample 0 2, out0.sample 0 3, out1.sample 0 0]
            = [some 11, some 12, some 13, some 14, some 15]
        ∧ [out0.sample 1 0, out0.sample 1 1, out0.sample 1 2, out0.sample 1 3, out1.sample 1 0]
            = [some 111, some 112, some 113, some 114, some 115] := by
  have hc : audioTrimCreate ⟨some 1, some 5, none⟩ 0 ⟨exampleFormat, 48000, 6, 2⟩
      = .filter ⟨0, ⟨exampleFormat, 48000, 5, 2⟩, 1⟩ := by decide
  obtain ⟨_, _, h⟩ := audioTrim_sample_mapping exampleHost 0 ⟨some 1, some 5, none⟩ 0
    ⟨exampleFormat, 48000, 6, 2⟩ exampleStream1 ⟨0, ⟨exampleFormat, 48000, 5, 2⟩, 1⟩
    (by decide) (by decide) (by decide) (by decide) exampleHost_clip1 hc
  obtain ⟨out0, e0, l0, g0, _⟩ := h 0 (by decide) (by decide)
  obtain ⟨out1, e1, l1, g1, _⟩ := h 1 (by decide) (by decide)
  have l0' : out0.length = 4 := by rw [l0]; decide
  have l1' : out1.length = 1 := by rw [l1]; decide
  refine ⟨hc, out0, out1, e0, e1, l0', l1', ?_, ?_⟩
  · rw [g0 0 (by decide) 0 (by rw [l0']; decide), g0 0 (by decide) 1 (by rw [l0']; decide),
      g0 0 (by decide) 2 (by rw [l0']; decide), g0 0 (by decide) 3 (by rw [l0']; decide),
      g1 0 (by decide) 0 (by rw [l1']; decide)]
    decide
  · rw [g0 1 (by decide) 0 (by rw [l0']; decide), g0 1 (by decide) 1 (by rw [l0']; decide),
      g0 1 (by decide) 2 (by rw [l0']; decide), g0 1 (by decide) 3 (by rw [l0']; decide),
      g1 1 (by decide) 0 (by rw [l1']; decide)]
    decide

/-! ## Loop -/

/-- The test `numFrames > INT_MAX / times` of `loopCreate` is the exact overflow test. -/
theorem gt_tdiv_iff_mul_gt (a b c : Int) (hb : 0 ≤ b) (hc : 0 < c) :
    a > b.tdiv c ↔ a * c > b := by
  rw [Int.tdiv_eq_ediv hb (by omega)]
  have h := @Int.le_ediv_iff_mul_le a b c hc
  constructor
  · intro h1
    by_contra h2
    have := h.2 (by omega)
    omega
  · intro h1
    by_contra h2
    have := h.1 (by omega)
    omega

/-- C11. Loop mapping: on an upstream clip of `L ≥ 1` frames, Loop with `times ≥ 2` and
`L * times ≤ INT_MAX` yields exactly `L * times` frames and its frame `n` is upstream frame
`n mod L`; with `times = 1` the upstream node itself is returned. -/
theorem loop_mapping {F : Type} (getFrameFilter : Nat → Int → F) (node : Nat)
    (vi : VSVideoInfo) (times : Int) (hL : 1 ≤ vi.numFrames) :
    (2 ≤ times → vi.numFrames * times ≤ INT_MAX →
      ∃ clip, loopOutClip getFrameFilter vi (loopCreate (some times) node vi) = some clip
        ∧ clip.1 = vi.numFrames * times
        ∧ ∀ n : Int, 0 ≤ n → n < vi.numFrames * times →
            clip.2 n = .frame (getFrameFilter node (n % vi.numFrames)))
    ∧ loopCreate (some 1) node vi = .passthrough node := by
  constructor
  · intro ht hfit
    have hnn : 0 ≤ vi.numFrames * times := Int.mul_nonneg (by omega) (by omega)
    have hw : wrapInt32 (vi.numFrames * times) = vi.numFrames * times :=
      wrapInt32_eq_self ⟨by unfold INT_MIN; omega, hfit⟩
    have hno : ¬ vi.numFrames > INT_MAX.tdiv times := by
      rw [gt_tdiv_iff_mul_gt _ _ _ (by decide) (by omega)]
      omega
    have hc : loopCreate (some times) node vi
        = .filter ⟨node, { vi with numFrames := vi.numFrames * times }, vi.numFrames⟩ := by
      simp only [loopCreate, Option.getD_some, hw]
      rw [if_neg (by omega), if_neg (by omega), if_pos (by omega), if_neg hno]
    rw [hc]
    refine ⟨_, rfl, rfl, ?_⟩
    intro n hn0 _
    simp only [loopGetframe]
    rw [if_neg (by omega), Int.tmod_eq_emod hn0 (by omega)]
  · simp [loopCreate]

/-- Witness of C11: `times = 3` on a 4-frame clip gives 12 frames, the upstream frames
0, 1, 2, 3 three times over (frames are named by their upstream index). -/
theorem loop_mapping_witness :
    ∃ clip, loopOutClip (fun _ i => i) ⟨0, 0, 0, 0, 0, 4⟩
          (loopCreate (some 3) 0 ⟨0, 0, 0, 0, 0, 4⟩) = some clip
      ∧ clip.1 = 12
      ∧ (List.range 12).map (fun (n : Nat) => clip.2 (n : Int))
          = [.frame 0, .frame 1, .frame 2, .frame 3, .frame 0, .frame 1, .frame 2, .frame 3,
             .frame 0, .frame 1, .frame 2, .frame 3] := by
  obtain ⟨clip, h1, h2, h3⟩ :=
    (loop_mapping (fun _ i => i) 0 ⟨0, 0, 0, 0, 0, 4⟩ 3 (by decide)).1 (by decide) (by decide)
  refine ⟨clip, h1, by simpa using h2, ?_⟩
  simp only [List.range, List.range.loop, List.map]
  rw [h3 _ (by decide) (by decide), h3 _ (by decide) (by decide),
    h3 _ (by decide) (by decide), h3 _ (by decide) (by decide), h3 _ (by decide) (by decide),
    h3 _ (by decide) (by decide), h3 _ (by decide) (by decide), h3 _ (by decide) (by decide),
    h3 _ (by decide) (by decide), h3 _ (by decide) (by decide), h3 _ (by decide) (by decide),
    h3 _ (by decide) (by decide)]
  decide

/-- C12 (counterexample). With `times = -1` no loop is built: `loopCreate` reports an error. -/
theorem loop_negative_times_counterexample :
    loopCreate (some (-1)) 0 ⟨0, 0, 0, 0, 0, 4⟩
        = .error "Loop: cannot repeat clip a negative number of times" []
      ∧ ∀ d, loopCreate (some (-1)) 0 ⟨0, 0, 0, 0, 0, 4⟩ ≠ .filter d := by
  constructor
  · decide
  · intro d h
    have h' : loopCreate (some (-1)) 0 ⟨0, 0, 0, 0, 0, 4⟩
        = .error "Loop: cannot repeat clip a negative number of times" [] := by decide
    rw [h'] at h
    exact absurd h (by simp)

/-- C12 (amended). For every `times < 0` and every upstream clip `loopCreate` fails with
"Loop: cannot repeat clip a negative number of times"; the unbounded loop, whose frame count is
`INT_MAX`, is what `times = 0` (also an absent `times`) builds. -/
theorem loop_negative_times_rejected (times : Int) (node : Nat) (vi : VSVideoInfo)
    (h : times < 0) :
    loopCreate (some times) node vi
        = .error "Loop: cannot repeat clip a negative number of times" []
      ∧ loopCreate (some 0) node vi
        = .filter ⟨node, { vi with numFrames := INT_MAX }, vi.numFrames⟩
      ∧ loopCreate none node vi
        = .filter ⟨node, { vi with numFrames := INT_MAX }, vi.numFrames⟩ := by
  refine ⟨?_, ?_, ?_⟩
  · simp only [loopCreate, Option.getD_some]
    rw [if_pos h]
  · simp [loopCreate]
  · simp [loopCreate]

/-- Witness of C12 (amended): `times = -5` on a 4-frame clip. -/
theorem loop_negative_times_rejected_witness :
    ((-5 : Int) < 0)
      ∧ loopCreate (some (-5)) 0 ⟨0, 0, 0, 0, 0, 4⟩
        = .error "Loop: cannot repeat clip a negative number of times" []
      ∧ loopCreate (some 0) 0 ⟨0, 0, 0, 0, 0, 4⟩
        = .filter ⟨0, ⟨0, 0, 0, 0, 0, 2147483647⟩, 4⟩ :=
  ⟨by decide, (loop_negative_times_rejected (-5) 0 ⟨0, 0, 0, 0, 0, 4⟩ (by decide)).1,
    (loop_negative_times_rejected (-5) 0 ⟨0, 0, 0, 0, 0, 4⟩ (by decide)).2.1⟩

/-- C13. Loop length never wraps: for an upstream length `0 ≤ L ≤ INT_MAX` and `times ≥ 2`,
`loopCreate` fails with "Loop: resulting clip is too long" if and only if `L * times > INT_MAX`
in exact arithmetic, and otherwise the clip built has `numFrames = L * times ≥ L`; for
`times = 0` the length is `INT_MAX ≥ L`. -/
theorem loop_length_exact (times : Int) (node : Nat) (vi : VSVideoInfo)
    (hL0 : 0 ≤ vi.numFrames) (hL1 : vi.numFrames ≤ INT_MAX) (ht : 2 ≤ times) :
    (loopCreate (some times) node vi = .error "Loop: resulting clip is too long" [node]
        ↔ vi.numFrames * times > INT_MAX)
      ∧ (vi.numFrames * times ≤ INT_MAX →
          ∃ d, loopCreate (some times) node vi = .filter d
            ∧ d.vi.numFrames = vi.numFrames * times ∧ vi.numFrames ≤ d.vi.numFrames)
      ∧ ∃ d, loopCreate (some 0) node vi = .filter d
          ∧ d.vi.numFrames = INT_MAX ∧ vi.numFrames ≤ d.vi.numFrames := by
  have hiff := gt_tdiv_iff_mul_gt vi.numFrames INT_MAX times (by decide) (by omega)
  have hnn : 0 ≤ vi.numFrames * times := Int.mul_nonneg hL0 (by omega)
  have hge : vi.numFrames ≤ vi.numFrames * times := by
    have h1 : 0 ≤ vi.numFrames * (times - 1) := Int.mul_nonneg hL0 (by omega)
    have h2 : vi.numFrames * (times - 1) = vi.numFrames * times - vi.numFrames := by ring
    omega
  refine ⟨?_, ?_, ?_⟩
  · simp only [loopCreate, Option.getD_some]
    rw [if_neg (by omega), if_neg (by omega), if_pos (by omega)]
    by_cases h : vi.numFrames > INT_MAX.tdiv times
    · rw [if_pos h]
      exact ⟨fun _ => hiff.1 h, fun _ => rfl⟩
    · rw [if_neg h]
      constructor
      · intro h1
        exact absurd h1 (by simp)
      · intro h1
        exact absurd (hiff.2 h1) h
  · intro hfit
    have hw : wrapInt32 (vi.numFrames * times) = vi.numFrames * times :=
      wrapInt32_eq_self ⟨by unfold INT_MIN; omega, hfit⟩
    refine ⟨⟨node, { vi with numFrames := vi.numFrames * times }, vi.numFrames⟩, ?_, rfl, hge⟩
    simp only [loopCreate, Option.getD_some, hw]
    rw [if_neg (by omega), if_neg (by omega), if_pos (by omega),
      if_neg (fun h => by have := hiff.1 h; omega)]
  · exact ⟨⟨node, { vi with numFrames := INT_MAX }, vi.numFrames⟩, by simp [loopCreate], rfl,
      hL1⟩

/-- Witness of C13: a clip of `2^30` frames looped twice is too long, looped on a 4-frame clip
it has 8 frames. -/
theorem loop_length_exact_witness :
    loopCreate (some 2) 0 ⟨0, 0, 0, 0, 0, 1073741824⟩
        = .error "Loop: resulting clip is too long" [0]
      ∧ ∃ d, loopCreate (some 2) 0 ⟨0, 0, 0, 0, 0, 4⟩ = .filter d ∧ d.vi.numFrames = 8 := by
  constructor
  · exact (loop_length_exact 2 0 ⟨0, 0, 0, 0, 0, 1073741824⟩ (by decide) (by decide)
      (by decide)).1.2 (by decide)
  · obtain ⟨d, h1, h2, _⟩ := (loop_length_exact 2 0 ⟨0, 0, 0, 0, 0, 4⟩ (by decide) (by decide)
      (by decide)).2.1 (by decide)
    exact ⟨d, h1, by rw [h2]; decide⟩

/-! ## Merged frame count of `findCommonVi` -/

theorem findCommonViStep_numFrames (ignorelength : Bool) (acc : Int × VSVideoInfo)
    (v : VSVideoInfo) :
    (findCommonViStep ignorelength acc v).2.numFrames = max acc.2.numFrames v.numFrames := by
  unfold findCommonViStep
  simp only []
  split_ifs <;> simp only [] at * <;> omega

theorem findCommonVi_foldl_numFrames (ignorelength : Bool) :
    ∀ (rest : List VSVideoInfo) (acc : Int × VSVideoInfo),
      acc.2.numFrames ≤ (rest.foldl (findCommonViStep ignorelength) acc).2.numFrames
        ∧ (∀ v ∈ rest, v.numFrames
            ≤ (rest.foldl (findCommonViStep ignorelength) acc).2.numFrames)
        ∧ ((rest.foldl (findCommonViStep ignorelength) acc).2.numFrames = acc.2.numFrames
            ∨ ∃ v ∈ rest, (rest.foldl (findCommonViStep ignorelength) acc).2.numFrames
                = v.numFrames)
  | [], acc => by simp
  | v :: rest, acc => by
      obtain ⟨h1, h2, h3⟩ := findCommonVi_foldl_numFrames ignorelength rest
        (findCommonViStep ignorelength acc v)
      have hs := findCommonViStep_numFrames ignorelength acc v
      simp only [List.foldl_cons]
      refine ⟨by omega, ?_, ?_⟩
      · intro w hw
        rcases List.mem_cons.1 hw with rfl | hw
        · omega
        · exact h2 w hw
      · rcases h3 with h3 | ⟨w, hw, h3⟩
        · by_cases hc : acc.2.numFrames ≤ v.numFrames
          · right
            exact ⟨v, by simp, by omega⟩
          · left
            omega
        · right
          exact ⟨w, by simp [hw], h3⟩

/-- The merged descriptor of `findCommonVi` carries the largest frame count of the clips. -/
theorem findCommonVi_numFrames (ignorelength : Bool) (vis : List VSVideoInfo) (M : Int)
    (hM1 : ∀ v ∈ vis, v.numFrames ≤ M) (hM2 : ∃ v ∈ vis, v.numFrames = M) :
    (findCommonVi vis ignorelength).2.numFrames = M := by
  cases vis with
  | nil =>
      obtain ⟨v, hv, _⟩ := hM2
      exact absurd hv (by simp)
  | cons v0 rest =>
      obtain ⟨h1, h2, h3⟩ := findCommonVi_foldl_numFrames ignorelength rest (0, v0)
      simp only [findCommonVi]
      simp only [] at h1 h3
      obtain ⟨w, hw, hwM⟩ := hM2
      have hle : M ≤ (rest.foldl (findCommonViStep ignorelength) (0, v0)).2.numFrames := by
        rcases List.mem_cons.1 hw with rfl | hw
        · omega
        · have := h2 w hw
          omega
      have hge : (rest.foldl (findCommonViStep ignorelength) (0, v0)).2.numFrames ≤ M := by
        rcases h3 with h3 | ⟨u, hu, h3⟩
        · have := hM1 v0 (by simp)
          omega
        · have := hM1 u (by simp [hu])
          omega
      omega

/-! ## Interleave -/

/-- The loop of `interleaveCreate` without `extend`: the overflow flag is raised exactly when
some exact candidate `(len - 1) * numclips + index + 1` exceeds `INT_MAX`, and when none does
the frame count computed is the largest of the start value and the exact candidates. -/
theorem interleaveLengthLoop_spec (k : Int) (hk : 2 ≤ k) (hkmax : k ≤ INT_MAX) :
    ∀ (rest : List Int) (i : Int) (ov : Bool) (nf : Int),
      0 ≤ i → i + rest.length ≤ INT_MAX → (∀ x ∈ rest, 0 ≤ x ∧ x ≤ INT_MAX) →
      ((interleaveLengthLoop k rest i (ov, nf)).1 = true
          ↔ ov = true ∨ ∃ j : Nat, j < rest.length
              ∧ (rest.getD j 0 - 1) * k + (i + j) + 1 > INT_MAX)
        ∧ ((∀ j : Nat, j < rest.length → (rest.getD j 0 - 1) * k + (i + j) + 1 ≤ INT_MAX) →
            nf ≤ (interleaveLengthLoop k rest i (ov, nf)).2
            ∧ (∀ j : Nat, j < rest.length → (rest.getD j 0 - 1) * k + (i + j) + 1
                ≤ (interleaveLengthLoop k rest i (ov, nf)).2)
            ∧ ((interleaveLengthLoop k rest i (ov, nf)).2 = nf
                ∨ ∃ j : Nat, j < rest.length ∧ (interleaveLengthLoop k rest i (ov, nf)).2
                    = (rest.getD j 0 - 1) * k + (i + j) + 1))
  | [], i, ov, nf, _, _, _ => by
      simp [interleaveLengthLoop]
  | x :: rest, i, ov, nf, hi, hlen, hx => by
      obtain ⟨hx0, hx1⟩ := hx x (by simp)
      simp only [List.length_cons, Nat.cast_add, Nat.cast_one] at hlen
      have hmax := hkmax
      unfold INT_MAX at hmax hlen hx1
      have hw1 : wrapInt32 (wrapInt32 (INT_MAX - i) - 1) = INT_MAX - i - 1 := by
        unfold wrapInt32 INT_MAX
        omega
      have hxk : 0 ≤ x * k := Int.mul_nonneg hx0 (by omega)
      have exk : (x - 1) * k = x * k - k := by ring
      have hov : x > (INT_MAX - i - 1).tdiv k + 1 ↔ (x - 1) * k + i + 1 > INT_MAX := by
        have := gt_tdiv_iff_mul_gt (x - 1) (INT_MAX - i - 1) k (by unfold INT_MAX; omega)
          (by omega)
        constructor
        · intro h
          have := this.1 (by omega)
          omega
        · intro h
          have := this.2 (by omega)
          omega
      have hcand : (x - 1) * k + i + 1 ≤ INT_MAX →
          wrapInt32 (wrapInt32 (wrapInt32 (wrapInt32 (x - 1) * k) + i) + 1)
            = (x - 1) * k + i + 1 := by
        intro h
        unfold INT_MAX at h
        have e1 : wrapInt32 (x - 1) = x - 1 := by unfold wrapInt32; omega
        have e2 : wrapInt32 ((x - 1) * k) = (x - 1) * k := by unfold wrapInt32; omega
        have e3 : wrapInt32 ((x - 1) * k + i) = (x - 1) * k + i := by unfold wrapInt32; omega
        have e4 : wrapInt32 ((x - 1) * k + i + 1) = (x - 1) * k + i + 1 := by
          unfold wrapInt32; omega
        rw [e1, e2, e3, e4]
      obtain ⟨ih1, ih2⟩ := interleaveLengthLoop_spec k hk hkmax rest (i + 1)
        (if x > (INT_MAX - i - 1).tdiv k + 1 then true else ov)
        (max nf (wrapInt32 (wrapInt32 (wrapInt32 (wrapInt32 (x - 1) * k) + i) + 1)))
        (by omega) (by unfold INT_MAX; omega) (fun y hy => hx y (by simp [hy]))
      have hshift : ∀ j : Nat, (rest.getD j 0 - 1) * k + (i + 1 + (j : Int)) + 1
          = ((x :: rest).getD (j + 1) 0 - 1) * k + (i + ((j + 1 : Nat) : Int)) + 1 := by
        intro j
        simp only [List.getD_cons_succ, Nat.cast_add, Nat.cast_one]
        ring
      have hzero : ((x :: rest).getD 0 0 - 1) * k + (i + ((0 : Nat) : Int)) + 1
          = (x - 1) * k + i + 1 := by
        simp only [List.getD_cons_zero, Nat.cast_zero]
        ring
      simp only [interleaveLengthLoop, hw1]
      constructor
      · rw [ih1]
        constructor
        · rintro (h | ⟨j, hj, h⟩)
          · by_cases hc : x > (INT_MAX - i - 1).tdiv k + 1
            · right
              exact ⟨0, by simp, by rw [hzero]; exact hov.1 hc⟩
            · rw [if_neg hc] at h
              exact Or.inl h
          · right
            exact ⟨j + 1, by simpa using hj, by rw [← hshift]; exact h⟩
        · rintro (h | ⟨j, hj, h⟩)
          · left
            by_cases hc : x > (INT_MAX - i - 1).tdiv k + 1
            · rw [if_pos hc]
            · rw [if_neg hc]
              exact h
          · cases j with
            | zero =>
                left
                rw [hzero] at h
                rw [if_pos (hov.2 h)]
            | succ j =>
                right
                exact ⟨j, by simpa using hj, by rw [hshift]; exact h⟩
      · intro hall
        have h0 := hall 0 (by simp)
        rw [hzero] at h0
        have hc := hcand h0
        obtain ⟨r1, r2, r3⟩ := ih2 (fun j hj => by
          rw [hshift]
          exact hall (j + 1) (by simpa using hj))
        rw [hc] at r1 r2 r3 ⊢
        refine ⟨by omega, ?_, ?_⟩
        · intro j hj
          cases j with
          | zero =>
              rw [hzero]
              omega
          | succ j =>
              rw [← hshift]
              exact r2 j (by simpa using hj)
        · rcases r3 with r3 | ⟨j, hj, r3⟩
          · by_cases hm : nf ≤ (x - 1) * k + i + 1
            · right
              exact ⟨0, by simp, by rw [hzero, r3]; omega⟩
            · left
              rw [r3]
              omega
          · right
            exact ⟨j + 1, by simpa using hj, by rw [← hshift]; exact r3⟩

/-- The frame count of `interleaveCreate` for `k ≥ 2` compatible clips with lengths in
`[0, INT_MAX]` and largest length `M ≥ 1`: the constructor reports "too long" exactly when the
exact value `E` exceeds `INT_MAX`, and otherwise builds the filter with `numFrames = E`. -/
theorem interleaveCreate_length_aux (isCompatFormat : VSVideoInfo → Bool)
    (muldivRational : Int → Int → Int → Int → Int × Int) (vis : List VSVideoInfo)
    (mismatch extend : Bool) (modifyDuration : Option Bool) (M E : Int)
    (hk : 2 ≤ vis.length) (hkmax : (vis.length : Int) ≤ INT_MAX)
    (hlen : ∀ v ∈ vis, 0 ≤ v.numFrames ∧ v.numFrames ≤ INT_MAX)
    (hcompat : ¬ ((findCommonVi vis true).1 ≠ 0
      ∧ (mismatch = false ∨ vis.any isCompatFormat = true)))
    (hM1 : ∀ v ∈ vis, v.numFrames ≤ M) (hM2 : ∃ v ∈ vis, v.numFrames = M) (hMpos : 1 ≤ M)
    (hE1 : extend = true → E = M * vis.length)
    (hE2 : extend = false →
      (∀ i : Nat, i < vis.length →
          ((vis.map (fun v => v.numFrames)).getD i 0 - 1) * vis.length + i + 1 ≤ E)
      ∧ ∃ i : Nat, i < vis.length
          ∧ ((vis.map (fun v => v.numFrames)).getD i 0 - 1) * vis.length + i + 1 = E) :
    (interleaveCreate isCompatFormat muldivRational vis mismatch extend modifyDuration
          = .error "Interleave: resulting clip is too long" (List.range vis.length)
        ↔ E > INT_MAX)
      ∧ (E ≤ INT_MAX →
          ∃ d, interleaveCreate isCompatFormat muldivRational vis mismatch extend
                modifyDuration = .filter d
            ∧ d.vi.numFrames = E) := by
  have hk1 : ¬ ((vis.length : Int) = 1) := by omega
  have hnum := findCommonVi_numFrames true vis M hM1 hM2
  rcases hfc : findCommonVi vis true with ⟨cause, vi⟩
  rw [hfc] at hcompat hnum
  simp only [] at hcompat hnum
  have hMmax : M ≤ INT_MAX := by
    obtain ⟨v, hv, rfl⟩ := hM2
    exact (hlen v hv).2
  have hmax := hkmax
  unfold INT_MAX at hmax
  unfold interleaveCreate
  simp only [hk1, if_false, hfc, if_neg hcompat]
  cases extend with
  | true =>
      have hE := hE1 rfl
      have hiff := gt_tdiv_iff_mul_gt M INT_MAX (vis.length : Int) (by decide) (by omega)
      have hnn : 0 ≤ M * (vis.length : Int) := Int.mul_nonneg (by omega) (by omega)
      simp only [if_true, hnum]
      constructor
      · by_cases h : M > INT_MAX.tdiv (vis.length : Int)
        · simp only [h, decide_True, if_true, true_iff]
          rw [hE]
          exact hiff.1 h
        · simp only [h, decide_False, Bool.false_eq_true, if_false]
          constructor
          · intro h1
            exact absurd h1 (by simp)
          · intro h1
            rw [hE] at h1
            exact absurd (hiff.2 h1) h
      · intro hfit
        rw [hE] at hfit
        have h : ¬ M > INT_MAX.tdiv (vis.length : Int) := fun h => by
          have := hiff.1 h
          omega
        have hw : wrapInt32 (M * (vis.length : Int)) = M * (vis.length : Int) :=
          wrapInt32_eq_self ⟨by unfold INT_MIN; omega, hfit⟩
        simp only [h, decide_False, Bool.false_eq_true, if_false, hw]
        exact ⟨_, rfl, hE.symm⟩
  | false =>
      obtain ⟨hEub, i0, hi0, hEi0⟩ := hE2 rfl
      have hM0 : vi.numFrames ≠ 0 := by omega
      have hlens : ∀ x ∈ vis.map (fun v => v.numFrames), 0 ≤ x ∧ x ≤ INT_MAX := by
        intro x hx
        obtain ⟨v, hv, rfl⟩ := List.mem_map.1 hx
        exact hlen v hv
      have hhead : (vis.headD vi).numFrames = (vis.map (fun v => v.numFrames)).getD 0 0 := by
        cases vis with
        | nil => simp at hk
        | cons v rest => simp
      obtain ⟨s1, s2⟩ := interleaveLengthLoop_spec (vis.length : Int) (by omega) hkmax
        (vis.map (fun v => v.numFrames)) 0 false
        (wrapInt32 (wrapInt32 (wrapInt32 ((vis.headD vi).numFrames - 1) * (vis.length : Int))
          + 1))
        (le_refl 0) (by simpa using hkmax) hlens
      simp only [List.length_map, zero_add, Bool.false_eq_true, false_or] at s1 s2
      simp only [Bool.false_eq_true, if_false, if_pos hM0]
      rcases hr : interleaveLengthLoop (vis.length : Int) (vis.map (fun v => v.numFrames)) 0
        (false, wrapInt32 (wrapInt32 (wrapInt32 ((vis.headD vi).numFrames - 1)
          * (vis.length : Int)) + 1)) with ⟨ov, nf⟩
      rw [hr] at s1 s2
      simp only [] at s1 s2 ⊢
      have hovE : ov = true ↔ E > INT_MAX := by
        rw [s1]
        constructor
        · rintro ⟨j, hj, h⟩
          have := hEub j hj
          omega
        · intro h
          exact ⟨i0, hi0, by omega⟩
      constructor
      · by_cases h : ov = true
        · simp only [h, if_true, true_iff]
          exact hovE.1 h
        · simp only [h, if_false]
          constructor
          · intro h1
            exact absurd h1 (by simp)
          · intro h1
            exact absurd (hovE.2 h1) h
      · intro hfit
        have h : ¬ ov = true := fun h => by
          have := hovE.1 h
          omega
        simp only [h, if_false]
        refine ⟨_, rfl, ?_⟩
        simp only []
        have hall : ∀ j : Nat, j < vis.length →
            ((vis.map (fun v => v.numFrames)).getD j 0 - 1) * (vis.length : Int) + (j : Int) + 1
              ≤ INT_MAX := fun j hj => by
          have := hEub j hj
          omega
        obtain ⟨r1, r2, r3⟩ := s2 hall
        have h0 := hall 0 (by omega)
        have hx0 := (hlens ((vis.map (fun v => v.numFrames)).getD 0 0) (by
          cases vis with
          | nil => simp at hk
          | cons v rest => simp)).1
        have hxk : 0 ≤ (vis.map (fun v => v.numFrames)).getD 0 0 * (vis.length : Int) :=
          Int.mul_nonneg hx0 (by omega)
        have exk : ((vis.map (fun v => v.numFrames)).getD 0 0 - 1) * (vis.length : Int)
            = (vis.map (fun v => v.numFrames)).getD 0 0 * (vis.length : Int)
              - (vis.length : Int) := by ring
        have hx1 := (hlens ((vis.map (fun v => v.numFrames)).getD 0 0) (by
          cases vis with
          | nil => simp at hk
          | cons v rest => simp)).2
        unfold INT_MAX at h0 hx1
        simp only [Nat.cast_zero, add_zero] at h0
        have hinit : wrapInt32 (wrapInt32 (wrapInt32 ((vis.headD vi).numFrames - 1)
            * (vis.length : Int)) + 1)
            = ((vis.map (fun v => v.numFrames)).getD 0 0 - 1) * (vis.length : Int) + 1 := by
          rw [hhead]
          have e1 : wrapInt32 ((vis.map (fun v => v.numFrames)).getD 0 0 - 1)
              = (vis.map (fun v => v.numFrames)).getD 0 0 - 1 := by
            unfold wrapInt32; omega
          have e2 : wrapInt32 (((vis.map (fun v => v.numFrames)).getD 0 0 - 1)
              * (vis.length : Int))
              = ((vis.map (fun v => v.numFrames)).getD 0 0 - 1) * (vis.length : Int) := by
            unfold wrapInt32; omega
          have e3 : wrapInt32 (((vis.map (fun v => v.numFrames)).getD 0 0 - 1)
              * (vis.length : Int) + 1)
              = ((vis.map (fun v => v.numFrames)).getD 0 0 - 1) * (vis.length : Int) + 1 := by
            unfold wrapInt32; omega
          rw [e1, e2, e3]
        rw [hinit] at r1 r3
        have hle : nf ≤ E := by
          rcases r3 with r3 | ⟨j, hj, r3⟩
          · have := hEub 0 (by omega)
            simp only [Nat.cast_zero, add_zero] at this
            omega
          · have := hEub j hj
            omega
        have hge : E ≤ nf := by
          have := r2 i0 hi0
          omega
        omega

/-- C15. Interleave length never wraps: for `k ≥ 2` compatible clips with lengths in
`[0, INT_MAX]` whose largest length is `M ≥ 1`, `interleaveCreate` fails with "Interleave:
resulting clip is too long" if and only if the exact value `E` exceeds `INT_MAX`, where
`E = M * k` with `extend` and `E = max_i ((len_i - 1) * k + i + 1)` without; when `E ≤ INT_MAX`
the filter is built with `numFrames = E`. -/
theorem interleave_length_exact (isCompatFormat : VSVideoInfo → Bool)
    (muldivRational : Int → Int → Int → Int → Int × Int) (vis : List VSVideoInfo)
    (mismatch extend : Bool) (modifyDuration : Option Bool) (M E : Int)
    (hk : 2 ≤ vis.length) (hkmax : (vis.length : Int) ≤ INT_MAX)
    (hlen : ∀ v ∈ vis, 0 ≤ v.numFrames ∧ v.numFrames ≤ INT_MAX)
    (hcompat : ¬ ((findCommonVi vis true).1 ≠ 0
      ∧ (mismatch = false ∨ vis.any isCompatFormat = true)))
    (hM1 : ∀ v ∈ vis, v.numFrames ≤ M) (hM2 : ∃ v ∈ vis, v.numFrames = M) (hMpos : 1 ≤ M)
    (hE1 : extend = true → E = M * vis.length)
    (hE2 : extend = false →
      (∀ i : Nat, i < vis.length →
          ((vis.map (fun v => v.numFrames)).getD i 0 - 1) * vis.length + i + 1 ≤ E)
      ∧ ∃ i : Nat, i < vis.length
          ∧ ((vis.map (fun v => v.numFrames)).getD i 0 - 1) * vis.length + i + 1 = E) :
    (interleaveCreate isCompatFormat muldivRational vis mismatch extend modifyDuration
          = .error "Interleave: resulting clip is too long" (List.range vis.length)
        ↔ E > INT_MAX)
      ∧ (E ≤ INT_MAX →
          ∃ d, interleaveCreate isCompatFormat muldivRational vis mismatch extend
                modifyDuration = .filter d
            ∧ d.vi.numFrames = E) :=
  interleaveCreate_length_aux isCompatFormat muldivRational vis mismatch extend modifyDuration
    M E hk hkmax hlen hcompat hM1 hM2 hMpos hE1 hE2

/-- Witness of C15: two clips of `2^30` frames with `extend` are too long (`E = 2^31`); two
clips of 5 and 3 frames without `extend` give `E = max (9, 6) = 9` frames. -/
theorem interleave_length_exact_witness :
    interleaveCreate (fun _ => false) (fun a b _ _ => (a, b))
        [⟨1, 25, 1, 4, 4, 1073741824⟩, ⟨1, 25, 1, 4, 4, 1073741824⟩] false true none
      = .error "Interleave: resulting clip is too long" [0, 1]
    ∧ ∃ d, interleaveCreate (fun _ => false) (fun a b _ _ => (a, b))
          [⟨1, 25, 1, 4, 4, 5⟩, ⟨1, 25, 1, 4, 4, 3⟩] false false none = .filter d
        ∧ d.vi.numFrames = 9 := by
  constructor
  · exact (interleave_length_exact (fun _ => false) (fun a b _ _ => (a, b))
      [⟨1, 25, 1, 4, 4, 1073741824⟩, ⟨1, 25, 1, 4, 4, 1073741824⟩] false true none
      1073741824 2147483648 (by decide) (by decide) (by decide) (by decide) (by decide)
      ⟨⟨1, 25, 1, 4, 4, 1073741824⟩, by simp, rfl⟩ (by decide) (fun _ => by decide)
      (fun h => absurd h (by decide))).1.2 (by decide)
  · exact (interleave_length_exact (fun _ => false) (fun a b _ _ => (a, b))
      [⟨1, 25, 1, 4, 4, 5⟩, ⟨1, 25, 1, 4, 4, 3⟩] false false none
      5 9 (by decide) (by decide) (by decide) (by decide) (by decide)
      ⟨⟨1, 25, 1, 4, 4, 5⟩, by simp, rfl⟩ (by decide) (fun h => absurd h (by decide))
      (fun _ => ⟨fun i hi => by
          have hi' : i < 2 := hi
          interval_cases i <;> decide, 0, by decide, by decide⟩)).2 (by decide)

/-- C14 (counterexample). For two clips of 5 frames each, without `extend`, the frame count
computed by `interleaveCreate` is 10, not 9, and output frame 9 is frame 4 of the second clip. -/
theorem interleave_two_by_five_counterexample :
    interleaveCreate (fun _ => false) (fun a b _ _ => (a, b))
        [⟨1, 25, 1, 4, 4, 5⟩, ⟨1, 25, 1, 4, 4, 5⟩] false false (some false)
      = .filter ⟨[0, 1], ⟨1, 25, 1, 4, 4, 10⟩, 2, false⟩
    ∧ (∀ d, interleaveCreate (fun _ => false) (fun a b _ _ => (a, b))
          [⟨1, 25, 1, 4, 4, 5⟩, ⟨1, 25, 1, 4, 4, 5⟩] false false (some false) = .filter d →
        d.vi.numFrames ≠ 9)
    ∧ interleaveGetframe (fun c i => (c, i)) (fun _ _ f => f)
          ⟨[0, 1], ⟨1, 25, 1, 4, 4, 10⟩, 2, false⟩ 9 .arAllFramesReady = .frame (1, 4) := by
  have h : interleaveCreate (fun _ => false) (fun a b _ _ => (a, b))
      [⟨1, 25, 1, 4, 4, 5⟩, ⟨1, 25, 1, 4, 4, 5⟩] false false (some false)
      = .filter ⟨[0, 1], ⟨1, 25, 1, 4, 4, 10⟩, 2, false⟩ := by decide
  refine ⟨h, ?_, by decide⟩
  intro d hd
  rw [h] at hd
  injection hd with hd
  subst hd
  decide

/-- C14 (amended). Interleave of two clips `A` and `B` of 5 frames each (same descriptor),
without `extend`, yields a clip of exactly 10 frames whose frames in order are
`A0, B0, A1, B1, A2, B2, A3, B3, A4, B4`: output frame `n` is frame `n div 2` of clip `n mod 2`,
requested in phase one and returned in phase two (through the duration adjustment when
`modify_duration` is on). -/
theorem interleave_two_by_five (isCompatFormat : VSVideoInfo → Bool)
    (muldivRational : Int → Int → Int → Int → Int × Int)
    (format fpsNum fpsDen width height : Int) (mismatch : Bool)
    (modifyDuration : Option Bool) :
    ∃ d, interleaveCreate isCompatFormat muldivRational
          [⟨format, fpsNum, fpsDen, width, height, 5⟩,
           ⟨format, fpsNum, fpsDen, width, height, 5⟩] mismatch false modifyDuration
        = .filter d
      ∧ d.vi.numFrames = 10
      ∧ ∀ (F : Type) (getFrameFilter : Nat → Int → F) (scaleDuration : Int → Int → F → F),
          (List.range 10).map (fun (n : Nat) =>
              interleaveGetframe getFrameFilter scaleDuration d (n : Int) .arInitial)
            = [.requested [(0, 0)], .requested [(1, 0)], .requested [(0, 1)],
               .requested [(1, 1)], .requested [(0, 2)], .requested [(1, 2)],
               .requested [(0, 3)], .requested [(1, 3)], .requested [(0, 4)],
               .requested [(1, 4)]]
          ∧ (List.range 10).map (fun (n : Nat) =>
              interleaveGetframe getFrameFilter scaleDuration d (n : Int) .arAllFramesReady)
            = ([(0, 0), (1, 0), (0, 1), (1, 1), (0, 2), (1, 2), (0, 3), (1, 3), (0, 4),
                (1, 4)] : List (Nat × Int)).map (fun p =>
                if modifyDuration.getD true = true then
                  .frame (scaleDuration 1 2 (getFrameFilter p.1 p.2))
                else .frame (getFrameFilter p.1 p.2)) := by
  have hfc : findCommonVi [⟨format, fpsNum, fpsDen, width, height, 5⟩,
      ⟨format, fpsNum, fpsDen, width, height, 5⟩] true
      = (0, ⟨format, fpsNum, fpsDen, width, height, 5⟩) := by
    simp [findCommonVi, findCommonViStep]
  have hloop : interleaveLengthLoop 2 [5, 5] 0
      (false, wrapInt32 (wrapInt32 (wrapInt32 (5 - 1) * 2) + 1)) = (false, 10) := by decide
  refine ⟨⟨[0, 1], { (⟨format, fpsNum, fpsDen, width, height, 5⟩ : VSVideoInfo) with
      numFrames := 10
      fpsNum := (if modifyDuration.getD true = true then muldivRational fpsNum fpsDen 2 1
        else (fpsNum, fpsDen)).1
      fpsDen := (if modifyDuration.getD true = true then muldivRational fpsNum fpsDen 2 1
        else (fpsNum, fpsDen)).2 }, 2, modifyDuration.getD true⟩, ?_, rfl, ?_⟩
  · have h1 : ¬ (((0 + 1 + 1 : Nat) : Int) = 1) := by decide
    have h5 : (5 : Int) ≠ 0 := by decide
    have hloop' : interleaveLengthLoop ((0 + 1 + 1 : Nat) : Int) [5, 5] 0
        (false, wrapInt32 (wrapInt32 (wrapInt32 (5 - 1) * ((0 + 1 + 1 : Nat) : Int)) + 1))
        = (false, 10) := hloop
    unfold interleaveCreate
    simp only [hfc, List.length_cons, List.length_nil, List.map, List.headD_cons, if_neg h1,
      ne_eq, not_true_eq_false, false_and, if_false, Bool.false_eq_true, if_pos h5, hloop']
    rfl
  · intro F getFrameFilter scaleDuration
    constructor
    · rfl
    · by_cases hm : modifyDuration.getD true = true
      · simp only [hm, if_true]
        rfl
      · simp only [hm, if_false]
        rfl

/-! ## SelectEvery -/

/-- The counting loop adds one per offset below the remainder, as long as the count fits. -/
theorem selectEveryCount_spec (r : Int) :
    ∀ (offsets : List Int) (base : Int), INT_MIN ≤ base → base + offsets.length ≤ INT_MAX →
      selectEveryCount r offsets base = base + (offsets.countP (fun o => decide (o < r)) : Nat)
  | [], base, _, _ => by simp [selectEveryCount]
  | o :: rest, base, h0, h1 => by
      simp only [List.length_cons, Nat.cast_add, Nat.cast_one] at h1
      unfold INT_MIN at h0
      unfold INT_MAX at h1
      have hw : wrapInt32 (base + 1) = base + 1 := by unfold wrapInt32; omega
      by_cases h : o < r
      · have ih := selectEveryCount_spec r rest (base + 1) (by unfold INT_MIN; omega)
          (by unfold INT_MAX; omega)
        simp only [selectEveryCount, if_pos h, hw, ih, List.countP_cons, h, decide_True,
          if_true, Nat.cast_add, Nat.cast_one]
        omega
      · have ih := selectEveryCount_spec r rest base (by unfold INT_MIN; omega)
          (by unfold INT_MAX; omega)
        simp only [selectEveryCount, if_neg h, ih, List.countP_cons, h, decide_False,
          Bool.false_eq_true, if_false, add_zero]

/-- SelectEvery on inputs whose frame count fits a C `int` (`floor (L / cycle) * m + m ≤
INT_MAX`, which holds for distinct offsets): the filter is built exactly when
`floor (L / cycle) * m + #{i : offsets[i] < L mod cycle}` is not zero, with that frame count. -/
theorem selectEveryCreate_of_fits (muldivRational : Int → Int → Int → Int → Int × Int)
    (cycle : Int) (offsets : List Int) (modifyDuration : Option Bool) (node : Nat)
    (vi : VSVideoInfo) (hcycle : 2 ≤ cycle)
    (hoff : ∀ o ∈ offsets, 0 ≤ o ∧ o < cycle) (hL : 0 ≤ vi.numFrames)
    (hfit : vi.numFrames / cycle * offsets.length + offsets.length ≤ INT_MAX) :
    (vi.numFrames / cycle * offsets.length
          + (offsets.countP (fun o => decide (o < vi.numFrames % cycle)) : Nat) = 0 →
      selectEveryCreate muldivRational cycle offsets modifyDuration node vi
        = .error "SelectEvery: no frames to output, all offsets outside available frames"
            [node])
    ∧ (vi.numFrames / cycle * offsets.length
          + (offsets.countP (fun o => decide (o < vi.numFrames % cycle)) : Nat) ≠ 0 →
      ∃ d, selectEveryCreate muldivRational cycle offsets modifyDuration node vi = .filter d
        ∧ d.vi.numFrames = vi.numFrames / cycle * offsets.length
            + (offsets.countP (fun o => decide (o < vi.numFrames % cycle)) : Nat)
        ∧ d.node = node ∧ d.cycle = cycle ∧ d.offsets = offsets ∧ d.num = offsets.length
        ∧ d.modifyDuration = modifyDuration.getD true) := by
  have hany : offsets.any (fun o => decide (o < 0 ∨ o ≥ cycle)) = false := by
    rw [List.any_eq_false]
    intro o ho
    have := hoff o ho
    simp only [decide_eq_true_eq]
    omega
  have hq : 0 ≤ vi.numFrames / cycle := Int.ediv_nonneg hL (by omega)
  have hqm : 0 ≤ vi.numFrames / cycle * offsets.length := Int.mul_nonneg hq (by omega)
  have hfit' := hfit
  unfold INT_MAX at hfit'
  have hw : wrapInt32 (vi.numFrames / cycle * offsets.length)
      = vi.numFrames / cycle * offsets.length := by unfold wrapInt32; omega
  have hcount := selectEveryCount_spec (vi.numFrames % cycle) offsets
    (vi.numFrames / cycle * offsets.length) (by unfold INT_MIN; omega) hfit
  have hnum : (if vi.numFrames ≠ 0 then
        selectEveryCount (vi.numFrames.tmod cycle) offsets
          (wrapInt32 (vi.numFrames.tdiv cycle * (offsets.length : Int)))
      else vi.numFrames)
      = vi.numFrames / cycle * offsets.length
        + (offsets.countP (fun o => decide (o < vi.numFrames % cycle)) : Nat) := by
    by_cases h0 : vi.numFrames = 0
    · rw [if_neg (by omega), h0]
      have hc : offsets.countP (fun o => decide (o < (0 : Int) % cycle)) = 0 := by
        rw [List.countP_eq_zero]
        intro o ho
        have := hoff o ho
        simp only [Int.zero_emod, decide_eq_true_eq]
        omega
      rw [hc]
      simp
    · rw [if_pos h0, Int.tdiv_eq_ediv hL (by omega), Int.tmod_eq_emod hL (by omega), hw,
        hcount]
  constructor
  · intro hz
    unfold selectEveryCreate
    rw [if_neg (by omega)]
    simp only [hany, Bool.false_eq_true, if_false]
    rw [hnum, if_pos hz]
  · intro hz
    have hc : selectEveryCreate muldivRational cycle offsets modifyDuration node vi
        = .filter ⟨node, { vi with
            numFrames := vi.numFrames / cycle * offsets.length
              + (offsets.countP (fun o => decide (o < vi.numFrames % cycle)) : Nat)
            fpsNum := (if modifyDuration.getD true = true then
                muldivRational vi.fpsNum vi.fpsDen offsets.length cycle
              else (vi.fpsNum, vi.fpsDen)).1
            fpsDen := (if modifyDuration.getD true = true then
                muldivRational vi.fpsNum vi.fpsDen offsets.length cycle
              else (vi.fpsNum, vi.fpsDen)).2 },
          cycle, offsets, offsets.length, modifyDuration.getD true⟩ := by
      unfold selectEveryCreate
      rw [if_neg (by omega)]
      simp only [hany, Bool.false_eq_true, if_false]
      rw [hnum, if_neg hz]
    exact ⟨_, hc, rfl, rfl, rfl, rfl, rfl, rfl⟩

/-- The index `selectEveryGetframe` computes in phase one and fetches in phase two is
`(n div m) * cycle + offsets[n mod m]`, as long as it fits a C `int`. -/
theorem selectEveryGetframe_spec {F : Type} (getFrameFilter : Nat → Int → F)
    (scaleDuration : Int → Int → F → F) (d : SelectEveryData) (n : Int)
    (hnum : d.num = d.offsets.length) (hm : 1 ≤ d.offsets.length) (hn : 0 ≤ n)
    (hcycle : 0 ≤ d.cycle)
    (hfit : n / d.num * d.cycle + d.offsets.getD (n % d.num).toNat 0 ≤ INT_MAX)
    (hoff : ∀ o ∈ d.offsets, 0 ≤ o ∧ o < d.cycle) :
    selectEveryGetframe getFrameFilter scaleDuration d n none .arInitial
        = (.requested [(d.node, n / d.num * d.cycle + d.offsets.getD (n % d.num).toNat 0)],
            some (n / d.num * d.cycle + d.offsets.getD (n % d.num).toNat 0))
      ∧ selectEveryGetframe getFrameFilter scaleDuration d n
          (some (n / d.num * d.cycle + d.offsets.getD (n % d.num).toNat 0)) .arAllFramesReady
        = (if d.modifyDuration = true then
            .frame (scaleDuration d.cycle d.num (getFrameFilter d.node
              (n / d.num * d.cycle + d.offsets.getD (n % d.num).toNat 0)))
          else .frame (getFrameFilter d.node
              (n / d.num * d.cycle + d.offsets.getD (n % d.num).toNat 0)),
          some (n / d.num * d.cycle + d.offsets.getD (n % d.num).toNat 0)) := by
  have hnum0 : d.num ≠ 0 := by omega
  have hq : 0 ≤ n / d.num := Int.ediv_nonneg hn (by omega)
  have hqc : 0 ≤ n / d.num * d.cycle := Int.mul_nonneg hq hcycle
  have hr0 := Int.emod_nonneg n hnum0
  have hr1 := Int.emod_lt_of_pos n (show 0 < d.num by omega)
  have ho : 0 ≤ d.offsets.getD (n % d.num).toNat 0 := by
    have hlt : (n % d.num).toNat < d.offsets.length := by omega
    rw [List.getD_eq_getElem _ _ hlt]
    exact (hoff _ (List.getElem_mem _)).1
  unfold INT_MAX at hfit
  have hw1 : wrapInt32 (n / d.num * d.cycle) = n / d.num * d.cycle := by
    unfold wrapInt32; omega
  have hw2 : wrapInt32 (n / d.num * d.cycle + d.offsets.getD (n % d.num).toNat 0)
      = n / d.num * d.cycle + d.offsets.getD (n % d.num).toNat 0 := by
    unfold wrapInt32; omega
  constructor
  · simp only [selectEveryGetframe, if_neg hnum0, Int.tdiv_eq_ediv hn (show 0 ≤ d.num by omega),
      Int.tmod_eq_emod hn (show 0 ≤ d.num by omega), hw1, hw2]
  · simp only [selectEveryGetframe]
    split_ifs <;> rfl

/-- C16 (the code at the failing input). SelectEvery with `cycle = 2` and the offsets
`[0, 0, 0]` on a clip of `INT_MAX` frames: the exact frame count is
`1073741823 * 3 + 3 = 3221225472`, but the product wraps and the filter is built with
`numFrames = -1073741824`. -/
theorem selectEvery_length_wraps :
    selectEveryCreate (fun a b _ _ => (a, b)) 2 [0, 0, 0] (some false) 0
        ⟨1, 25, 1, 4, 4, 2147483647⟩
      = .filter ⟨0, ⟨1, 25, 1, 4, 4, -1073741824⟩, 2, [0, 0, 0], 3, false⟩
    ∧ (2147483647 : Int) / 2 * 3
        + (([0, 0, 0] : List Int).countP (fun o => decide (o < 2147483647 % 2)) : Nat)
      = 3221225472 := by
  decide

/-- C17 (the code at the failing input). SelectEvery with `cycle = 2` and the offsets
`[0, 0, 0, 0]` on a clip of `INT_MAX` frames: the exact frame count is `4294967296`, not zero,
but the wrapped count is `-4 + 4 = 0` and the constructor reports "no frames to output"; with
the offsets `[0, 0, 0]` the filter is built with a negative frame count. -/
theorem selectEvery_degenerate_wraps :
    selectEveryCreate (fun a b _ _ => (a, b)) 2 [0, 0, 0, 0] (some false) 0
        ⟨1, 25, 1, 4, 4, 2147483647⟩
      = .error "SelectEvery: no frames to output, all offsets outside available frames" [0]
    ∧ (2147483647 : Int) / 2 * 4
        + (([0, 0, 0, 0] : List Int).countP (fun o => decide (o < 2147483647 % 2)) : Nat)
      = 4294967296
    ∧ ∃ d, selectEveryCreate (fun a b _ _ => (a, b)) 2 [0, 0, 0] (some false) 0
          ⟨1, 25, 1, 4, 4, 2147483647⟩ = .filter d
        ∧ d.vi.numFrames < 1 := by
  refine ⟨by decide, by decide, ⟨0, ⟨1, 25, 1, 4, 4, -1073741824⟩, 2, [0, 0, 0], 3, false⟩,
    by decide, by decide⟩

/-- The worked example of SelectEvery: `cycle = 4`, offsets `[0, 2]` on an 8-frame clip give 4
frames, the upstream frames 0, 2, 4, 6. -/
theorem selectEvery_example :
    selectEveryCreate (fun a b _ _ => (a, b)) 4 [0, 2] (some false) 0 ⟨1, 25, 1, 4, 4, 8⟩
      = .filter ⟨0, ⟨1, 25, 1, 4, 4, 4⟩, 4, [0, 2], 2, false⟩
    ∧ (List.range 4).map (fun (n : Nat) =>
          (selectEveryGetframe (fun _ i => i) (fun _ _ f => f)
            ⟨0, ⟨1, 25, 1, 4, 4, 4⟩, 4, [0, 2], 2, false⟩ (n : Int) none .arInitial).1)
        = [.requested [(0, 0)], .requested [(0, 2)], .requested [(0, 4)],
           .requested [(0, 6)]] := by
  decide

/-! ## DeleteFrames -/

theorem compareInts_le_zero_iff (x y : Int) : compareInts x y ≤ 0 ↔ x ≤ y := by
  unfold compareInts
  split_ifs <;> omega

instance compareInts_isTotal : IsTotal Int (fun x y => compareInts x y ≤ 0) :=
  ⟨fun x y => by
    rw [compareInts_le_zero_iff, compareInts_le_zero_iff]
    omega⟩

instance compareInts_isTrans : IsTrans Int (fun x y => compareInts x y ≤ 0) :=
  ⟨fun x y z h1 h2 => by
    rw [compareInts_le_zero_iff] at h1 h2 ⊢
    omega⟩

/-- The array after `qsort` is in ascending order. -/
theorem qsortInts_sorted (a : List Int) : List.Sorted (fun x y => x ≤ y) (qsortInts a) :=
  List.Pairwise.imp (fun h => (compareInts_le_zero_iff _ _).1 h)
    (List.sorted_insertionSort (fun x y => compareInts x y ≤ 0) a)

/-- The array after `qsort` holds the same entries. -/
theorem qsortInts_perm (a : List Int) : (qsortInts a).Perm a :=
  List.perm_insertionSort _ a

/-- On an ascending array the scan of neighbours finds no equal pair exactly when the array is
strictly ascending. -/
theorem hasAdjacentEqual_false_iff : ∀ l : List Int, List.Sorted (fun x y => x ≤ y) l →
    (hasAdjacentEqual l = false ↔ List.Sorted (fun x y => x < y) l)
  | [], _ => by simp [hasAdjacentEqual]
  | [a], _ => by simp [hasAdjacentEqual]
  | a :: b :: rest, h => by
      have hs := List.sorted_cons.1 h
      have ih := hasAdjacentEqual_false_iff (b :: rest) hs.2
      have hab := hs.1 b (by simp)
      simp only [hasAdjacentEqual, Bool.or_eq_false_iff, beq_eq_false_iff_ne, ne_eq]
      rw [ih]
      constructor
      · rintro ⟨hne, hsr⟩
        refine List.sorted_cons.2 ⟨?_, hsr⟩
        intro x hx
        rcases List.mem_cons.1 hx with rfl | hx
        · omega
        · have := (List.sorted_cons.1 hsr).1 x hx
          omega
      · intro hsl
        have hs' := List.sorted_cons.1 hsl
        have := hs'.1 b (by simp)
        exact ⟨by omega, hs'.2⟩

/-- The duplicate scan of `deleteFramesCreate` fires exactly on the lists with a repeat. -/
theorem hasAdjacentEqual_qsortInts (frames : List Int) :
    hasAdjacentEqual (qsortInts frames) = true ↔ ¬ frames.Nodup := by
  have hiff := hasAdjacentEqual_false_iff (qsortInts frames) (qsortInts_sorted frames)
  have hnd := (qsortInts_perm frames).nodup_iff
  constructor
  · intro h hn
    have hs : List.Sorted (fun x y => x < y) (qsortInts frames) :=
      (qsortInts_sorted frames).lt_of_le (hnd.2 hn)
    rw [hiff.2 hs] at h
    exact absurd h (by simp)
  · intro hn
    by_contra h
    have h' : hasAdjacentEqual (qsortInts frames) = false := by
      cases hb : hasAdjacentEqual (qsortInts frames) with
      | true => exact absurd hb h
      | false => rfl
    exact hn (hnd.1 (hiff.1 h').nodup)

/-- Pigeonhole: a list of distinct integers of `[lo, hi)` has at most `hi - lo` entries. -/
theorem nodup_length_le (l : List Int) (lo hi : Int) (hnd : l.Nodup)
    (h : ∀ x ∈ l, lo ≤ x ∧ x < hi) (hle : lo ≤ hi) : (l.length : Int) ≤ hi - lo := by
  have hsub : l.toFinset ⊆ Finset.Ico lo hi := by
    intro x hx
    rw [List.mem_toFinset] at hx
    rw [Finset.mem_Ico]
    exact h x hx
  have hc := Finset.card_le_card hsub
  rw [List.toFinset_card_of_nodup hnd, Int.card_Ico] at hc
  omega

/-- A list of distinct integers of `[0, L)` has `L` entries exactly when it holds them all. -/
theorem nodup_length_eq_iff (l : List Int) (L : Int) (hnd : l.Nodup)
    (h : ∀ x ∈ l, 0 ≤ x ∧ x < L) (hL : 0 ≤ L) :
    (l.length : Int) = L ↔ ∀ x : Int, 0 ≤ x → x < L → x ∈ l := by
  have hsub : l.toFinset ⊆ Finset.Ico 0 L := by
    intro x hx
    rw [List.mem_toFinset] at hx
    rw [Finset.mem_Ico]
    exact h x hx
  constructor
  · intro hlen x hx0 hx1
    have heq := Finset.eq_of_subset_of_card_le hsub (by
      rw [List.toFinset_card_of_nodup hnd, Int.card_Ico]
      omega)
    have : x ∈ l.toFinset := by
      rw [heq, Finset.mem_Ico]
      exact ⟨hx0, hx1⟩
    exact List.mem_toFinset.1 this
  · intro hall
    have hsup : Finset.Ico 0 L ⊆ l.toFinset := by
      intro x hx
      rw [Finset.mem_Ico] at hx
      exact List.mem_toFinset.2 (hall x hx.1 hx.2)
    have hc := Finset.card_le_card hsup
    rw [List.toFinset_card_of_nodup hnd, Int.card_Ico] at hc
    have := nodup_length_le l 0 L hnd h hL
    omega

/-- The range test of `deleteFramesCreate` passes exactly on the in-range lists. -/
theorem deleteFrames_any_eq_false (frames : List Int) (L : Int) :
    frames.any (fun x => decide (x < 0 ∨ (L ≠ 0 ∧ x ≥ L))) = false
      ↔ ∀ x ∈ frames, 0 ≤ x ∧ (L ≠ 0 → x < L) := by
  rw [List.any_eq_false]
  constructor
  · intro h x hx
    have := h x hx
    simp only [decide_eq_true_eq] at this
    constructor
    · omega
    · intro hL
      by_contra hc
      exact this (Or.inr ⟨hL, by omega⟩)
  · intro h x hx
    have := h x hx
    simp only [decide_eq_true_eq]
    rintro (h1 | ⟨h1, h2⟩)
    · omega
    · have := this.2 h1
      omega

/-- On an in-range list the constructor reports a repeated index exactly when the list has a
repeat. -/
theorem deleteFrames_rejects_repeats_aux (frames : List Int) (node : Nat) (vi : VSVideoInfo)
    (hrange : ∀ x ∈ frames, 0 ≤ x ∧ (vi.numFrames ≠ 0 → x < vi.numFrames)) :
    deleteFramesCreate frames node vi
        = .error "DeleteFrames: can't delete a frame more than once" [node]
      ↔ ¬ frames.Nodup := by
  have hany := (deleteFrames_any_eq_false frames vi.numFrames).2 hrange
  have hadj := hasAdjacentEqual_qsortInts frames
  unfold deleteFramesCreate
  simp only [hany, Bool.false_eq_true, if_false]
  by_cases h : hasAdjacentEqual (qsortInts frames) = true
  · simp only [h, if_true, true_iff]
    exact hadj.1 h
  · have h' : hasAdjacentEqual (qsortInts frames) = false := by simpa using h
    simp only [h', Bool.false_eq_true, if_false]
    constructor
    · intro h1
      by_cases hz : vi.numFrames ≠ 0 ∧ wrapInt32 (vi.numFrames - (frames.length : Int)) = 0
      · rw [if_pos hz] at h1
        injection h1 with hs _
        exact absurd hs (by decide)
      · rw [if_neg hz] at h1
        exact absurd h1 (by simp)
    · intro h1
      exact absurd (hadj.2 h1) h

/-- C19. DeleteFrames rejects repeated indices: for every in-range list `frames`,
`deleteFramesCreate` fails with "DeleteFrames: can't delete a frame more than once" if and only
if some index occurs at least twice in the list (at any positions, in any order). -/
theorem deleteFrames_rejects_repeats (frames : List Int) (node : Nat) (vi : VSVideoInfo)
    (hrange : ∀ x ∈ frames, 0 ≤ x ∧ (vi.numFrames ≠ 0 → x < vi.numFrames)) :
    deleteFramesCreate frames node vi
        = .error "DeleteFrames: can't delete a frame more than once" [node]
      ↔ ¬ frames.Nodup := by
  exact deleteFrames_rejects_repeats_aux frames node vi hrange

/-- Witness of C19: `[1, 3, 1]` on a 5-frame clip is rejected, `[3, 1]` is not. -/
theorem deleteFrames_rejects_repeats_witness :
    deleteFramesCreate [1, 3, 1] 0 ⟨1, 25, 1, 4, 4, 5⟩
        = .error "DeleteFrames: can't delete a frame more than once" [0]
      ∧ deleteFramesCreate [3, 1] 0 ⟨1, 25, 1, 4, 4, 5⟩
        ≠ .error "DeleteFrames: can't delete a frame more than once" [0] := by
  constructor
  · exact (deleteFrames_rejects_repeats [1, 3, 1] 0 ⟨1, 25, 1, 4, 4, 5⟩ (by decide)).2
      (by decide)
  · intro h
    exact (deleteFrames_rejects_repeats [3, 1] 0 ⟨1, 25, 1, 4, 4, 5⟩ (by decide)).1 h
      (by decide)

/-- Among distinct integers `≥ lo`, at most `x - lo` lie below `x`. -/
theorem countP_lt_le (l : List Int) (lo x : Int) (hnd : l.Nodup) (h : ∀ y ∈ l, lo ≤ y)
    (hlo : lo ≤ x) : ((l.countP (fun y => decide (y < x)) : Nat) : Int) ≤ x - lo := by
  rw [List.countP_eq_length_filter]
  refine nodup_length_le _ lo x (hnd.filter _) ?_ hlo
  intro y hy
  rw [List.mem_filter] at hy
  exact ⟨h y hy.1, by simpa using hy.2⟩

/-- Among distinct integers `< hi` other than `x`, at most `hi - x - 1` do not lie below `x`. -/
theorem countP_not_lt_le (l : List Int) (x hi : Int) (hnd : l.Nodup) (h : ∀ y ∈ l, y < hi)
    (hx : x ∉ l) (hhi : x < hi) :
    ((l.countP (fun y => decide ¬ (decide (y < x) = true)) : Nat) : Int) ≤ hi - x - 1 := by
  rw [List.countP_eq_length_filter]
  have := nodup_length_le (l.filter (fun y => decide ¬ (decide (y < x) = true))) (x + 1) hi
    (hnd.filter _) (by
      intro y hy
      rw [List.mem_filter] at hy
      have h1 : ¬ y < x := by simpa using hy.2
      have h2 : y ≠ x := fun e => hx (e ▸ hy.1)
      exact ⟨by omega, h y hy.1⟩) (by omega)
  omega

/-- The skipping loop of `deleteFramesGetFrame` on a strictly ascending array: the result is not
deleted, and it is `n` plus the number of deleted indices below it. -/
theorem deleteFramesSkip_spec : ∀ (D : List Int) (n : Int),
    List.Sorted (fun x y => x < y) D → INT_MIN ≤ n → n + D.length ≤ INT_MAX →
    n ≤ deleteFramesSkip D n ∧ deleteFramesSkip D n ∉ D
      ∧ deleteFramesSkip D n
          = n + (D.countP (fun y => decide (y < deleteFramesSkip D n)) : Nat)
      ∧ deleteFramesSkip D n ≤ n + D.length
  | [], n, _, _, _ => by simp [deleteFramesSkip]
  | d :: rest, n, hs, h0, h1 => by
      have hs' := List.sorted_cons.1 hs
      simp only [List.length_cons, Nat.cast_add, Nat.cast_one] at h1
      unfold INT_MIN at h0
      unfold INT_MAX at h1
      by_cases hc : n ≥ d
      · have hw : wrapInt32 (n + 1) = n + 1 := by unfold wrapInt32; omega
        obtain ⟨i1, i2, i3, i4⟩ := deleteFramesSkip_spec rest (n + 1) hs'.2
          (by unfold INT_MIN; omega) (by unfold INT_MAX; omega)
        have he : deleteFramesSkip (d :: rest) n = deleteFramesSkip rest (n + 1) := by
          simp only [deleteFramesSkip, if_pos hc, hw]
        rw [he]
        refine ⟨by omega, ?_, ?_, ?_⟩
        · intro hm
          rcases List.mem_cons.1 hm with h | h
          · omega
          · exact i2 h
        · have hd : d < deleteFramesSkip rest (n + 1) := by omega
          rw [List.countP_cons_of_pos _ _ (by simpa using hd)]
          push_cast
          omega
        · simp only [List.length_cons, Nat.cast_add, Nat.cast_one]
          omega
      · have he : deleteFramesSkip (d :: rest) n = n := by
          simp only [deleteFramesSkip, if_neg hc]
        rw [he]
        have hz : (d :: rest).countP (fun y => decide (y < n)) = 0 := by
          rw [List.countP_eq_zero]
          intro y hy
          simp only [decide_eq_true_eq]
          rcases List.mem_cons.1 hy with rfl | hy
          · omega
          · have := hs'.1 y hy
            omega
        refine ⟨le_refl n, ?_, by rw [hz]; simp, ?_⟩
        · intro hm
          rcases List.mem_cons.1 hm with h | h
          · omega
          · have := hs'.1 n h
            omega
        · simp only [List.length_cons, Nat.cast_add, Nat.cast_one]
          omega

/-- The skipping loop is strictly increasing in `n`. -/
theorem deleteFramesSkip_strictMono : ∀ (D : List Int) (n n' : Int),
    List.Sorted (fun x y => x < y) D → INT_MIN ≤ n → n' + D.length ≤ INT_MAX → n < n' →
    deleteFramesSkip D n < deleteFramesSkip D n'
  | [], n, n', _, _, _, h => by simpa [deleteFramesSkip] using h
  | d :: rest, n, n', hs, h0, h1, h => by
      have hs' := List.sorted_cons.1 hs
      simp only [List.length_cons, Nat.cast_add, Nat.cast_one] at h1
      unfold INT_MIN at h0
      unfold INT_MAX at h1
      have hw : wrapInt32 (n + 1) = n + 1 := by unfold wrapInt32; omega
      have hw' : wrapInt32 (n' + 1) = n' + 1 := by unfold wrapInt32; omega
      by_cases hc : n ≥ d
      · have ih := deleteFramesSkip_strictMono rest (n + 1) (n' + 1) hs'.2
          (by unfold INT_MIN; omega) (by unfold INT_MAX; omega) (by omega)
        simp only [deleteFramesSkip, if_pos hc, if_pos (show n' ≥ d by omega), hw, hw']
        exact ih
      · by_cases hc' : n' ≥ d
        · have := (deleteFramesSkip_spec rest (n' + 1) hs'.2 (by unfold INT_MIN; omega)
            (by unfold INT_MAX; omega)).1
          simp only [deleteFramesSkip, if_neg hc, if_pos hc', hw']
          omega
        · simp only [deleteFramesSkip, if_neg hc, if_neg hc']
          exact h

/-- Every index that is not deleted is reached: from `x` minus the number of deleted indices
below `x` the skipping loop arrives at `x`. -/
theorem deleteFramesSkip_surj : ∀ (D : List Int) (x : Int),
    List.Sorted (fun a b => a < b) D → (∀ y ∈ D, 0 ≤ y) → x ∉ D → x ≤ INT_MAX →
    deleteFramesSkip D (x - (D.countP (fun y => decide (y < x)) : Nat)) = x
  | [], x, _, _, _, _ => by simp [deleteFramesSkip]
  | d :: rest, x, hs, hnn, hx, hmax => by
      have hs' := List.sorted_cons.1 hs
      have hd0 := hnn d (by simp)
      have hxd : x ≠ d := fun e => hx (by simp [e])
      have hxr : x ∉ rest := fun e => hx (by simp [e])
      unfold INT_MAX at hmax
      by_cases hc : d < x
      · have hcount : (d :: rest).countP (fun y => decide (y < x))
            = rest.countP (fun y => decide (y < x)) + 1 :=
          List.countP_cons_of_pos _ _ (by simpa using hc)
        have hpig := countP_lt_le rest (d + 1) x hs'.2.nodup (fun y hy => by
          have := hs'.1 y hy
          omega) (by omega)
        have ih := deleteFramesSkip_surj rest x hs'.2 (fun y hy => hnn y (by simp [hy])) hxr
          (by unfold INT_MAX; omega)
        have hw : wrapInt32 (x - ((rest.countP (fun y => decide (y < x)) + 1 : Nat) : Int) + 1)
            = x - (rest.countP (fun y => decide (y < x)) : Nat) := by
          unfold wrapInt32
          push_cast
          omega
        rw [hcount]
        simp only [deleteFramesSkip]
        rw [if_pos (by push_cast; omega), hw]
        exact ih
      · have hz : (d :: rest).countP (fun y => decide (y < x)) = 0 := by
          rw [List.countP_eq_zero]
          intro y hy
          simp only [decide_eq_true_eq]
          rcases List.mem_cons.1 hy with rfl | hy
          · omega
          · have := hs'.1 y hy
            omega
        rw [hz]
        simp only [Nat.cast_zero, sub_zero, deleteFramesSkip]
        rw [if_neg (by omega)]

/-- On an in-range list without repeats `deleteFramesCreate` goes on to the length test. -/
theorem deleteFramesCreate_of_valid (frames : List Int) (node : Nat) (vi : VSVideoInfo)
    (hrange : ∀ x ∈ frames, 0 ≤ x ∧ (vi.numFrames ≠ 0 → x < vi.numFrames))
    (hnd : frames.Nodup) :
    deleteFramesCreate frames node vi
      = if vi.numFrames ≠ 0 ∧ wrapInt32 (vi.numFrames - (frames.length : Int)) = 0 then
          .error "DeleteFrames: can't delete all frames" [node]
        else
          .filter ⟨node, { vi with numFrames :=
              if vi.numFrames ≠ 0 then wrapInt32 (vi.numFrames - (frames.length : Int))
              else vi.numFrames }, qsortInts frames, frames.length⟩ := by
  have hany := (deleteFrames_any_eq_false frames vi.numFrames).2 hrange
  have hadj : hasAdjacentEqual (qsortInts frames) = false := by
    cases hb : hasAdjacentEqual (qsortInts frames) with
    | true => exact absurd hnd ((hasAdjacentEqual_qsortInts frames).1 hb)
    | false => rfl
  unfold deleteFramesCreate
  simp only [hany, hadj, Bool.false_eq_true, if_false]

/-- Outside the in-range lists without repeats `deleteFramesCreate` reports one of its first
two errors. -/
theorem deleteFramesCreate_of_invalid (frames : List Int) (node : Nat) (vi : VSVideoInfo)
    (h : ¬ ((∀ x ∈ frames, 0 ≤ x ∧ (vi.numFrames ≠ 0 → x < vi.numFrames)) ∧ frames.Nodup)) :
    deleteFramesCreate frames node vi = .error "DeleteFrames: out of bounds frame number" [node]
      ∨ deleteFramesCreate frames node vi
        = .error "DeleteFrames: can't delete a frame more than once" [node] := by
  by_cases hr : ∀ x ∈ frames, 0 ≤ x ∧ (vi.numFrames ≠ 0 → x < vi.numFrames)
  · right
    exact (deleteFrames_rejects_repeats_aux frames node vi hr).2 (fun hn => h ⟨hr, hn⟩)
  · left
    have hany : frames.any (fun x => decide (x < 0 ∨ (vi.numFrames ≠ 0 ∧ x ≥ vi.numFrames)))
        = true := by
      cases hb : frames.any (fun x => decide (x < 0 ∨ (vi.numFrames ≠ 0 ∧ x ≥ vi.numFrames)))
        with
      | true => rfl
      | false => exact absurd ((deleteFrames_any_eq_false frames vi.numFrames).1 hb) hr
    unfold deleteFramesCreate
    simp only [hany, if_true]

/-- C20. DeleteFrames length: for an upstream clip of known length `1 ≤ L ≤ INT_MAX`, every
DeleteFrames clip that is built has `numFrames = L - count (del)` with
`1 ≤ numFrames ≤ L`; construction fails with "DeleteFrames: can't delete all frames" exactly
when the delete list is in range, free of repeats and holds all `L` indices; a list without
these two defects that leaves a frame is accepted; and the subtraction is never negative. -/
theorem deleteFrames_length (frames : List Int) (node : Nat) (vi : VSVideoInfo)
    (hL1 : 1 ≤ vi.numFrames) (hLmax : vi.numFrames ≤ INT_MAX) :
    (∀ d, deleteFramesCreate frames node vi = .filter d →
        d.vi.numFrames = vi.numFrames - frames.length
          ∧ 1 ≤ d.vi.numFrames ∧ d.vi.numFrames ≤ vi.numFrames)
      ∧ (deleteFramesCreate frames node vi
            = .error "DeleteFrames: can't delete all frames" [node]
          ↔ (∀ x ∈ frames, 0 ≤ x ∧ x < vi.numFrames) ∧ frames.Nodup
            ∧ ∀ x : Int, 0 ≤ x → x < vi.numFrames → x ∈ frames)
      ∧ ((∀ x ∈ frames, 0 ≤ x ∧ x < vi.numFrames) → frames.Nodup →
          0 ≤ vi.numFrames - frames.length
          ∧ ((∃ x : Int, 0 ≤ x ∧ x < vi.numFrames ∧ x ∉ frames) →
              ∃ d, deleteFramesCreate frames node vi = .filter d)) := by
  have hL0 : vi.numFrames ≠ 0 := by omega
  have hmax := hLmax
  unfold INT_MAX at hmax
  have hvalid : ∀ (hr : ∀ x ∈ frames, 0 ≤ x ∧ x < vi.numFrames) (hn : frames.Nodup),
      (frames.length : Int) ≤ vi.numFrames
        ∧ wrapInt32 (vi.numFrames - frames.length) = vi.numFrames - frames.length
        ∧ deleteFramesCreate frames node vi
          = if vi.numFrames - (frames.length : Int) = 0 then
              .error "DeleteFrames: can't delete all frames" [node]
            else
              .filter ⟨node, { vi with numFrames := vi.numFrames - (frames.length : Int) },
                qsortInts frames, frames.length⟩ := by
    intro hr hn
    have hle := nodup_length_le frames 0 vi.numFrames hn hr (by omega)
    have hw : wrapInt32 (vi.numFrames - frames.length) = vi.numFrames - frames.length := by
      unfold wrapInt32; omega
    refine ⟨by omega, hw, ?_⟩
    rw [deleteFramesCreate_of_valid frames node vi (fun x hx => ⟨(hr x hx).1,
      fun _ => (hr x hx).2⟩) hn, hw]
    simp only [hL0, ne_eq, not_false_eq_true, true_and, if_true]
  have hinvalid : ¬ ((∀ x ∈ frames, 0 ≤ x ∧ x < vi.numFrames) ∧ frames.Nodup) →
      deleteFramesCreate frames node vi
          = .error "DeleteFrames: out of bounds frame number" [node]
        ∨ deleteFramesCreate frames node vi
          = .error "DeleteFrames: can't delete a frame more than once" [node] := by
    intro h
    refine deleteFramesCreate_of_invalid frames node vi (fun hv => h ⟨fun x hx => ?_, hv.2⟩)
    exact ⟨(hv.1 x hx).1, (hv.1 x hx).2 hL0⟩
  refine ⟨?_, ?_, ?_⟩
  · intro d hd
    by_cases hv : (∀ x ∈ frames, 0 ≤ x ∧ x < vi.numFrames) ∧ frames.Nodup
    · obtain ⟨hle, _, hc⟩ := hvalid hv.1 hv.2
      rw [hc] at hd
      by_cases hz : vi.numFrames - (frames.length : Int) = 0
      · rw [if_pos hz] at hd
        exact absurd hd (by simp)
      · rw [if_neg hz] at hd
        injection hd with hd
        subst hd
        refine ⟨rfl, ?_, ?_⟩
        · show 1 ≤ vi.numFrames - (frames.length : Int)
          omega
        · show vi.numFrames - (frames.length : Int) ≤ vi.numFrames
          omega
    · rcases hinvalid hv with h | h
      · rw [h] at hd
        exact absurd hd (by simp)
      · rw [h] at hd
        exact absurd hd (by simp)
  · constructor
    · intro he
      by_cases hv : (∀ x ∈ frames, 0 ≤ x ∧ x < vi.numFrames) ∧ frames.Nodup
      · obtain ⟨hle, _, hc⟩ := hvalid hv.1 hv.2
        rw [hc] at he
        by_cases hz : vi.numFrames - (frames.length : Int) = 0
        · exact ⟨hv.1, hv.2, (nodup_length_eq_iff frames vi.numFrames hv.2 hv.1
            (by omega)).1 (by omega)⟩
        · rw [if_neg hz] at he
          exact absurd he (by simp)
      · rcases hinvalid hv with h | h
        · rw [h] at he
          injection he with hs _
          exact absurd hs (by decide)
        · rw [h] at he
          injection he with hs _
          exact absurd hs (by decide)
    · rintro ⟨hr, hn, hall⟩
      obtain ⟨_, _, hc⟩ := hvalid hr hn
      have hlen := (nodup_length_eq_iff frames vi.numFrames hn hr (by omega)).2 hall
      rw [hc, if_pos (by omega)]
  · intro hr hn
    obtain ⟨hle, _, hc⟩ := hvalid hr hn
    refine ⟨by omega, ?_⟩
    rintro ⟨x, hx0, hx1, hx⟩
    have hne : (frames.length : Int) ≠ vi.numFrames := fun h =>
      hx ((nodup_length_eq_iff frames vi.numFrames hn hr (by omega)).1 h x hx0 hx1)
    rw [hc, if_neg (by omega)]
    exact ⟨_, rfl⟩

/-- Witness of C20: on a 3-frame clip, deleting `[2, 0]` leaves one frame and deleting
`[2, 0, 1]` is refused. -/
theorem deleteFrames_length_witness :
    (∀ d, deleteFramesCreate [2, 0] 0 ⟨1, 25, 1, 4, 4, 3⟩ = .filter d →
        d.vi.numFrames = 1)
      ∧ deleteFramesCreate [2, 0] 0 ⟨1, 25, 1, 4, 4, 3⟩
        = .filter ⟨0, ⟨1, 25, 1, 4, 4, 1⟩, [0, 2], 2⟩
      ∧ deleteFramesCreate [2, 0, 1] 0 ⟨1, 25, 1, 4, 4, 3⟩
        = .error "DeleteFrames: can't delete all frames" [0] := by
  refine ⟨?_, by decide, ?_⟩
  · intro d hd
    have := ((deleteFrames_length [2, 0] 0 ⟨1, 25, 1, 4, 4, 3⟩ (by decide) (by decide)).1
      d hd).1
    rw [this]
    decide
  · refine (deleteFrames_length [2, 0, 1] 0 ⟨1, 25, 1, 4, 4, 3⟩ (by decide)
      (by decide)).2.1.2 ⟨by decide, by decide, ?_⟩
    intro x h0 h1
    have hx : x = 0 ∨ x = 1 ∨ x = 2 := by
      have h1' : x < 3 := h1
      omega
    rcases hx with rfl | rfl | rfl <;> decide

/-- C18. DeleteFrames mapping: for an upstream clip of `1 ≤ L ≤ INT_MAX` frames and an accepted
list `frames` (distinct indices of `[0, L)`, fewer than `L`, in any order), the clip has
`L - d` frames and for every `n` in `[0, L - d)` the index `r` requested in phase one and
fetched in phase two lies in `[0, L)`, is not deleted, and is `n` plus the number of deleted
indices below it (so exactly `n` kept indices lie below `r`: it is the `n`-th smallest kept
index); the mapping is strictly increasing and reaches every kept index of `[0, L)`. -/
theorem deleteFrames_mapping {F : Type} (getFrameFilter : Nat → Int → F) (frames : List Int)
    (node : Nat) (vi : VSVideoInfo) (d : DeleteFramesData)
    (hL1 : 1 ≤ vi.numFrames) (hLmax : vi.numFrames ≤ INT_MAX)
    (hcreate : deleteFramesCreate frames node vi = .filter d) :
    d.vi.numFrames = vi.numFrames - frames.length
      ∧ (∀ n : Int, 0 ≤ n → n < vi.numFrames - frames.length →
          ∃ r : Int,
            deleteFramesGetFrame getFrameFilter d n none .arInitial
                = (.requested [(node, r)], some r)
            ∧ deleteFramesGetFrame getFrameFilter d n (some r) .arAllFramesReady
                = (.frame (getFrameFilter node r), some r)
            ∧ 0 ≤ r ∧ r < vi.numFrames ∧ r ∉ frames
            ∧ r = n + (frames.countP (fun y => decide (y < r)) : Nat))
      ∧ (∀ n n' : Int, 0 ≤ n → n < n' → n' < vi.numFrames - frames.length →
          deleteFramesSkip d.delete n < deleteFramesSkip d.delete n')
      ∧ (∀ x : Int, 0 ≤ x → x < vi.numFrames → x ∉ frames →
          ∃ n : Int, 0 ≤ n ∧ n < vi.numFrames - frames.length
            ∧ deleteFramesSkip d.delete n = x) := by
  have hL0 : vi.numFrames ≠ 0 := by omega
  have hmax := hLmax
  unfold INT_MAX at hmax
  have hv : (∀ x ∈ frames, 0 ≤ x ∧ (vi.numFrames ≠ 0 → x < vi.numFrames)) ∧ frames.Nodup := by
    by_contra h
    rcases deleteFramesCreate_of_invalid frames node vi h with h | h
    · rw [h] at hcreate
      exact absurd hcreate (by simp)
    · rw [h] at hcreate
      exact absurd hcreate (by simp)
  have hr : ∀ x ∈ frames, 0 ≤ x ∧ x < vi.numFrames := fun x hx =>
    ⟨(hv.1 x hx).1, (hv.1 x hx).2 hL0⟩
  have hle := nodup_length_le frames 0 vi.numFrames hv.2 hr (by omega)
  have hw : wrapInt32 (vi.numFrames - frames.length) = vi.numFrames - frames.length := by
    unfold wrapInt32; omega
  rw [deleteFramesCreate_of_valid frames node vi hv.1 hv.2, hw] at hcreate
  by_cases hz : vi.numFrames ≠ 0 ∧ vi.numFrames - (frames.length : Int) = 0
  · rw [if_pos hz] at hcreate
    exact absurd hcreate (by simp)
  rw [if_neg hz] at hcreate
  injection hcreate with hd
  subst hd
  simp only [if_pos hL0]
  have hperm := qsortInts_perm frames
  have hsorted : List.Sorted (fun x y => x < y) (qsortInts frames) :=
    (qsortInts_sorted frames).lt_of_le (hperm.nodup_iff.2 hv.2)
  have hlen : (qsortInts frames).length = frames.length := hperm.length_eq
  have hcount : ∀ x : Int, (qsortInts frames).countP (fun y => decide (y < x))
      = frames.countP (fun y => decide (y < x)) := fun x => hperm.countP_eq _
  refine ⟨trivial, ?_, ?_, ?_⟩
  · intro n hn0 hn1
    obtain ⟨s1, s2, s3, s4⟩ := deleteFramesSkip_spec (qsortInts frames) n hsorted
      (by unfold INT_MIN; omega) (by rw [hlen]; unfold INT_MAX; omega)
    rw [hlen] at s4
    refine ⟨deleteFramesSkip (qsortInts frames) n, rfl, rfl, by omega, by omega, ?_, ?_⟩
    · exact fun hm => s2 (hperm.mem_iff.2 hm)
    · rw [← hcount]
      exact s3
  · intro n n' hn0 hlt hn1
    exact deleteFramesSkip_strictMono (qsortInts frames) n n' hsorted
      (by unfold INT_MIN; omega) (by rw [hlen]; unfold INT_MAX; omega) hlt
  · intro x hx0 hx1 hx
    have hxs : x ∉ qsortInts frames := fun hm => hx (hperm.mem_iff.1 hm)
    have hlo := countP_lt_le frames 0 x hv.2 (fun y hy => (hr y hy).1) hx0
    have hhi := countP_not_lt_le frames x vi.numFrames hv.2 (fun y hy => (hr y hy).2) hx hx1
    have hsplit := List.length_eq_countP_add_countP (fun y => decide (y < x)) frames
    refine ⟨x - (frames.countP (fun y => decide (y < x)) : Nat), by omega, by omega, ?_⟩
    rw [← hcount]
    exact deleteFramesSkip_surj (qsortInts frames) x hsorted
      (fun y hy => (hr y (hperm.mem_iff.1 hy)).1) hxs (by unfold INT_MAX; omega)

/-- Witness of C18: deleting `[3, 1]` from a 5-frame clip leaves the upstream frames 0, 2, 4. -/
theorem deleteFrames_mapping_witness :
    deleteFramesCreate [3, 1] 0 ⟨1, 25, 1, 4, 4, 5⟩
        = .filter ⟨0, ⟨1, 25, 1, 4, 4, 3⟩, [1, 3], 2⟩
      ∧ (⟨0, ⟨1, 25, 1, 4, 4, 3⟩, [1, 3], 2⟩ : DeleteFramesData).vi.numFrames = 5 - 2
      ∧ (List.range 3).map (fun (n : Nat) =>
            (deleteFramesGetFrame (fun _ i => i) ⟨0, ⟨1, 25, 1, 4, 4, 3⟩, [1, 3], 2⟩
              (n : Int) none .arInitial).1)
          = [.requested [(0, 0)], .requested [(0, 2)], .requested [(0, 4)]]
      ∧ deleteFramesSkip [1, 3] 0 < deleteFramesSkip [1, 3] 1 := by
  have hc : deleteFramesCreate [3, 1] 0 ⟨1, 25, 1, 4, 4, 5⟩
      = .filter ⟨0, ⟨1, 25, 1, 4, 4, 3⟩, [1, 3], 2⟩ := by decide
  obtain ⟨h1, _, h3, _⟩ := deleteFrames_mapping (fun _ i => i) [3, 1] 0
    ⟨1, 25, 1, 4, 4, 5⟩ ⟨0, ⟨1, 25, 1, 4, 4, 3⟩, [1, 3], 2⟩ (by decide) (by decide) hc
  exact ⟨hc, h1, by decide, h3 0 1 (by decide) (by decide) (by decide)⟩

/-! ## Reverse -/

/-- The index computed by `reverseGetframe` is `max (L - 1 - n) 0` without wrap-around. -/
theorem reverse_index (L n : Int) (hL0 : 0 ≤ L) (hL1 : L ≤ INT_MAX) (hn0 : 0 ≤ n)
    (hn1 : n ≤ INT_MAX) :
    VSMAX (wrapInt32 (wrapInt32 (L - n) - 1)) 0 = max (L - 1 - n) 0 := by
  unfold INT_MAX at hL1 hn1
  have h1 : wrapInt32 (L - n) = L - n := by unfold wrapInt32; omega
  have h2 : wrapInt32 (L - n - 1) = L - n - 1 := by unfold wrapInt32; omega
  rw [h1, h2]
  unfold VSMAX
  split_ifs <;> omega

/-- C25. Reverse mapping: for a clip of `0 ≤ L ≤ INT_MAX` frames, Reverse requests and fetches
upstream index `max (L - 1 - n) 0` for every output index `0 ≤ n ≤ INT_MAX`; on `[0, L)` the
mapping goes into `[0, L)`, is an involution, injective and onto; for `n ≥ L` it is `0`. -/
theorem reverse_mapping {F : Type} (getFrameFilter : Nat → Int → F) (node : Nat)
    (vi : VSVideoInfo) (hL0 : 0 ≤ vi.numFrames) (hL1 : vi.numFrames ≤ INT_MAX) :
    ∃ d, reverseCreate node vi = .filter d
      ∧ (∀ n : Int, 0 ≤ n → n ≤ INT_MAX →
          reverseGetframe getFrameFilter d n .arInitial
              = .requested [(node, max (vi.numFrames - 1 - n) 0)]
            ∧ reverseGetframe getFrameFilter d n .arAllFramesReady
              = .frame (getFrameFilter node (max (vi.numFrames - 1 - n) 0)))
      ∧ (∀ n : Int, 0 ≤ n → n < vi.numFrames →
          0 ≤ max (vi.numFrames - 1 - n) 0 ∧ max (vi.numFrames - 1 - n) 0 < vi.numFrames
            ∧ reverseGetframe getFrameFilter d (max (vi.numFrames - 1 - n) 0) .arInitial
              = .requested [(node, n)])
      ∧ (∀ n n' : Int, 0 ≤ n → n < vi.numFrames → 0 ≤ n' → n' < vi.numFrames →
          reverseGetframe getFrameFilter d n .arInitial
              = reverseGetframe getFrameFilter d n' .arInitial → n = n')
      ∧ (∀ m : Int, 0 ≤ m → m < vi.numFrames →
          ∃ n : Int, 0 ≤ n ∧ n < vi.numFrames
            ∧ reverseGetframe getFrameFilter d n .arInitial = .requested [(node, m)])
      ∧ (∀ n : Int, vi.numFrames ≤ n → n ≤ INT_MAX →
          reverseGetframe getFrameFilter d n .arInitial = .requested [(node, 0)]
            ∧ reverseGetframe getFrameFilter d n .arAllFramesReady
              = .frame (getFrameFilter node 0)) := by
  have hreq : ∀ n : Int, 0 ≤ n → n ≤ INT_MAX →
      reverseGetframe getFrameFilter ⟨node, vi⟩ n .arInitial
          = .requested [(node, max (vi.numFrames - 1 - n) 0)]
        ∧ reverseGetframe getFrameFilter ⟨node, vi⟩ n .arAllFramesReady
          = .frame (getFrameFilter node (max (vi.numFrames - 1 - n) 0)) := by
    intro n hn0 hn1
    simp only [reverseGetframe, reverse_index vi.numFrames n hL0 hL1 hn0 hn1, and_self]
  refine ⟨⟨node, vi⟩, rfl, hreq, ?_, ?_, ?_, ?_⟩
  · intro n hn0 hn1
    refine ⟨by omega, by omega, ?_⟩
    rw [(hreq _ (by omega) (by omega)).1]
    have : max (vi.numFrames - 1 - max (vi.numFrames - 1 - n) 0) 0 = n := by omega
    rw [this]
  · intro n n' hn0 hn1 hn0' hn1' h
    rw [(hreq n hn0 (by omega)).1, (hreq n' hn0' (by omega)).1] at h
    injection h with h
    injection h with h _
    injection h with _ h
    omega
  · intro m hm0 hm1
    refine ⟨vi.numFrames - 1 - m, by omega, by omega, ?_⟩
    rw [(hreq _ (by omega) (by omega)).1]
    have : max (vi.numFrames - 1 - (vi.numFrames - 1 - m)) 0 = m := by omega
    rw [this]
  · intro n hn0 hn1
    have h := hreq n (by omega) hn1
    have : max (vi.numFrames - 1 - n) 0 = 0 := by omega
    rw [this] at h
    exact h

/-- Witness of C25: Reverse of a 4-frame clip requests the upstream frames 3, 2, 1, 0 and clamps
output index 7 to frame 0. -/
theorem reverse_mapping_witness :
    (List.range 4).map (fun (n : Nat) =>
        reverseGetframe (fun _ i => i) ⟨0, ⟨1, 25, 1, 4, 4, 4⟩⟩ (n : Int) .arInitial)
      = [.requested [(0, 3)], .requested [(0, 2)], .requested [(0, 1)], .requested [(0, 0)]]
    ∧ reverseGetframe (fun _ i => i) ⟨0, ⟨1, 25, 1, 4, 4, 4⟩⟩ 7 .arAllFramesReady = .frame 0 := by
  obtain ⟨d, hd, _, _, _, _, h⟩ := reverse_mapping (fun _ i => i) 0 ⟨1, 25, 1, 4, 4, 4⟩
    (by decide) (by decide)
  have hd' : d = ⟨0, ⟨1, 25, 1, 4, 4, 4⟩⟩ := by
    simp only [reverseCreate] at hd
    injection hd with hd
    exact hd.symm
  subst hd'
  exact ⟨by decide, (h 7 (by decide) (by decide)).2⟩

/-! ## Classification of `findCommonVi` -/

/-- The cause after one iteration of `findCommonVi`: every check that fires overwrites the
cause, so the last check that fires decides it. -/
theorem findCommonViStep_cause (ignorelength : Bool) (acc : Int × VSVideoInfo)
    (v : VSVideoInfo) :
    (findCommonViStep ignorelength acc v).1
      = if acc.2.numFrames < v.numFrames ∧ ignorelength = false then DifferentLengths
        else if acc.2.fpsNum ≠ v.fpsNum ∨ acc.2.fpsDen ≠ v.fpsDen then DifferentFrameRates
        else if acc.2.format ≠ v.format then DifferentFormats
        else if acc.2.width ≠ v.width ∨ acc.2.height ≠ v.height then DifferentDimensions
        else acc.1 := by
  unfold findCommonViStep
  cases ignorelength <;> simp only [] <;> split_ifs <;> simp_all

/-- An iteration of `findCommonVi` on a clip that agrees with the merged descriptor in
dimensions, format and frame rate changes the frame count only. -/
theorem findCommonViStep_of_agree (ignorelength : Bool) (acc : Int × VSVideoInfo)
    (v : VSVideoInfo) (hw : acc.2.width = v.width) (hh : acc.2.height = v.height)
    (hf : acc.2.format = v.format) (hn : acc.2.fpsNum = v.fpsNum)
    (hd : acc.2.fpsDen = v.fpsDen) :
    (findCommonViStep ignorelength acc v).2
      = { acc.2 with numFrames := max acc.2.numFrames v.numFrames } := by
  obtain ⟨m, o⟩ := acc
  simp only [] at hw hh hf hn hd
  have hmax : max o.numFrames v.numFrames
      = if o.numFrames < v.numFrames then v.numFrames else o.numFrames := by
    split_ifs <;> omega
  unfold findCommonViStep
  simp only [hw, hh, hf, hn, hd, ne_eq, not_true_eq_false, or_self, if_false, hmax]
  by_cases h : o.numFrames < v.numFrames
  · simp only [h, if_true]
  · simp only [h, if_false]
    cases o
    simp only [] at hw hh hf hn hd
    simp only [hw, hh, hf, hn, hd]

/-- In lenient mode an iteration leaves the cause `0` exactly when it was `0` and the clip agrees
with the merged descriptor. -/
theorem findCommonViStep_lenient (acc : Int × VSVideoInfo) (v : VSVideoInfo)
    (hacc : acc.1 ≠ DifferentLengths) :
    (findCommonViStep true acc v).1 ≠ DifferentLengths
      ∧ ((findCommonViStep true acc v).1 = 0 ↔ acc.1 = 0 ∧ SameFormatAndRate acc.2 v) := by
  rw [findCommonViStep_cause]
  unfold SameFormatAndRate
  unfold DifferentLengths at hacc ⊢
  unfold DifferentFrameRates DifferentFormats DifferentDimensions
  simp only [Bool.true_eq_false, and_false, if_false]
  split_ifs with h1 h2 h3
  · refine ⟨by decide, ⟨fun h => absurd h (by decide), fun h => ?_⟩⟩
    rcases h1 with h1 | h1
    · exact absurd h.2.2.2.2.1 h1
    · exact absurd h.2.2.2.2.2 h1
  · exact ⟨by decide, ⟨fun h => absurd h (by decide), fun h => absurd h.2.2.2.1 h2⟩⟩
  · refine ⟨by decide, ⟨fun h => absurd h (by decide), fun h => ?_⟩⟩
    rcases h3 with h3 | h3
    · exact absurd h.2.1 h3
    · exact absurd h.2.2.1 h3
  · refine ⟨hacc, ⟨fun h => ⟨h, ?_⟩, fun h => h.1⟩⟩
    simp only [not_or, ne_eq, not_not] at h1 h2 h3
    exact ⟨h3.1, h3.2, h2, h1.1, h1.2⟩

theorem findCommonVi_foldl_lenient :
    ∀ (rest : List VSVideoInfo) (acc : Int × VSVideoInfo), acc.1 ≠ DifferentLengths →
      (rest.foldl (findCommonViStep true) acc).1 ≠ DifferentLengths
        ∧ ((rest.foldl (findCommonViStep true) acc).1 = 0
            ↔ acc.1 = 0 ∧ ∀ v ∈ rest, SameFormatAndRate acc.2 v)
  | [], acc, hacc => by simp [hacc]
  | v :: rest, acc, hacc => by
      obtain ⟨s1, s2⟩ := findCommonViStep_lenient acc v hacc
      obtain ⟨h1, h2⟩ := findCommonVi_foldl_lenient rest (findCommonViStep true acc v) s1
      simp only [List.foldl_cons, List.mem_cons, forall_eq_or_imp]
      refine ⟨h1, ?_⟩
      rw [h2, s2]
      by_cases hs : SameFormatAndRate acc.2 v
      · have ho := findCommonViStep_of_agree true acc v hs.1 hs.2.1 hs.2.2.1 hs.2.2.2.1
          hs.2.2.2.2
        have hsame : ∀ w, SameFormatAndRate (findCommonViStep true acc v).2 w
            ↔ SameFormatAndRate acc.2 w := by
          intro w
          rw [ho]
          rfl
        constructor
        · rintro ⟨⟨h0, _⟩, hr⟩
          exact ⟨h0, hs, fun w hw => (hsame w).1 (hr w hw)⟩
        · rintro ⟨h0, _, hr⟩
          exact ⟨⟨h0, hs⟩, fun w hw => (hsame w).2 (hr w hw)⟩
      · constructor
        · rintro ⟨⟨_, h⟩, _⟩
          exact absurd h hs
        · rintro ⟨_, h, _⟩
          exact absurd h hs

/-- C26 (counterexample). Two clips that differ in both dimensions and format are classified
`DifferentFormats`, not `DifferentDimensions`, in either length mode. -/
theorem findCommonVi_precedence_counterexample :
    (⟨1, 25, 1, 4, 4, 5⟩ : VSVideoInfo).width ≠ (⟨2, 25, 1, 8, 8, 5⟩ : VSVideoInfo).width
      ∧ (⟨1, 25, 1, 4, 4, 5⟩ : VSVideoInfo).format ≠ (⟨2, 25, 1, 8, 8, 5⟩ : VSVideoInfo).format
      ∧ (findCommonVi [⟨1, 25, 1, 4, 4, 5⟩, ⟨2, 25, 1, 8, 8, 5⟩] true).1 = DifferentFormats
      ∧ (findCommonVi [⟨1, 25, 1, 4, 4, 5⟩, ⟨2, 25, 1, 8, 8, 5⟩] false).1 = DifferentFormats
      ∧ (findCommonVi [⟨1, 25, 1, 4, 4, 5⟩, ⟨2, 25, 1, 8, 8, 5⟩] true).1
          ≠ DifferentDimensions := by
  decide

/-- C26 (amended). The classification of `findCommonVi` is overwritten by every check that
fires, so the last one decides. For two clips: in strict mode a longer second clip gives
`DifferentLengths`; in lenient mode, or when the lengths are equal, the classification is the
last aspect in which the clips differ in the order dimension, format, frame rate, and `0` when
they differ in none. For more clips the same holds for the final clip against the descriptor
merged from the clips before it, with the classification of those clips in place of `0`. -/
theorem findCommonVi_precedence (ignorelength : Bool) (v0 : VSVideoInfo)
    (rest : List VSVideoInfo) (v : VSVideoInfo) :
    ((ignorelength = false → v0.numFrames < v.numFrames →
          (findCommonVi [v0, v] ignorelength).1 = DifferentLengths)
        ∧ (ignorelength = true ∨ v0.numFrames = v.numFrames →
          (findCommonVi [v0, v] ignorelength).1
            = if v0.fpsNum ≠ v.fpsNum ∨ v0.fpsDen ≠ v.fpsDen then DifferentFrameRates
              else if v0.format ≠ v.format then DifferentFormats
              else if v0.width ≠ v.width ∨ v0.height ≠ v.height then DifferentDimensions
              else 0))
      ∧ ((ignorelength = false →
            (findCommonVi (v0 :: rest) ignorelength).2.numFrames < v.numFrames →
          (findCommonVi (v0 :: rest ++ [v]) ignorelength).1 = DifferentLengths)
        ∧ (ignorelength = true
              ∨ (findCommonVi (v0 :: rest) ignorelength).2.numFrames = v.numFrames →
          (findCommonVi (v0 :: rest ++ [v]) ignorelength).1
            = if (findCommonVi (v0 :: rest) ignorelength).2.fpsNum ≠ v.fpsNum
                  ∨ (findCommonVi (v0 :: rest) ignorelength).2.fpsDen ≠ v.fpsDen then
                DifferentFrameRates
              else if (findCommonVi (v0 :: rest) ignorelength).2.format ≠ v.format then
                DifferentFormats
              else if (findCommonVi (v0 :: rest) ignorelength).2.width ≠ v.width
                  ∨ (findCommonVi (v0 :: rest) ignorelength).2.height ≠ v.height then
                DifferentDimensions
              else (findCommonVi (v0 :: rest) ignorelength).1)) := by
  have h2 : (findCommonVi [v0, v] ignorelength).1
      = (findCommonViStep ignorelength (0, v0) v).1 := by
    simp only [findCommonVi, List.foldl_cons, List.foldl_nil]
  have hN : (findCommonVi (v0 :: rest ++ [v]) ignorelength).1
      = (findCommonViStep ignorelength (findCommonVi (v0 :: rest) ignorelength) v).1 := by
    simp only [findCommonVi, List.cons_append, List.foldl_append, List.foldl_cons,
      List.foldl_nil]
  rw [h2, hN, findCommonViStep_cause, findCommonViStep_cause]
  refine ⟨⟨?_, ?_⟩, ?_, ?_⟩
  · intro hs hlt
    rw [if_pos ⟨hlt, hs⟩]
  · intro h
    rw [if_neg]
    rintro ⟨hlt, hs⟩
    rcases h with h | h
    · rw [h] at hs
      exact absurd hs (by decide)
    · simp only [] at hlt
      omega
  · intro hs hlt
    rw [if_pos ⟨hlt, hs⟩]
  · intro h
    rw [if_neg]
    rintro ⟨hlt, hs⟩
    rcases h with h | h
    · rw [h] at hs
      exact absurd hs (by decide)
    · omega

/-- C27. Lenient length mode: for every non-empty list of descriptors `findCommonVi` with
`ignorelength` set returns a merged descriptor whose `numFrames` is the largest of the clips'
`numFrames`, never returns `DifferentLengths`, and returns `0` if and only if all clips have the
same width, height, format, `fpsNum` and `fpsDen`. -/
theorem findCommonVi_lenient (v0 : VSVideoInfo) (rest : List VSVideoInfo) :
    (∀ v ∈ v0 :: rest, v.numFrames ≤ (findCommonVi (v0 :: rest) true).2.numFrames)
      ∧ (∃ v ∈ v0 :: rest, v.numFrames = (findCommonVi (v0 :: rest) true).2.numFrames)
      ∧ (findCommonVi (v0 :: rest) true).1 ≠ DifferentLengths
      ∧ ((findCommonVi (v0 :: rest) true).1 = 0
          ↔ ∀ v ∈ v0 :: rest, ∀ w ∈ v0 :: rest,
              v.width = w.width ∧ v.height = w.height ∧ v.format = w.format
                ∧ v.fpsNum = w.fpsNum ∧ v.fpsDen = w.fpsDen) := by
  obtain ⟨n1, n2, n3⟩ := findCommonVi_foldl_numFrames true rest (0, v0)
  obtain ⟨l1, l2⟩ := findCommonVi_foldl_lenient rest (0, v0)
    (show (0 : Int) ≠ DifferentLengths by decide)
  simp only [findCommonVi]
  simp only [] at n1 n3 l2
  refine ⟨?_, ?_, l1, ?_⟩
  · intro v hv
    rcases List.mem_cons.1 hv with rfl | hv
    · exact n1
    · exact n2 v hv
  · rcases n3 with n3 | ⟨w, hw, n3⟩
    · exact ⟨v0, by simp, n3.symm⟩
    · exact ⟨w, by simp [hw], n3.symm⟩
  · rw [l2]
    simp only [true_and]
    constructor
    · intro h v hv w hw
      have hv' : SameFormatAndRate v0 v := by
        rcases List.mem_cons.1 hv with rfl | hv
        · exact ⟨rfl, rfl, rfl, rfl, rfl⟩
        · exact h v hv
      have hw' : SameFormatAndRate v0 w := by
        rcases List.mem_cons.1 hw with rfl | hw
        · exact ⟨rfl, rfl, rfl, rfl, rfl⟩
        · exact h w hw
      unfold SameFormatAndRate at hv' hw'
      obtain ⟨a1, a2, a3, a4, a5⟩ := hv'
      obtain ⟨b1, b2, b3, b4, b5⟩ := hw'
      exact ⟨by rw [← a1, b1], by rw [← a2, b2], by rw [← a3, b3], by rw [← a4, b4],
        by rw [← a5, b5]⟩
    · intro h v hv
      exact h v0 (by simp) v (by simp [hv])

/-- The scan of `duplicateFramesGetFrame` never goes below a lower bound of the start index and
the duplicate indices, and never above the start index. -/
theorem duplicateFramesSkip_bounds :
    ∀ (D : List Int) (n s : Int), (∀ x ∈ D, s ≤ x) → (∀ x ∈ D, 0 ≤ x) → s ≤ n → 0 ≤ n →
      n ≤ INT_MAX → s ≤ duplicateFramesSkip D n ∧ duplicateFramesSkip D n ≤ n
  | [], n, s, _, _, hs, _, _ => by
      simp only [duplicateFramesSkip]
      omega
  | x :: rest, n, s, h, h0, hs, hn0, hn1 => by
      have hx := h x (by simp)
      have hx0 := h0 x (by simp)
      simp only [duplicateFramesSkip]
      by_cases hc : n > x
      · have hw : wrapInt32 (n - 1) = n - 1 := by
          unfold INT_MAX at hn1
          unfold wrapInt32
          omega
        rw [if_pos hc, hw]
        have ih := duplicateFramesSkip_bounds rest (n - 1) s (fun y hy => h y (by simp [hy]))
          (fun y hy => h0 y (by simp [hy])) (by omega) (by omega) (by omega)
        omega
      · rw [if_neg hc]
        omega

/-- The index `r` reached by the scan from `n` on a sorted list: the number of decrements
`n - r` lies between the number of duplicate indices below `r` and the number up to `r`. -/
theorem duplicateFramesSkip_spec :
    ∀ (D : List Int) (n : Int), D.Sorted (fun a b => a ≤ b) → (∀ x ∈ D, 0 ≤ x) → 0 ≤ n →
      n ≤ INT_MAX →
      ((D.countP (fun y => decide (y < duplicateFramesSkip D n)) : Nat) : Int)
          ≤ n - duplicateFramesSkip D n
        ∧ n - duplicateFramesSkip D n
          ≤ ((D.countP (fun y => decide (y ≤ duplicateFramesSkip D n)) : Nat) : Int)
  | [], n, _, _, _, _ => by
      simp [duplicateFramesSkip]
  | x :: rest, n, hs, h0, hn0, hn1 => by
      obtain ⟨hxr, hsr⟩ := List.sorted_cons.1 hs
      have hx0 := h0 x (by simp)
      by_cases hc : n > x
      · have hw : wrapInt32 (n - 1) = n - 1 := by
          unfold INT_MAX at hn1
          unfold wrapInt32
          omega
        have hskip : duplicateFramesSkip (x :: rest) n = duplicateFramesSkip rest (n - 1) := by
          simp only [duplicateFramesSkip, if_pos hc, hw]
        simp only [hskip]
        obtain ⟨ih1, ih2⟩ := duplicateFramesSkip_spec rest (n - 1) hsr
          (fun y hy => h0 y (by simp [hy])) (by omega) (by omega)
        have hb := (duplicateFramesSkip_bounds rest (n - 1) x hxr
          (fun y hy => h0 y (by simp [hy])) (by omega) (by omega) (by omega)).1
        have hle : decide (x ≤ duplicateFramesSkip rest (n - 1)) = true := by simpa using hb
        rw [List.countP_cons, List.countP_cons]
        simp only [hle, if_true]
        push_cast
        constructor
        · split_ifs <;> omega
        · omega
      · have hskip : duplicateFramesSkip (x :: rest) n = n := by
          simp only [duplicateFramesSkip, if_neg hc]
        simp only [hskip]
        have hz : (x :: rest).countP (fun y => decide (y < n)) = 0 := by
          rw [List.countP_eq_zero]
          intro y hy
          rcases List.mem_cons.1 hy with rfl | hy
          · simpa using hc
          · have := hxr y hy
            simp only [decide_eq_true_eq, not_lt]
            omega
        rw [hz]
        omega

theorem countP_le_eq_add_count (l : List Int) (f : Int) :
    l.countP (fun y => decide (y ≤ f)) = l.countP (fun y => decide (y < f)) + l.count f := by
  induction l with
  | nil => simp
  | cons x l ih =>
      rw [List.countP_cons, List.countP_cons, List.count_cons, ih]
      by_cases h1 : x < f
      · have h2 : x ≤ f := by omega
        have h3 : ¬ x = f := by omega
        simp [h1, h2, h3]
        omega
      · by_cases h2 : x = f
        · subst h2
          simp
          omega
        · have h3 : ¬ x ≤ f := by omega
          simp [h1, h2, h3]

/-- On a sorted list the scan reaches `f` exactly from the indices `n` between
`f + #{dups < f}` and `f + #{dups ≤ f}`. -/
theorem duplicateFramesSkip_eq_iff (D : List Int) (n f : Int)
    (hs : D.Sorted (fun a b => a ≤ b)) (h0 : ∀ x ∈ D, 0 ≤ x) (hn0 : 0 ≤ n)
    (hn1 : n ≤ INT_MAX) :
    duplicateFramesSkip D n = f
      ↔ f + ((D.countP (fun y => decide (y < f)) : Nat) : Int) ≤ n
        ∧ n ≤ f + ((D.countP (fun y => decide (y ≤ f)) : Nat) : Int) := by
  obtain ⟨a1, a2⟩ := duplicateFramesSkip_spec D n hs h0 hn0 hn1
  constructor
  · intro h
    rw [h] at a1 a2
    omega
  · rintro ⟨b1, b2⟩
    rcases lt_trichotomy (duplicateFramesSkip D n) f with h | h | h
    · have hm : D.countP (fun y => decide (y ≤ duplicateFramesSkip D n))
          ≤ D.countP (fun y => decide (y < f)) := by
        apply List.countP_mono_left
        intro y _ hy
        simp only [decide_eq_true_eq] at hy ⊢
        omega
      omega
    · exact h
    · have hm : D.countP (fun y => decide (y ≤ f))
          ≤ D.countP (fun y => decide (y < duplicateFramesSkip D n)) := by
        apply List.countP_mono_left
        intro y _ hy
        simp only [decide_eq_true_eq] at hy ⊢
        omega
      omega

/-- The scan of `duplicateFramesGetFrame` in closed form: it makes `j` decrements, where `j` is
the first position whose duplicate index is not below the current index. -/
theorem duplicateFramesSkip_scan :
    ∀ (D : List Int) (n : Int), (∀ x ∈ D, 0 ≤ x) → 0 ≤ n → n ≤ INT_MAX →
      ∃ j : Nat, j ≤ D.length ∧ duplicateFramesSkip D n = n - j
        ∧ (∀ i : Nat, i < j → D.getD i 0 < n - i)
        ∧ (j < D.length → ¬ D.getD j 0 < n - j)
  | [], n, _, _, _ => ⟨0, by simp [duplicateFramesSkip]⟩
  | x :: rest, n, h0, hn0, hn1 => by
      have hx0 := h0 x (by simp)
      by_cases hc : n > x
      · have hw : wrapInt32 (n - 1) = n - 1 := by
          unfold INT_MAX at hn1
          unfold wrapInt32
          omega
        obtain ⟨j, hj, hr, hlt, hstop⟩ := duplicateFramesSkip_scan rest (n - 1)
          (fun y hy => h0 y (by simp [hy])) (by omega) (by omega)
        refine ⟨j + 1, by simpa using hj, ?_, ?_, ?_⟩
        · simp only [duplicateFramesSkip, if_pos hc, hw, hr]
          push_cast
          omega
        · intro i hi
          cases i with
          | zero => simpa using hc
          | succ i =>
              have := hlt i (by omega)
              simp only [List.getD_cons_succ]
              push_cast
              omega
        · intro hlen
          have := hstop (by simpa using hlen)
          simp only [List.getD_cons_succ]
          push_cast
          omega
      · refine ⟨0, by simp, by simp [duplicateFramesSkip, if_neg hc], by simp, ?_⟩
        intro _
        simpa using hc

/-- C21 (counterexample). With `dups = [1]` and `n = 1` the duplicate index is `≤` the current
`n`, so the scan as worded decrements to `0`; `duplicateFramesGetFrame` requests frame `1`. -/
theorem duplicateFrames_scan_counterexample :
    duplicateFramesCreate [1] 0 ⟨1, 25, 1, 4, 4, 3⟩
        = .filter ⟨0, ⟨1, 25, 1, 4, 4, 4⟩, [1], 1⟩
      ∧ duplicateFramesGetFrame (fun _ i => i) ⟨0, ⟨1, 25, 1, 4, 4, 4⟩, [1], 1⟩ 1 none
          .arInitial = (.requested [(0, 1)], some 1)
      ∧ duplicateFramesSkipAsSpecified [1] 1 = 0
      ∧ duplicateFramesSkip [1] 1 ≠ duplicateFramesSkipAsSpecified [1] 1 := by
  decide

/-- C21 (amended). With the duplicate indices non-negative (as the constructor leaves them),
`duplicateFramesGetFrame` maps a requested index `0 ≤ n ≤ INT_MAX` by scanning `dups` in array
order and decrementing `n` once for each duplicate index that is strictly below the current
`n`, stopping at the first one that is not: the index requested (and kept in `*frameData`, and
fetched in phase two) is `n - j`, where the first `j` entries satisfy `dups[i] < n - i` and
entry `j`, if there is one, does not. -/
theorem duplicateFrames_scan {F : Type} (getFrameFilter : Nat → Int → F)
    (d : DuplicateFramesData) (n : Int) (h0 : ∀ x ∈ d.dups, 0 ≤ x) (hn0 : 0 ≤ n)
    (hn1 : n ≤ INT_MAX) :
    ∃ j : Nat, j ≤ d.dups.length
      ∧ duplicateFramesGetFrame getFrameFilter d n none .arInitial
          = (.requested [(d.node, n - j)], some (n - j))
      ∧ duplicateFramesGetFrame getFrameFilter d n (some (n - j)) .arAllFramesReady
          = (.frame (getFrameFilter d.node (n - j)), some (n - j))
      ∧ (∀ i : Nat, i < j → d.dups.getD i 0 < n - i)
      ∧ (j < d.dups.length → ¬ d.dups.getD j 0 < n - j) := by
  obtain ⟨j, hj, hr, hlt, hstop⟩ := duplicateFramesSkip_scan d.dups n h0 hn0 hn1
  refine ⟨j, hj, ?_, rfl, hlt, hstop⟩
  simp only [duplicateFramesGetFrame, hr]

/-- Witness of C21: with `dups = [1, 1, 4]` output index `3` is decremented twice and index `1`
not at all. -/
theorem duplicateFrames_scan_witness :
    duplicateFramesGetFrame (fun _ i => i) ⟨0, ⟨1, 25, 1, 4, 4, 9⟩, [1, 1, 4], 3⟩ 3 none
        .arInitial = (.requested [(0, 1)], some 1)
      ∧ duplicateFramesGetFrame (fun _ i => i) ⟨0, ⟨1, 25, 1, 4, 4, 9⟩, [1, 1, 4], 3⟩ 1 none
        .arInitial = (.requested [(0, 1)], some 1)
      ∧ ∃ j : Nat, j ≤ 3
        ∧ duplicateFramesGetFrame (fun _ i => i) ⟨0, ⟨1, 25, 1, 4, 4, 9⟩, [1, 1, 4], 3⟩ 3 none
          .arInitial = (.requested [(0, 3 - (j : Int))], some (3 - (j : Int))) := by
  obtain ⟨j, hj, h1, _, _, _⟩ := duplicateFrames_scan (fun _ i => i)
    ⟨0, ⟨1, 25, 1, 4, 4, 9⟩, [1, 1, 4], 3⟩ 3 (by decide) (by decide) (by decide)
  exact ⟨by decide, by decide, j, hj, h1⟩

/-- The constructor `duplicateFramesCreate` on a list of in-range indices whose count fits. -/
theorem duplicateFramesCreate_of_valid (frames : List Int) (node : Nat) (vi : VSVideoInfo)
    (hL1 : 1 ≤ vi.numFrames) (hrange : ∀ x ∈ frames, 0 ≤ x ∧ x < vi.numFrames)
    (hfit : vi.numFrames + frames.length ≤ INT_MAX) :
    duplicateFramesCreate frames node vi
      = .filter ⟨node, { vi with numFrames := vi.numFrames + (frames.length : Int) },
          qsortInts frames, frames.length⟩ := by
  have hmax := hfit
  unfold INT_MAX at hmax
  have hw1 : wrapInt32 (vi.numFrames - 1) = vi.numFrames - 1 := by unfold wrapInt32; omega
  have hw2 : wrapInt32 (vi.numFrames + (frames.length : Int))
      = vi.numFrames + (frames.length : Int) := by unfold wrapInt32; omega
  have hany : ¬ (frames.any (fun x =>
      decide (x < 0 ∨ (vi.numFrames ≠ 0 ∧ x > wrapInt32 (vi.numFrames - 1)))) = true) := by
    rw [List.any_eq_true]
    rintro ⟨x, hx, h⟩
    have := hrange x hx
    simp only [hw1, decide_eq_true_eq] at h
    omega
  simp only [duplicateFramesCreate, hw2]
  rw [if_neg hany, if_neg (by omega)]

/-- C22. DuplicateFrames semantics: for an upstream clip of `L ≥ 1` frames and a list `frames`
of in-range indices (any order, repeats allowed) with `L + |frames| ≤ INT_MAX`, the clip built
has `numFrames = L + |frames|`; for every `n` in `[0, L + |frames|)` the index requested in
phase one and fetched in phase two lies in `[0, L)`; the mapping is non-decreasing, reaches
every upstream frame, and each upstream frame `f` is produced exactly
`1 + (occurrences of f in frames)` times. -/
theorem duplicateFrames_semantics {F : Type} (getFrameFilter : Nat → Int → F)
    (frames : List Int) (node : Nat) (vi : VSVideoInfo) (hL1 : 1 ≤ vi.numFrames)
    (hrange : ∀ x ∈ frames, 0 ≤ x ∧ x < vi.numFrames)
    (hfit : vi.numFrames + frames.length ≤ INT_MAX) :
    ∃ d, duplicateFramesCreate frames node vi = .filter d
      ∧ d.vi.numFrames = vi.numFrames + frames.length
      ∧ (∀ n : Int, 0 ≤ n → n < vi.numFrames + frames.length →
          ∃ r : Int,
            duplicateFramesGetFrame getFrameFilter d n none .arInitial
                = (.requested [(node, r)], some r)
            ∧ duplicateFramesGetFrame getFrameFilter d n (some r) .arAllFramesReady
                = (.frame (getFrameFilter node r), some r)
            ∧ r = duplicateFramesSkip d.dups n ∧ 0 ≤ r ∧ r < vi.numFrames)
      ∧ (∀ n n' : Int, 0 ≤ n → n ≤ n' → n' < vi.numFrames + frames.length →
          duplicateFramesSkip d.dups n ≤ duplicateFramesSkip d.dups n')
      ∧ (∀ f : Int, 0 ≤ f → f < vi.numFrames →
          ∃ n : Int, 0 ≤ n ∧ n < vi.numFrames + frames.length
            ∧ duplicateFramesSkip d.dups n = f)
      ∧ (∀ f : Int, 0 ≤ f → f < vi.numFrames →
          ((Finset.Ico (0 : Int) (vi.numFrames + frames.length)).filter
              (fun n => duplicateFramesSkip d.dups n = f)).card
            = 1 + frames.count f) := by
  have hmax := hfit
  unfold INT_MAX at hmax
  have hperm := qsortInts_perm frames
  have hsorted := qsortInts_sorted frames
  have h0 : ∀ x ∈ qsortInts frames, 0 ≤ x := fun x hx => (hrange x (hperm.mem_iff.1 hx)).1
  have hlt : ∀ x ∈ qsortInts frames, x < vi.numFrames := fun x hx =>
    (hrange x (hperm.mem_iff.1 hx)).2
  have hlen : (qsortInts frames).length = frames.length := hperm.length_eq
  have hcle : ∀ f : Int, (qsortInts frames).countP (fun y => decide (y ≤ f))
      = (qsortInts frames).countP (fun y => decide (y < f)) + frames.count f := by
    intro f
    rw [countP_le_eq_add_count, hperm.count_eq]
  have hcount_le : ∀ f : Int,
      (qsortInts frames).countP (fun y => decide (y < f)) + frames.count f
        ≤ frames.length := by
    intro f
    rw [← hcle, ← hlen]
    exact List.countP_le_length _
  have hiff : ∀ n f : Int, 0 ≤ n → n ≤ INT_MAX →
      (duplicateFramesSkip (qsortInts frames) n = f
        ↔ f + (((qsortInts frames).countP (fun y => decide (y < f)) : Nat) : Int) ≤ n
          ∧ n ≤ f + (((qsortInts frames).countP (fun y => decide (y < f)) : Nat) : Int)
              + ((frames.count f : Nat) : Int)) := by
    intro n f hn0 hn1
    rw [duplicateFramesSkip_eq_iff _ n f hsorted h0 hn0 hn1, hcle]
    push_cast
    omega
  have hrangeR : ∀ n : Int, 0 ≤ n → n < vi.numFrames + frames.length →
      0 ≤ duplicateFramesSkip (qsortInts frames) n
        ∧ duplicateFramesSkip (qsortInts frames) n < vi.numFrames := by
    intro n hn0 hn1
    have hb := (duplicateFramesSkip_bounds (qsortInts frames) n 0 h0 h0 hn0 hn0
      (by unfold INT_MAX; omega)).1
    refine ⟨hb, ?_⟩
    by_contra hge
    have hall : (qsortInts frames).countP
        (fun y => decide (y < duplicateFramesSkip (qsortInts frames) n))
        = (qsortInts frames).length := by
      rw [List.countP_eq_length]
      intro y hy
      have := hlt y hy
      simp only [decide_eq_true_eq]
      omega
    have hs := (duplicateFramesSkip_spec (qsortInts frames) n hsorted h0 hn0
      (by unfold INT_MAX; omega)).1
    rw [hall, hlen] at hs
    omega
  refine ⟨_, duplicateFramesCreate_of_valid frames node vi hL1 hrange hfit, rfl, ?_, ?_, ?_,
    ?_⟩
  · intro n hn0 hn1
    exact ⟨duplicateFramesSkip (qsortInts frames) n, rfl, rfl, rfl, hrangeR n hn0 hn1⟩
  · intro n n' hn0 hle hn1
    show duplicateFramesSkip (qsortInts frames) n ≤ duplicateFramesSkip (qsortInts frames) n'
    by_contra hgt
    have a := (duplicateFramesSkip_eq_iff _ n _ hsorted h0 hn0
      (by unfold INT_MAX; omega)).1 rfl
    have b := (duplicateFramesSkip_eq_iff _ n' _ hsorted h0 (by omega)
      (by unfold INT_MAX; omega)).1 rfl
    have hm : (qsortInts frames).countP
          (fun y => decide (y ≤ duplicateFramesSkip (qsortInts frames) n'))
        ≤ (qsortInts frames).countP
          (fun y => decide (y < duplicateFramesSkip (qsortInts frames) n)) := by
      apply List.countP_mono_left
      intro y _ hy
      simp only [decide_eq_true_eq] at hy ⊢
      omega
    omega
  · intro f hf0 hf1
    have hc := hcount_le f
    refine ⟨f + (((qsortInts frames).countP (fun y => decide (y < f)) : Nat) : Int),
      by omega, by omega, ?_⟩
    exact (hiff _ f (by omega) (by unfold INT_MAX; omega)).2 ⟨by omega, by omega⟩
  · intro f hf0 hf1
    have hc := hcount_le f
    have hset : (Finset.Ico (0 : Int) (vi.numFrames + frames.length)).filter
        (fun n => duplicateFramesSkip (qsortInts frames) n = f)
        = Finset.Icc (f + (((qsortInts frames).countP (fun y => decide (y < f)) : Nat) : Int))
            (f + (((qsortInts frames).countP (fun y => decide (y < f)) : Nat) : Int)
              + ((frames.count f : Nat) : Int)) := by
      ext n
      simp only [Finset.mem_filter, Finset.mem_Ico, Finset.mem_Icc]
      constructor
      · rintro ⟨⟨hn0, hn1⟩, h⟩
        exact (hiff n f hn0 (by unfold INT_MAX; omega)).1 h
      · rintro ⟨h1, h2⟩
        exact ⟨⟨by omega, by omega⟩,
          (hiff n f (by omega) (by unfold INT_MAX; omega)).2 ⟨h1, h2⟩⟩
    show ((Finset.Ico (0 : Int) (vi.numFrames + frames.length)).filter
        (fun n => duplicateFramesSkip (qsortInts frames) n = f)).card = 1 + frames.count f
    rw [hset, Int.card_Icc]
    omega

/-- Witness of C22: duplicating `[1, 1]` in a 3-frame clip gives the 5 frames 0, 1, 1, 1, 2. -/
theorem duplicateFrames_semantics_witness :
    (∃ d, duplicateFramesCreate [1, 1] 0 ⟨1, 25, 1, 4, 4, 3⟩ = .filter d
        ∧ d.vi.numFrames = 3 + 2)
      ∧ (List.range 5).map (fun (n : Nat) =>
            (duplicateFramesGetFrame (fun _ i => i) ⟨0, ⟨1, 25, 1, 4, 4, 5⟩, [1, 1], 2⟩
              (n : Int) none .arInitial).1)
          = [.requested [(0, 0)], .requested [(0, 1)], .requested [(0, 1)],
              .requested [(0, 1)], .requested [(0, 2)]] := by
  obtain ⟨d, hd, hn, _⟩ := duplicateFrames_semantics (fun _ i => i) [1, 1] 0
    ⟨1, 25, 1, 4, 4, 3⟩ (by decide) (by decide) (by decide)
  exact ⟨⟨d, hd, hn⟩, by decide⟩

/-! ## FreezeFrames -/

theorem orderedInsert_congr {α : Type} (r r' : α → α → Prop) [DecidableRel r]
    [DecidableRel r'] (a : α) :
    ∀ l : List α, (∀ b ∈ l, r a b ↔ r' a b) → l.orderedInsert r a = l.orderedInsert r' a
  | [], _ => rfl
  | b :: l, h => by
      simp only [List.orderedInsert]
      by_cases hab : r a b
      · rw [if_pos hab, if_pos ((h b (by simp)).1 hab)]
      · rw [if_neg hab, if_neg (fun h' => hab ((h b (by simp)).2 h')),
          orderedInsert_congr r r' a l (fun c hc => h c (by simp [hc]))]

/-- Sorting by two comparators that agree on the entries of the list gives the same list. -/
theorem insertionSort_congr {α : Type} (r r' : α → α → Prop) [DecidableRel r]
    [DecidableRel r'] :
    ∀ l : List α, (∀ a ∈ l, ∀ b ∈ l, r a b ↔ r' a b) → l.insertionSort r = l.insertionSort r'
  | [], _ => rfl
  | a :: l, h => by
      simp only [List.insertionSort]
      rw [insertionSort_congr r r' l (fun x hx y hy => h x (by simp [hx]) y (by simp [hy]))]
      exact orderedInsert_congr r r' a _ (fun b hb =>
        h a (by simp) b (by simp [(List.mem_insertionSort r').1 hb]))

instance freezeFirst_isTotal : IsTotal Freeze (fun a b => a.first ≤ b.first) :=
  ⟨fun a b => le_total a.first b.first⟩

instance freezeFirst_isTrans : IsTrans Freeze (fun a b => a.first ≤ b.first) :=
  ⟨fun _ _ _ h1 h2 => le_trans h1 h2⟩

/-- On entries whose `first` is a non-negative `int` the comparator `freezeFramesSort` does not
wrap: it orders by `first`. -/
theorem freezeFramesSort_le_zero_iff (x y : Freeze) (hx : 0 ≤ x.first ∧ x.first ≤ INT_MAX)
    (hy : 0 ≤ y.first ∧ y.first ≤ INT_MAX) : freezeFramesSort x y ≤ 0 ↔ x.first ≤ y.first := by
  unfold INT_MAX at hx hy
  unfold freezeFramesSort wrapInt32
  omega

theorem qsortFreeze_eq (T : List Freeze) (h : ∀ z ∈ T, 0 ≤ z.first ∧ z.first ≤ INT_MAX) :
    qsortFreeze T = T.insertionSort (fun a b => a.first ≤ b.first) :=
  insertionSort_congr _ _ T (fun a ha b hb => freezeFramesSort_le_zero_iff a b (h a ha) (h b hb))

/-- The table after `qsort` is ordered by `first`. -/
theorem qsortFreeze_sorted (T : List Freeze)
    (h : ∀ z ∈ T, 0 ≤ z.first ∧ z.first ≤ INT_MAX) :
    List.Sorted (fun a b => a.first ≤ b.first) (qsortFreeze T) := by
  rw [qsortFreeze_eq T h]
  exact List.sorted_insertionSort (fun a b => a.first ≤ b.first) T

/-- The table after `qsort` holds the same entries. -/
theorem qsortFreeze_perm (T : List Freeze) : (qsortFreeze T).Perm T :=
  List.perm_insertionSort _ T

/-- A table of well-formed ranges that passes the scan of neighbours has every range end before
every later range starts. -/
theorem pairwise_of_hasOverlap_false :
    ∀ l : List Freeze, (∀ z ∈ l, z.first ≤ z.last) → hasOverlap l = false →
      l.Pairwise (fun a b => a.last < b.first)
  | [], _, _ => List.Pairwise.nil
  | [_], _, _ => List.pairwise_singleton _ _
  | a :: b :: rest, hw, h => by
      simp only [hasOverlap, Bool.or_eq_false_iff, decide_eq_false_iff_not, not_le] at h
      have ih := pairwise_of_hasOverlap_false (b :: rest) (fun z hz => hw z (by simp [hz])) h.2
      refine List.pairwise_cons.2 ⟨?_, ih⟩
      intro c hc
      rcases List.mem_cons.1 hc with rfl | hc
      · have : a.last < c.first := by
          have := h.1
          omega
        exact this
      · have h1 := (List.pairwise_cons.1 ih).1 c hc
        have h2 := hw b (by simp)
        have h3 := h.1
        omega

/-- A table ordered by `first` whose well-formed ranges are pairwise disjoint passes the scan of
neighbours. -/
theorem hasOverlap_false_of_disjoint :
    ∀ l : List Freeze, l.Sorted (fun a b => a.first ≤ b.first) → (∀ z ∈ l, z.first ≤ z.last) →
      l.Pairwise (fun a b => a.last < b.first ∨ b.last < a.first) → hasOverlap l = false
  | [], _, _, _ => rfl
  | [_], _, _, _ => rfl
  | a :: b :: rest, hs, hw, hp => by
      have ih := hasOverlap_false_of_disjoint (b :: rest) (List.sorted_cons.1 hs).2
        (fun z hz => hw z (by simp [hz])) (List.pairwise_cons.1 hp).2
      have hab := (List.pairwise_cons.1 hp).1 b (by simp)
      have hfirst := (List.sorted_cons.1 hs).1 b (by simp)
      have hb := hw b (by simp)
      simp only [hasOverlap, ih, Bool.or_false, decide_eq_false_iff_not, not_le]
      omega

/-- Every entry read by `freezeFramesCreate` has `first ≤ last` after the swap. -/
theorem freezeFramesRead_wf :
    ∀ (f l r : List Int), ∀ z ∈ freezeFramesRead f l r, z.first ≤ z.last
  | [], _, _, z, hz => by simp [freezeFramesRead] at hz
  | _ :: _, [], _, z, hz => by simp [freezeFramesRead] at hz
  | _ :: _, _ :: _, [], z, hz => by simp [freezeFramesRead] at hz
  | a :: f, b :: l, c :: r, z, hz => by
      simp only [freezeFramesRead, List.mem_cons] at hz
      rcases hz with rfl | hz
      · split_ifs <;> simp only [] <;> omega
      · exact freezeFramesRead_wf f l r z hz

/-- Entry `i` of the table read by `freezeFramesCreate`: the range of `first[i]` and `last[i]`
in ascending order, with `replacement[i]`. -/
theorem freezeFramesRead_getElem? :
    ∀ (f l r : List Int) (i : Nat), f.length = l.length → f.length = r.length →
      i < f.length →
      (freezeFramesRead f l r)[i]?
        = some ⟨min (f.getD i 0) (l.getD i 0), max (f.getD i 0) (l.getD i 0), r.getD i 0⟩
  | [], _, _, i, _, _, hi => by simp at hi
  | _ :: _, [], _, _, hl, _, _ => by simp at hl
  | _ :: _, _ :: _, [], _, _, hr, _ => by simp at hr
  | a :: f, b :: l, c :: r, i, hl, hr, hi => by
      cases i with
      | zero =>
          simp only [freezeFramesRead, List.getElem?_cons_zero, List.getD_cons_zero,
            Option.some.injEq]
          split_ifs with h
          · simp only [Freeze.mk.injEq, and_true]
            omega
          · simp only [Freeze.mk.injEq, and_true]
            omega
      | succ i =>
          simp only [freezeFramesRead, List.getElem?_cons_succ, List.getD_cons_succ]
          exact freezeFramesRead_getElem? f l r i (by simpa using hl) (by simpa using hr)
            (by simpa using hi)

theorem freezeFramesRead_length :
    ∀ (f l r : List Int), f.length = l.length → f.length = r.length →
      (freezeFramesRead f l r).length = f.length
  | [], _, _, _, _ => by simp [freezeFramesRead]
  | _ :: _, [], _, hl, _ => by simp at hl
  | _ :: _, _ :: _, [], _, hr => by simp at hr
  | a :: f, b :: l, c :: r, hl, hr => by
      simp only [freezeFramesRead, List.length_cons, add_left_inj]
      exact freezeFramesRead_length f l r (by simpa using hl) (by simpa using hr)

/-- When `freezeFramesCreate` builds a filter, for an upstream clip of known length. -/
theorem freezeFramesCreate_filter_iff (first last replacement : List Int) (node : Nat)
    (vi : VSVideoInfo) (d : FreezeFramesData) (hL1 : 1 ≤ vi.numFrames) :
    freezeFramesCreate first last replacement node vi = .filter d
      ↔ (first.length = last.length ∧ first.length = replacement.length)
        ∧ (∀ z ∈ freezeFramesRead first last replacement,
            0 ≤ z.first ∧ z.last < vi.numFrames ∧ 0 ≤ z.replacement
              ∧ z.replacement < vi.numFrames)
        ∧ hasOverlap (qsortFreeze (freezeFramesRead first last replacement)) = false
        ∧ d = ⟨node, vi, qsortFreeze (freezeFramesRead first last replacement),
            first.length⟩ := by
  have hL0 : vi.numFrames ≠ 0 := by omega
  unfold freezeFramesCreate
  simp only []
  by_cases h1 : (first.length : Int) ≠ last.length ∨ (first.length : Int) ≠ replacement.length
  · rw [if_pos h1]
    constructor
    · intro h
      exact absurd h (by simp)
    · rintro ⟨⟨e1, e2⟩, _⟩
      rcases h1 with h1 | h1
      · exact absurd (by rw [e1]) h1
      · exact absurd (by rw [e2]) h1
  · rw [if_neg h1]
    have e1 : first.length = last.length := by
      by_contra h
      exact h1 (Or.inl (by exact_mod_cast h))
    have e2 : first.length = replacement.length := by
      by_contra h
      exact h1 (Or.inr (by exact_mod_cast h))
    by_cases h2 : (freezeFramesRead first last replacement).any (fun z =>
        decide (z.first < 0 ∨ (vi.numFrames ≠ 0 ∧ z.last ≥ vi.numFrames)
          ∨ z.replacement < 0 ∨ (vi.numFrames ≠ 0 ∧ z.replacement ≥ vi.numFrames))) = true
    · rw [if_pos h2]
      constructor
      · intro h
        exact absurd h (by simp)
      · rintro ⟨_, hr, _⟩
        rw [List.any_eq_true] at h2
        obtain ⟨z, hz, hbad⟩ := h2
        have := hr z hz
        simp only [decide_eq_true_eq] at hbad
        omega
    · rw [if_neg h2]
      have hr : ∀ z ∈ freezeFramesRead first last replacement,
          0 ≤ z.first ∧ z.last < vi.numFrames ∧ 0 ≤ z.replacement
            ∧ z.replacement < vi.numFrames := by
        intro z hz
        by_contra hbad
        apply h2
        rw [List.any_eq_true]
        refine ⟨z, hz, ?_⟩
        simp only [decide_eq_true_eq]
        omega
      by_cases h3 : hasOverlap (qsortFreeze (freezeFramesRead first last replacement)) = true
      · rw [if_pos h3]
        constructor
        · intro h
          exact absurd h (by simp)
        · rintro ⟨_, _, h, _⟩
          rw [h] at h3
          exact absurd h3 (by simp)
      · rw [if_neg h3]
        have h3' : hasOverlap (qsortFreeze (freezeFramesRead first last replacement))
            = false := by simpa using h3
        constructor
        · intro h
          injection h with h
          exact ⟨⟨e1, e2⟩, hr, h3', h.symm⟩
        · rintro ⟨_, _, _, rfl⟩
          rfl

/-- In a table whose ranges each end before every later range starts, at most one range holds
a given index. -/
theorem countP_contains_le_one (n : Int) :
    ∀ l : List Freeze, l.Pairwise (fun a b => a.last < b.first) →
      (∀ z ∈ l, z.first ≤ z.last) →
      l.countP (fun z => decide (z.first ≤ n ∧ n ≤ z.last)) ≤ 1
  | [], _, _ => by simp
  | a :: rest, hp, hw => by
      obtain ⟨ha, hrest⟩ := List.pairwise_cons.1 hp
      have ih := countP_contains_le_one n rest hrest (fun z hz => hw z (by simp [hz]))
      rw [List.countP_cons]
      by_cases hc : a.first ≤ n ∧ n ≤ a.last
      · have hz : rest.countP (fun z => decide (z.first ≤ n ∧ n ≤ z.last)) = 0 := by
          rw [List.countP_eq_zero]
          intro z hz
          have := ha z hz
          simp only [decide_eq_true_eq, not_and, not_le]
          intro _
          omega
        rw [hz]
        split_ifs <;> omega
      · have hd : decide (a.first ≤ n ∧ n ≤ a.last) = false := by simpa using hc
        simp only [hd, Bool.false_eq_true, if_false]
        omega

/-- The table stored by an accepted `freezeFramesCreate`, for an upstream clip of known
length. -/
theorem freezeFramesCreate_table (first last replacement : List Int) (node : Nat)
    (vi : VSVideoInfo) (d : FreezeFramesData) (hL1 : 1 ≤ vi.numFrames)
    (hLmax : vi.numFrames ≤ INT_MAX)
    (hcreate : freezeFramesCreate first last replacement node vi = .filter d) :
    d = ⟨node, vi, qsortFreeze (freezeFramesRead first last replacement), first.length⟩
      ∧ d.freeze.Perm (freezeFramesRead first last replacement)
      ∧ d.freeze.length = first.length
      ∧ (∀ z ∈ d.freeze, 0 ≤ z.first ∧ z.first ≤ z.last ∧ z.last < vi.numFrames
          ∧ 0 ≤ z.replacement ∧ z.replacement < vi.numFrames)
      ∧ d.freeze.Sorted (fun a b => a.first ≤ b.first)
      ∧ d.freeze.Pairwise (fun a b => a.last < b.first) := by
  obtain ⟨⟨e1, e2⟩, hr, ho, rfl⟩ :=
    (freezeFramesCreate_filter_iff first last replacement node vi d hL1).1 hcreate
  have hperm := qsortFreeze_perm (freezeFramesRead first last replacement)
  have hin : ∀ z ∈ qsortFreeze (freezeFramesRead first last replacement),
      0 ≤ z.first ∧ z.first ≤ z.last ∧ z.last < vi.numFrames
        ∧ 0 ≤ z.replacement ∧ z.replacement < vi.numFrames := by
    intro z hz
    have hz' := hperm.mem_iff.1 hz
    have := hr z hz'
    have := freezeFramesRead_wf first last replacement z hz'
    omega
  refine ⟨rfl, hperm, ?_, hin, ?_, ?_⟩
  · show (qsortFreeze (freezeFramesRead first last replacement)).length = first.length
    rw [hperm.length_eq, freezeFramesRead_length first last replacement e1 e2]
  · apply qsortFreeze_sorted
    intro z hz
    have := hr z hz
    have := freezeFramesRead_wf first last replacement z hz
    omega
  · exact pairwise_of_hasOverlap_false _ (fun z hz => (hin z hz).2.1) ho

/-- C24. FreezeFrames table invariant, for an upstream clip of known length
`1 ≤ L ≤ INT_MAX`: `freezeFramesCreate` succeeds if and only if the three lists have equal
length and, in the table read with each pair `first > last` swapped, every range and
replacement lies in `[0, L)` and the ranges are pairwise disjoint; entry `i` of that table is
the ascending range of `first[i]`, `last[i]` with `replacement[i]`; and the table stored on
success holds the same entries, has `first ≤ last` throughout, is sorted by `first`, has
`last < first` of the next entry (indeed of every later entry), so at most one range holds any
`n`. -/
theorem freezeFrames_table (first last replacement : List Int) (node : Nat)
    (vi : VSVideoInfo) (hL1 : 1 ≤ vi.numFrames) (hLmax : vi.numFrames ≤ INT_MAX) :
    ((∃ d, freezeFramesCreate first last replacement node vi = .filter d)
        ↔ first.length = last.length ∧ first.length = replacement.length
          ∧ (∀ z ∈ freezeFramesRead first last replacement,
              0 ≤ z.first ∧ z.last < vi.numFrames ∧ 0 ≤ z.replacement
                ∧ z.replacement < vi.numFrames)
          ∧ (freezeFramesRead first last replacement).Pairwise
              (fun a b => a.last < b.first ∨ b.last < a.first))
      ∧ (first.length = last.length → first.length = replacement.length →
          ∀ i : Nat, i < first.length →
            (freezeFramesRead first last replacement)[i]?
              = some ⟨min (first.getD i 0) (last.getD i 0),
                  max (first.getD i 0) (last.getD i 0), replacement.getD i 0⟩)
      ∧ (∀ d, freezeFramesCreate first last replacement node vi = .filter d →
          d.node = node ∧ d.vi = vi ∧ d.num_freeze = first.length
            ∧ d.freeze.Perm (freezeFramesRead first last replacement)
            ∧ (∀ z ∈ d.freeze, z.first ≤ z.last)
            ∧ d.freeze.Sorted (fun a b => a.first ≤ b.first)
            ∧ d.freeze.Chain' (fun a b => a.last < b.first)
            ∧ d.freeze.Pairwise (fun a b => a.last < b.first)
            ∧ ∀ n : Int, d.freeze.countP (fun z => decide (z.first ≤ n ∧ n ≤ z.last)) ≤ 1) := by
  have hperm := qsortFreeze_perm (freezeFramesRead first last replacement)
  have hsymm : ∀ {x y : Freeze}, (x.last < y.first ∨ y.last < x.first) →
      (y.last < x.first ∨ x.last < y.first) := fun h => h.symm
  refine ⟨⟨?_, ?_⟩, ?_, ?_⟩
  · rintro ⟨d, hd⟩
    obtain ⟨⟨e1, e2⟩, hr, _, _⟩ :=
      (freezeFramesCreate_filter_iff first last replacement node vi d hL1).1 hd
    obtain ⟨rfl, _, _, _, _, hp⟩ :=
      freezeFramesCreate_table first last replacement node vi d hL1 hLmax hd
    refine ⟨e1, e2, hr, ?_⟩
    exact (hperm.pairwise_iff hsymm).1 (hp.imp (fun h => Or.inl h))
  · rintro ⟨e1, e2, hr, hp⟩
    refine ⟨⟨node, vi, qsortFreeze (freezeFramesRead first last replacement), first.length⟩,
      (freezeFramesCreate_filter_iff first last replacement node vi _ hL1).2
        ⟨⟨e1, e2⟩, hr, ?_, rfl⟩⟩
    apply hasOverlap_false_of_disjoint
    · apply qsortFreeze_sorted
      intro z hz
      have := hr z hz
      have := freezeFramesRead_wf first last replacement z hz
      omega
    · exact fun z hz => freezeFramesRead_wf first last replacement z (hperm.mem_iff.1 hz)
    · exact (hperm.pairwise_iff hsymm).2 hp
  · intro e1 e2 i hi
    exact freezeFramesRead_getElem? first last replacement i e1 e2 hi
  · intro d hd
    obtain ⟨rfl, hp1, _, hin, hs, hp⟩ :=
      freezeFramesCreate_table first last replacement node vi d hL1 hLmax hd
    exact ⟨rfl, rfl, rfl, hp1, fun z hz => (hin z hz).2.1, hs, hp.chain', hp,
      fun n => countP_contains_le_one n _ hp (fun z hz => (hin z hz).2.1)⟩

/-- Witness of C24: on a 10-frame clip the ranges `[7, 5]` (swapped to `[5, 7]`) and `[2, 3]` are
accepted and stored in order, and the overlapping ranges `[2, 5]`, `[5, 7]` are refused. -/
theorem freezeFrames_table_witness :
    freezeFramesCreate [7, 2] [5, 3] [0, 9] 0 ⟨1, 25, 1, 4, 4, 10⟩
        = .filter ⟨0, ⟨1, 25, 1, 4, 4, 10⟩, [⟨2, 3, 9⟩, ⟨5, 7, 0⟩], 2⟩
      ∧ ([⟨2, 3, 9⟩, ⟨5, 7, 0⟩] : List Freeze).Pairwise (fun a b => a.last < b.first)
      ∧ ¬ ∃ d, freezeFramesCreate [2, 5] [5, 7] [0, 0] 0 ⟨1, 25, 1, 4, 4, 10⟩ = .filter d := by
  have hc : freezeFramesCreate [7, 2] [5, 3] [0, 9] 0 ⟨1, 25, 1, 4, 4, 10⟩
      = .filter ⟨0, ⟨1, 25, 1, 4, 4, 10⟩, [⟨2, 3, 9⟩, ⟨5, 7, 0⟩], 2⟩ := by decide
  have h := freezeFrames_table [7, 2] [5, 3] [0, 9] 0 ⟨1, 25, 1, 4, 4, 10⟩ (by decide)
    (by decide)
  refine ⟨hc, (h.2.2 _ hc).2.2.2.2.2.2.2.1, ?_⟩
  have h' := freezeFrames_table [2, 5] [5, 7] [0, 0] 0 ⟨1, 25, 1, 4, 4, 10⟩ (by decide)
    (by decide)
  intro hex
  have hp := (h'.1.1 hex).2.2.2
  simp only [freezeFramesRead] at hp
  revert hp
  decide

/-- The loop of `freezeFramesGetFrame` returns the replacement of a range that holds `n`. -/
theorem freezeFramesLookup_of_mem (n : Int) :
    ∀ l : List Freeze, l.Pairwise (fun a b => a.last < b.first) →
      ∀ z ∈ l, z.first ≤ n → n ≤ z.last → freezeFramesLookup l n = z.replacement
  | [], _, z, hz, _, _ => by simp at hz
  | a :: rest, hp, z, hz, h1, h2 => by
      obtain ⟨ha, hrest⟩ := List.pairwise_cons.1 hp
      simp only [freezeFramesLookup]
      by_cases hc : n ≥ a.first ∧ n ≤ a.last
      · rw [if_pos hc]
        rcases List.mem_cons.1 hz with rfl | hz
        · rfl
        · have := ha z hz
          omega
      · rw [if_neg hc]
        rcases List.mem_cons.1 hz with rfl | hz
        · exact absurd ⟨h1, h2⟩ hc
        · exact freezeFramesLookup_of_mem n rest hrest z hz h1 h2

/-- The loop of `freezeFramesGetFrame` leaves an index that no range holds. -/
theorem freezeFramesLookup_of_not_mem (n : Int) :
    ∀ l : List Freeze, (∀ z ∈ l, ¬ (z.first ≤ n ∧ n ≤ z.last)) → freezeFramesLookup l n = n
  | [], _ => rfl
  | a :: rest, h => by
      simp only [freezeFramesLookup]
      rw [if_neg (fun hc => h a (by simp) ⟨hc.1, hc.2⟩)]
      exact freezeFramesLookup_of_not_mem n rest (fun z hz => h z (by simp [hz]))

/-- In a stored table every range lies inside the envelope from the first entry's `first` to
the last entry's `last`. -/
theorem freeze_envelope (l : List Freeze) (hp : l.Pairwise (fun a b => a.last < b.first))
    (hw : ∀ z ∈ l, z.first ≤ z.last) (z0 zl : Freeze) (h0 : l[0]? = some z0)
    (hl : l[l.length - 1]? = some zl) :
    ∀ z ∈ l, z0.first ≤ z.first ∧ z.last ≤ zl.last := by
  intro z hz
  obtain ⟨i, hi, rfl⟩ := List.mem_iff_getElem.1 hz
  have hpos : 0 < l.length := by omega
  have e0 : l[0] = z0 := by
    rw [List.getElem?_eq_getElem hpos] at h0
    exact Option.some.inj h0
  have el : l[l.length - 1] = zl := by
    rw [List.getElem?_eq_getElem (by omega)] at hl
    exact Option.some.inj hl
  have hpw := List.pairwise_iff_getElem.1 hp
  constructor
  · by_cases hi0 : i = 0
    · subst hi0
      rw [e0]
    · have h1 := hpw 0 i hpos hi (by omega)
      have h2 := hw l[0] (List.getElem_mem _)
      rw [e0] at h1 h2
      omega
  · by_cases hil : i = l.length - 1
    · subst hil
      rw [el]
    · have h1 := hpw i (l.length - 1) hi (by omega) (by omega)
      have h2 := hw l[l.length - 1] (List.getElem_mem _)
      rw [el] at h1 h2
      omega

/-- Phase one of `freezeFramesGetFrame` on a stored table with at least one range: the envelope
test never changes the result of the loop over the table. -/
theorem freezeFramesGetFrame_initial {F : Type} (getFrameFilter : Nat → Int → F)
    (d : FreezeFramesData) (n : Int) (hlen : d.num_freeze = d.freeze.length)
    (hne : 1 ≤ d.freeze.length) (hp : d.freeze.Pairwise (fun a b => a.last < b.first))
    (hw : ∀ z ∈ d.freeze, z.first ≤ z.last) :
    freezeFramesGetFrame getFrameFilter d n none .arInitial
      = (.requested [(d.node, freezeFramesLookup d.freeze n)],
          some (freezeFramesLookup d.freeze n)) := by
  have h0 : d.freeze[0]? = some d.freeze[0] := List.getElem?_eq_getElem (by omega)
  have hl : d.freeze[d.freeze.length - 1]? = some d.freeze[d.freeze.length - 1] :=
    List.getElem?_eq_getElem (by omega)
  have henv := freeze_envelope d.freeze hp hw _ _ h0 hl
  have ha0 : freezeAt d 0 = some d.freeze[0] := by
    simp only [freezeAt, lt_self_iff_false, if_false, Int.toNat_zero, h0]
  have hal : freezeAt d (d.num_freeze - 1) = some d.freeze[d.freeze.length - 1] := by
    have e : ((d.freeze.length : Int) - 1).toNat = d.freeze.length - 1 := by omega
    simp only [freezeAt, hlen, e]
    rw [if_neg (by omega), hl]
  simp only [freezeFramesGetFrame, ha0, hal]
  by_cases hc1 : n ≥ d.freeze[0].first
  · rw [if_pos hc1]
    by_cases hc2 : n ≤ d.freeze[d.freeze.length - 1].last
    · simp only [hc2, if_true]
    · have hout := freezeFramesLookup_of_not_mem n d.freeze (fun z hz hcon => by
        have := (henv z hz).2
        omega)
      simp only [hc2, if_false, hout]
  · rw [if_neg hc1]
    have hout := freezeFramesLookup_of_not_mem n d.freeze (fun z hz hcon => by
      have := (henv z hz).1
      omega)
    rw [hout]

/-- C23. FreezeFrames mapping: for an accepted FreezeFrames with at least one range on a clip of
known length `1 ≤ L ≤ INT_MAX`, the output descriptor is the upstream one (length `L`) and for
every `n` the index requested in phase one and fetched in phase two is `replacement_i` if `n`
lies in the range `[first_i, last_i]` (with `first_i ≤ last_i` after the swap) of some entry
`i`, and `n` otherwise; it is the result of the loop over the table, which the envelope test
against `freeze[0].first` and `freeze[num_freeze - 1].last` never changes. -/
theorem freezeFrames_mapping {F : Type} (getFrameFilter : Nat → Int → F)
    (first last replacement : List Int) (node : Nat) (vi : VSVideoInfo)
    (d : FreezeFramesData) (hL1 : 1 ≤ vi.numFrames) (hLmax : vi.numFrames ≤ INT_MAX)
    (hne : 1 ≤ first.length)
    (hcreate : freezeFramesCreate first last replacement node vi = .filter d) :
    d.vi = vi
      ∧ ∀ n : Int, ∃ r : Int,
          freezeFramesGetFrame getFrameFilter d n none .arInitial
              = (.requested [(node, r)], some r)
            ∧ freezeFramesGetFrame getFrameFilter d n (some r) .arAllFramesReady
              = (.frame (getFrameFilter node r), some r)
            ∧ r = freezeFramesLookup d.freeze n
            ∧ (∀ z ∈ freezeFramesRead first last replacement,
                z.first ≤ n → n ≤ z.last → r = z.replacement)
            ∧ ((∀ z ∈ freezeFramesRead first last replacement,
                ¬ (z.first ≤ n ∧ n ≤ z.last)) → r = n) := by
  obtain ⟨hd, hperm, hlen, hin, _, hp⟩ :=
    freezeFramesCreate_table first last replacement node vi d hL1 hLmax hcreate
  have hnode : d.node = node := by rw [hd]
  have hnum : d.num_freeze = d.freeze.length := by
    rw [hlen, hd]
  refine ⟨by rw [hd], fun n => ⟨freezeFramesLookup d.freeze n, ?_, ?_, rfl, ?_, ?_⟩⟩
  · rw [freezeFramesGetFrame_initial getFrameFilter d n hnum (by omega) hp
      (fun z hz => (hin z hz).2.1), hnode]
  · simp only [freezeFramesGetFrame, hnode]
  · intro z hz h1 h2
    exact freezeFramesLookup_of_mem n d.freeze hp z (hperm.mem_iff.2 hz) h1 h2
  · intro h
    exact freezeFramesLookup_of_not_mem n d.freeze (fun z hz => h z (hperm.mem_iff.1 hz))

/-- Witness of C23: `first = [2]`, `last = [4]`, `replacement = [1]` on a 6-frame clip gives the
upstream frames 0, 1, 1, 1, 1, 5. -/
theorem freezeFrames_mapping_witness :
    freezeFramesCreate [2] [4] [1] 0 ⟨1, 25, 1, 4, 4, 6⟩
        = .filter ⟨0, ⟨1, 25, 1, 4, 4, 6⟩, [⟨2, 4, 1⟩], 1⟩
      ∧ (⟨0, ⟨1, 25, 1, 4, 4, 6⟩, [⟨2, 4, 1⟩], 1⟩ : FreezeFramesData).vi.numFrames = 6
      ∧ (List.range 6).map (fun (n : Nat) =>
            (freezeFramesGetFrame (fun _ i => i) ⟨0, ⟨1, 25, 1, 4, 4, 6⟩, [⟨2, 4, 1⟩], 1⟩
              (n : Int) none .arInitial).1)
          = [.requested [(0, 0)], .requested [(0, 1)], .requested [(0, 1)],
              .requested [(0, 1)], .requested [(0, 1)], .requested [(0, 5)]] := by
  have hc : freezeFramesCreate [2] [4] [1] 0 ⟨1, 25, 1, 4, 4, 6⟩
      = .filter ⟨0, ⟨1, 25, 1, 4, 4, 6⟩, [⟨2, 4, 1⟩], 1⟩ := by decide
  have h := (freezeFrames_mapping (fun _ i => i) [2] [4] [1] 0 ⟨1, 25, 1, 4, 4, 6⟩ _
    (by decide) (by decide) (by decide) hc).1
  exact ⟨hc, by rw [h], by decide⟩

/-! ## Interleave of equal-length clips -/

/-- Every filter built by `interleaveCreate` holds the handles of its clips in order and their
number. -/
theorem interleaveCreate_fields (isCompatFormat : VSVideoInfo → Bool)
    (muldivRational : Int → Int → Int → Int → Int × Int) (vis : List VSVideoInfo)
    (mismatch extend : Bool) (modifyDuration : Option Bool) (d : InterleaveData)
    (h : interleaveCreate isCompatFormat muldivRational vis mismatch extend modifyDuration
      = .filter d) :
    d.node = List.range vis.length ∧ d.numclips = vis.length
      ∧ d.modifyDuration = modifyDuration.getD true := by
  unfold interleaveCreate at h
  simp only [] at h
  repeat' split at h
  all_goals cases h
  all_goals exact ⟨rfl, rfl, rfl⟩

/-- The request of `interleaveGetframe` for a non-negative index on `k ≥ 1` clips whose handles
are `0, …, k - 1`: clip `n mod k`, frame `n div k`. -/
theorem interleaveGetframe_spec {F : Type} (getFrameFilter : Nat → Int → F)
    (scaleDuration : Int → Int → F → F) (d : InterleaveData) (k : Nat) (n : Int)
    (hk : 1 ≤ k) (hnode : d.node = List.range k) (hnum : d.numclips = k) (hn : 0 ≤ n) :
    (n % (k : Int)).toNat < k
      ∧ interleaveGetframe getFrameFilter scaleDuration d n .arInitial
        = .requested [((n % (k : Int)).toNat, n / (k : Int))]
      ∧ interleaveGetframe getFrameFilter scaleDuration d n .arAllFramesReady
        = .frame (if d.modifyDuration = true then
            scaleDuration 1 k (getFrameFilter (n % (k : Int)).toNat (n / (k : Int)))
          else getFrameFilter (n % (k : Int)).toNat (n / (k : Int))) := by
  have hk0 : (0 : Int) < k := by omega
  have hm0 := Int.emod_nonneg n (show (k : Int) ≠ 0 by omega)
  have hm1 := Int.emod_lt_of_pos n hk0
  have hlt : (n % (k : Int)).toNat < k := by omega
  have hget : (List.range k).getD (n % (k : Int)).toNat 0 = (n % (k : Int)).toNat := by
    rw [List.getD_eq_getElem _ _ (by simpa using hlt), List.getElem_range]
  have hne : ¬ ((k : Int) = 0) := by omega
  refine ⟨hlt, ?_, ?_⟩
  · simp only [interleaveGetframe, hnum, hnode, if_neg hne,
      Int.tmod_eq_emod hn (le_of_lt hk0), Int.tdiv_eq_ediv hn (le_of_lt hk0), hget]
  · simp only [interleaveGetframe, hnum, hnode, if_neg hne,
      Int.tmod_eq_emod hn (le_of_lt hk0), Int.tdiv_eq_ediv hn (le_of_lt hk0), hget]
    split_ifs <;> rfl

/-- C30. Interleave of equal-length clips is a perfect round-robin: for `k ≥ 2` compatible
clips all of length `L ≥ 1` with `L * k ≤ INT_MAX`, `interleaveCreate` builds a clip of `L * k`
frames without `extend`, the same as with `extend`; output frame `n` of `[0, L * k)` is frame
`n div k < L` of clip `n mod k`, and this mapping is one-to-one and reaches every frame of
every clip. -/
theorem interleave_round_robin {F : Type} (getFrameFilter : Nat → Int → F)
    (scaleDuration : Int → Int → F → F) (isCompatFormat : VSVideoInfo → Bool)
    (muldivRational : Int → Int → Int → Int → Int × Int) (vis : List VSVideoInfo)
    (mismatch : Bool) (modifyDuration : Option Bool) (L : Int)
    (hk : 2 ≤ vis.length) (hL1 : 1 ≤ L) (hall : ∀ v ∈ vis, v.numFrames = L)
    (hfit : L * vis.length ≤ INT_MAX)
    (hcompat : ¬ ((findCommonVi vis true).1 ≠ 0
      ∧ (mismatch = false ∨ vis.any isCompatFormat = true))) :
    ∃ d dext,
      interleaveCreate isCompatFormat muldivRational vis mismatch false modifyDuration
          = .filter d
        ∧ interleaveCreate isCompatFormat muldivRational vis mismatch true modifyDuration
          = .filter dext
        ∧ d.vi.numFrames = L * vis.length ∧ dext.vi.numFrames = L * vis.length
        ∧ (∀ n : Int, 0 ≤ n → n < L * vis.length →
            (n % (vis.length : Int)).toNat < vis.length
              ∧ 0 ≤ n / (vis.length : Int) ∧ n / (vis.length : Int) < L
              ∧ interleaveGetframe getFrameFilter scaleDuration d n .arInitial
                = .requested [((n % (vis.length : Int)).toNat, n / (vis.length : Int))]
              ∧ interleaveGetframe getFrameFilter scaleDuration d n .arAllFramesReady
                = .frame (if d.modifyDuration = true then
                    scaleDuration 1 vis.length
                      (getFrameFilter (n % (vis.length : Int)).toNat (n / (vis.length : Int)))
                  else getFrameFilter (n % (vis.length : Int)).toNat
                    (n / (vis.length : Int))))
        ∧ (∀ n n' : Int, 0 ≤ n → n < L * vis.length → 0 ≤ n' → n' < L * vis.length →
            interleaveGetframe getFrameFilter scaleDuration d n .arInitial
                = interleaveGetframe getFrameFilter scaleDuration d n' .arInitial →
              n = n')
        ∧ (∀ (c : Nat) (f : Int), c < vis.length → 0 ≤ f → f < L →
            ∃ n : Int, 0 ≤ n ∧ n < L * vis.length
              ∧ interleaveGetframe getFrameFilter scaleDuration d n .arInitial
                = .requested [(c, f)]) := by
  have hk0 : (0 : Int) < vis.length := by omega
  have hLk : (L - 1) * (vis.length : Int) = L * (vis.length : Int) - (vis.length : Int) := by
    ring
  have hnn : 0 ≤ (L - 1) * (vis.length : Int) := Int.mul_nonneg (by omega) (by omega)
  have hLk' : L * ((vis.length : Int) - 1) = L * (vis.length : Int) - L := by ring
  have hnn' : 0 ≤ L * ((vis.length : Int) - 1) := Int.mul_nonneg (by omega) (by omega)
  have hmax := hfit
  unfold INT_MAX at hmax
  have hkmax : (vis.length : Int) ≤ INT_MAX := by unfold INT_MAX; omega
  have hlen : ∀ v ∈ vis, 0 ≤ v.numFrames ∧ v.numFrames ≤ INT_MAX := by
    intro v hv
    rw [hall v hv]
    unfold INT_MAX
    omega
  have hM1 : ∀ v ∈ vis, v.numFrames ≤ L := fun v hv => le_of_eq (hall v hv)
  have hM2 : ∃ v ∈ vis, v.numFrames = L := by
    cases vis with
    | nil => simp at hk
    | cons v rest => exact ⟨v, by simp, hall v (by simp)⟩
  have hgetD : ∀ i : Nat, i < vis.length → (vis.map (fun v => v.numFrames)).getD i 0 = L := by
    intro i hi
    rw [List.getD_eq_getElem _ _ (by simpa using hi), List.getElem_map]
    exact hall _ (List.getElem_mem _)
  obtain ⟨d, hd, hdn⟩ := (interleaveCreate_length_aux isCompatFormat muldivRational vis
    mismatch false modifyDuration L (L * vis.length) hk hkmax hlen hcompat hM1 hM2 hL1
    (fun h => absurd h (by decide))
    (fun _ => ⟨fun i hi => by rw [hgetD i hi]; omega,
      vis.length - 1, by omega, by
        rw [hgetD _ (by omega)]
        have : ((vis.length - 1 : Nat) : Int) = (vis.length : Int) - 1 := by omega
        rw [this]
        omega⟩)).2 hfit
  obtain ⟨dext, hdext, hdextn⟩ := (interleaveCreate_length_aux isCompatFormat muldivRational
    vis mismatch true modifyDuration L (L * vis.length) hk hkmax hlen hcompat hM1 hM2 hL1
    (fun _ => rfl) (fun h => absurd h (by decide))).2 hfit
  obtain ⟨hnode, hnum, _⟩ := interleaveCreate_fields isCompatFormat muldivRational vis
    mismatch false modifyDuration d hd
  have hspec := fun (n : Int) (hn : 0 ≤ n) => interleaveGetframe_spec getFrameFilter
    scaleDuration d vis.length n (by omega) hnode hnum hn
  refine ⟨d, dext, hd, hdext, hdn, hdextn, ?_, ?_, ?_⟩
  · intro n hn0 hn1
    obtain ⟨s1, s2, s3⟩ := hspec n hn0
    exact ⟨s1, Int.ediv_nonneg hn0 (le_of_lt hk0), Int.ediv_lt_of_lt_mul hk0 hn1, s2, s3⟩
  · intro n n' hn0 _ hn0' _ h
    rw [(hspec n hn0).2.1, (hspec n' hn0').2.1] at h
    injection h with h
    injection h with h _
    injection h with h1 h2
    have hm0 := Int.emod_nonneg n (show (vis.length : Int) ≠ 0 by omega)
    have hm0' := Int.emod_nonneg n' (show (vis.length : Int) ≠ 0 by omega)
    have hmod : n % (vis.length : Int) = n' % (vis.length : Int) := by omega
    have e1 := Int.emod_add_ediv n (vis.length : Int)
    have e2 := Int.emod_add_ediv n' (vis.length : Int)
    rw [← e1, ← e2, hmod, h2]
  · intro c f hc hf0 hf1
    have hfk : f * (vis.length : Int) ≤ (L - 1) * (vis.length : Int) :=
      Int.mul_le_mul_of_nonneg_right (by omega) (by omega)
    have hfk0 : 0 ≤ f * (vis.length : Int) := Int.mul_nonneg hf0 (by omega)
    have hmod : ((c : Int) + f * (vis.length : Int)) % (vis.length : Int) = c := by
      rw [Int.add_mul_emod_self]
      exact Int.emod_eq_of_lt (by omega) (by omega)
    have hdiv : ((c : Int) + f * (vis.length : Int)) / (vis.length : Int) = f := by
      rw [Int.add_mul_ediv_right _ _ (by omega), Int.ediv_eq_zero_of_lt (by omega) (by omega)]
      omega
    refine ⟨(c : Int) + f * (vis.length : Int), by omega, by omega, ?_⟩
    rw [(hspec _ (by omega)).2.1, hmod, hdiv]
    simp

/-- Witness of C30: two clips of 3 frames give 6 frames with and without `extend`, in the order
clip 0 frame 0, clip 1 frame 0, clip 0 frame 1, …. -/
theorem interleave_round_robin_witness :
    (∃ d dext,
      interleaveCreate (fun _ => false) (fun a b _ _ => (a, b))
          [⟨1, 25, 1, 4, 4, 3⟩, ⟨1, 25, 1, 4, 4, 3⟩] false false (some false) = .filter d
        ∧ interleaveCreate (fun _ => false) (fun a b _ _ => (a, b))
          [⟨1, 25, 1, 4, 4, 3⟩, ⟨1, 25, 1, 4, 4, 3⟩] false true (some false) = .filter dext
        ∧ d.vi.numFrames = 3 * 2 ∧ dext.vi.numFrames = 3 * 2)
      ∧ (List.range 6).map (fun (n : Nat) =>
            interleaveGetframe (fun c i => (c, i)) (fun _ _ f => f)
              ⟨[0, 1], ⟨1, 25, 1, 4, 4, 6⟩, 2, false⟩ (n : Int) .arInitial)
          = [.requested [(0, 0)], .requested [(1, 0)], .requested [(0, 1)],
              .requested [(1, 1)], .requested [(0, 2)], .requested [(1, 2)]] := by
  obtain ⟨d, dext, h1, h2, h3, h4, _⟩ := interleave_round_robin (fun c i => (c, i))
    (fun _ _ f => f) (fun _ => false) (fun a b _ _ => (a, b))
    [⟨1, 25, 1, 4, 4, 3⟩, ⟨1, 25, 1, 4, 4, 3⟩] false (some false) 3 (by decide) (by decide)
    (by decide) (by decide) (by decide)
  exact ⟨⟨d, dext, h1, h2, h3, h4⟩, by decide⟩

/-! ## Two-phase protocol -/

/-- The pairs listed as fetched in phase two are among the pairs requested in phase one of the
same `n`, for every operator of the file and every instance state; the operators that keep the
index in `*frameData` fetch at the value phase one stored there (phase one is entered with
`*frameData` unset). -/
theorem phase_one_requests_fetched {F α : Type} (getFrameFilter : Nat → Int → F)
    (getAudioFrame : Nat → Int → AudioFrame α) (junk : α)
    (scaleDuration : Int → Int → F → F) :
    (∀ (d : TrimData) (n : Int), ∀ p ∈ trimFetched d n,
        p ∈ (trimGetframe getFrameFilter d n .arInitial).requests)
      ∧ (∀ (d : AudioTrimData) (n : Int), ∀ p ∈ audioTrimFetched d n,
        p ∈ (audioTrimGetframe getAudioFrame junk d n .arInitial).requests)
      ∧ (∀ (d : InterleaveData) (n : Int), ∀ p ∈ interleaveFetched d n,
        p ∈ (interleaveGetframe getFrameFilter scaleDuration d n .arInitial).requests)
      ∧ (∀ (d : SingleClipData) (n : Int), ∀ p ∈ reverseFetched d n,
        p ∈ (reverseGetframe getFrameFilter d n .arInitial).requests)
      ∧ (∀ (d : LoopData) (n : Int), ∀ p ∈ loopFetched d n,
        p ∈ (loopGetframe getFrameFilter d n .arInitial).requests)
      ∧ (∀ (d : SelectEveryData) (n : Int),
        ∀ p ∈ selectEveryFetched d
            (selectEveryGetframe getFrameFilter scaleDuration d n none .arInitial).2,
          p ∈ (selectEveryGetframe getFrameFilter scaleDuration d n none
            .arInitial).1.requests)
      ∧ (∀ (d : SpliceData) (n : Int),
        ∀ p ∈ spliceFetched d (spliceGetframe getFrameFilter d n none .arInitial).2,
          p ∈ (spliceGetframe getFrameFilter d n none .arInitial).1.requests)
      ∧ (∀ (d : AudioSplice2Data) (n : Int), ∀ p ∈ audioSplice2PassthroughFetched d n,
        p ∈ (audioSplice2PassthroughGetframe getAudioFrame d n .arInitial).requests)
      ∧ (∀ (d : AudioSplice2Data) (n : Int), ∀ p ∈ audioSplice2Fetched d n,
        p ∈ (audioSplice2Getframe getAudioFrame junk d n .arInitial).requests)
      ∧ (∀ (d : DuplicateFramesData) (n : Int),
        ∀ p ∈ duplicateFramesFetched d
            (duplicateFramesGetFrame getFrameFilter d n none .arInitial).2,
          p ∈ (duplicateFramesGetFrame getFrameFilter d n none .arInitial).1.requests)
      ∧ (∀ (d : DeleteFramesData) (n : Int),
        ∀ p ∈ deleteFramesFetched d
            (deleteFramesGetFrame getFrameFilter d n none .arInitial).2,
          p ∈ (deleteFramesGetFrame getFrameFilter d n none .arInitial).1.requests)
      ∧ (∀ (d : FreezeFramesData) (n : Int),
        ∀ p ∈ freezeFramesFetched d
            (freezeFramesGetFrame getFrameFilter d n none .arInitial).2,
          p ∈ (freezeFramesGetFrame getFrameFilter d n none .arInitial).1.requests) := by
  refine ⟨?_, ?_, ?_, ?_, ?_, ?_, ?_, ?_, ?_, ?_, ?_, ?_⟩
  · intro d n p hp
    simpa [trimFetched, trimGetframe, FrameResult.requests] using hp
  · intro d n p hp
    unfold audioTrimFetched at hp
    unfold audioTrimGetframe
    simp only [] at hp ⊢
    split_ifs at hp ⊢ <;> simp_all [FrameResult.requests]
  · intro d n p hp
    unfold interleaveFetched at hp
    unfold interleaveGetframe
    split_ifs at hp ⊢ <;> simp_all [FrameResult.requests]
  · intro d n p hp
    simpa [reverseFetched, reverseGetframe, FrameResult.requests] using hp
  · intro d n p hp
    unfold loopFetched at hp
    unfold loopGetframe
    split_ifs at hp ⊢ <;> simp_all [FrameResult.requests]
  · intro d n p hp
    unfold selectEveryGetframe at hp ⊢
    simp only [] at hp ⊢
    split_ifs at hp ⊢ <;> simp_all [FrameResult.requests, selectEveryFetched]
  · intro d n p hp
    simpa [spliceFetched, spliceGetframe, FrameResult.requests] using hp
  · intro d n p hp
    unfold audioSplice2PassthroughFetched at hp
    unfold audioSplice2PassthroughGetframe
    split_ifs at hp ⊢ <;> simp_all [FrameResult.requests]
  · intro d n p hp
    unfold audioSplice2Fetched at hp
    unfold audioSplice2Getframe
    split_ifs at hp ⊢ <;> simp_all [FrameResult.requests]
  · intro d n p hp
    simpa [duplicateFramesFetched, duplicateFramesGetFrame, FrameResult.requests] using hp
  · intro d n p hp
    simpa [deleteFramesFetched, deleteFramesGetFrame, FrameResult.requests] using hp
  · intro d n p hp
    unfold freezeFramesGetFrame at hp ⊢
    simp only [] at hp ⊢
    split at hp
    · simp [freezeFramesFetched] at hp
    · split_ifs at hp ⊢
      · split at hp
        · simp [freezeFramesFetched] at hp
        · simp_all [FrameResult.requests, freezeFramesFetched]
      · simp_all [FrameResult.requests, freezeFramesFetched]

/-- The lists of fetched pairs are the reads of phase two: the result of the `arAllFramesReady`
phase of every operator is the same for two hosts that agree on the pairs listed. -/
theorem phase_two_reads_fetched {F α : Type} (g g' : Nat → Int → F)
    (a a' : Nat → Int → AudioFrame α) (junk : α) (scaleDuration : Int → Int → F → F) :
    (∀ (d : TrimData) (n : Int), (∀ p ∈ trimFetched d n, g p.1 p.2 = g' p.1 p.2) →
        trimGetframe g d n .arAllFramesReady = trimGetframe g' d n .arAllFramesReady)
      ∧ (∀ (d : AudioTrimData) (n : Int),
        (∀ p ∈ audioTrimFetched d n, a p.1 p.2 = a' p.1 p.2) →
        audioTrimGetframe a junk d n .arAllFramesReady
          = audioTrimGetframe a' junk d n .arAllFramesReady)
      ∧ (∀ (d : InterleaveData) (n : Int),
        (∀ p ∈ interleaveFetched d n, g p.1 p.2 = g' p.1 p.2) →
        interleaveGetframe g scaleDuration d n .arAllFramesReady
          = interleaveGetframe g' scaleDuration d n .arAllFramesReady)
      ∧ (∀ (d : SingleClipData) (n : Int),
        (∀ p ∈ reverseFetched d n, g p.1 p.2 = g' p.1 p.2) →
        reverseGetframe g d n .arAllFramesReady = reverseGetframe g' d n .arAllFramesReady)
      ∧ (∀ (d : LoopData) (n : Int), (∀ p ∈ loopFetched d n, g p.1 p.2 = g' p.1 p.2) →
        loopGetframe g d n .arAllFramesReady = loopGetframe g' d n .arAllFramesReady)
      ∧ (∀ (d : SelectEveryData) (n : Int) (fd : Option Int),
        (∀ p ∈ selectEveryFetched d fd, g p.1 p.2 = g' p.1 p.2) →
        selectEveryGetframe g scaleDuration d n fd .arAllFramesReady
          = selectEveryGetframe g' scaleDuration d n fd .arAllFramesReady)
      ∧ (∀ (d : SpliceData) (n : Int) (fd : Option SpliceCtx),
        (∀ p ∈ spliceFetched d fd, g p.1 p.2 = g' p.1 p.2) →
        spliceGetframe g d n fd .arAllFramesReady = spliceGetframe g' d n fd .arAllFramesReady)
      ∧ (∀ (d : AudioSplice2Data) (n : Int),
        (∀ p ∈ audioSplice2PassthroughFetched d n, a p.1 p.2 = a' p.1 p.2) →
        audioSplice2PassthroughGetframe a d n .arAllFramesReady
          = audioSplice2PassthroughGetframe a' d n .arAllFramesReady)
      ∧ (∀ (d : AudioSplice2Data) (n : Int),
        (∀ p ∈ audioSplice2Fetched d n, a p.1 p.2 = a' p.1 p.2) →
        audioSplice2Getframe a junk d n .arAllFramesReady
          = audioSplice2Getframe a' junk d n .arAllFramesReady)
      ∧ (∀ (d : DuplicateFramesData) (n : Int) (fd : Option Int),
        (∀ p ∈ duplicateFramesFetched d fd, g p.1 p.2 = g' p.1 p.2) →
        duplicateFramesGetFrame g d n fd .arAllFramesReady
          = duplicateFramesGetFrame g' d n fd .arAllFramesReady)
      ∧ (∀ (d : DeleteFramesData) (n : Int) (fd : Option Int),
        (∀ p ∈ deleteFramesFetched d fd, g p.1 p.2 = g' p.1 p.2) →
        deleteFramesGetFrame g d n fd .arAllFramesReady
          = deleteFramesGetFrame g' d n fd .arAllFramesReady)
      ∧ (∀ (d : FreezeFramesData) (n : Int) (fd : Option Int),
        (∀ p ∈ freezeFramesFetched d fd, g p.1 p.2 = g' p.1 p.2) →
        freezeFramesGetFrame g d n fd .arAllFramesReady
          = freezeFramesGetFrame g' d n fd .arAllFramesReady) := by
  refine ⟨?_, ?_, ?_, ?_, ?_, ?_, ?_, ?_, ?_, ?_, ?_, ?_⟩
  · intro d n h
    simp only [trimFetched, List.mem_singleton, forall_eq] at h
    simp only [trimGetframe, h]
  · intro d n h
    unfold audioTrimFetched at h
    unfold audioTrimGetframe
    simp only [] at h ⊢
    split_ifs at h ⊢ <;> simp_all
  · intro d n h
    unfold interleaveFetched at h
    unfold interleaveGetframe
    split_ifs at h ⊢ <;> simp_all
  · intro d n h
    simp only [reverseFetched, List.mem_singleton, forall_eq] at h
    simp only [reverseGetframe, h]
  · intro d n h
    unfold loopFetched at h
    unfold loopGetframe
    split_ifs at h ⊢ <;> simp_all
  · intro d n fd h
    cases fd with
    | none => rfl
    | some idx =>
        simp only [selectEveryFetched, List.mem_singleton, forall_eq] at h
        simp only [selectEveryGetframe, h]
  · intro d n fd h
    cases fd with
    | none => rfl
    | some s =>
        simp only [spliceFetched, List.mem_singleton, forall_eq] at h
        simp only [spliceGetframe, h]
  · intro d n h
    unfold audioSplice2PassthroughFetched at h
    unfold audioSplice2PassthroughGetframe
    split_ifs at h ⊢ <;> simp_all
  · intro d n h
    unfold audioSplice2Fetched at h
    unfold audioSplice2Getframe
    simp only [] at h ⊢
    split_ifs at h ⊢ <;> simp_all
  · intro d n fd h
    cases fd with
    | none => rfl
    | some idx =>
        simp only [duplicateFramesFetched, List.mem_singleton, forall_eq] at h
        simp only [duplicateFramesGetFrame, h]
  · intro d n fd h
    cases fd with
    | none => rfl
    | some idx =>
        simp only [deleteFramesFetched, List.mem_singleton, forall_eq] at h
        simp only [deleteFramesGetFrame, h]
  · intro d n fd h
    cases fd with
    | none => rfl
    | some idx =>
        simp only [freezeFramesFetched, List.mem_singleton, forall_eq] at h
        simp only [freezeFramesGetFrame, h]

/-- C28. Two-phase protocol consistency: for every operator of the file (Trim, AudioTrim,
Interleave, Reverse, Loop, SelectEvery, Splice, AudioSplice2 in both variants, DuplicateFrames,
DeleteFrames, FreezeFrames), every instance state and every output index `n`, each
(clip, index) pair fetched with `getFrameFilter` in the `arAllFramesReady` phase is among the
pairs requested with `requestFrameFilter` in the `arInitial` phase of the same `n`, the
operators that keep the index in `*frameData` fetching at the value phase one stored there
(first part); and the pairs listed as fetched are all that the `arAllFramesReady` phase reads
from the host: its result is the same for any two hosts that agree on them (second part). -/
theorem two_phase_consistency {F α : Type} (getFrameFilter otherFrameFilter : Nat → Int → F)
    (getAudioFrame otherAudioFrame : Nat → Int → AudioFrame α) (junk : α)
    (scaleDuration : Int → Int → F → F) :
    ((∀ (d : TrimData) (n : Int), ∀ p ∈ trimFetched d n,
         p ∈ (trimGetframe getFrameFilter d n .arInitial).requests)
       ∧ (∀ (d : AudioTrimData) (n : Int), ∀ p ∈ audioTrimFetched d n,
         p ∈ (audioTrimGetframe getAudioFrame junk d n .arInitial).requests)
       ∧ (∀ (d : InterleaveData) (n : Int), ∀ p ∈ interleaveFetched d n,
         p ∈ (interleaveGetframe getFrameFilter scaleDuration d n .arInitial).requests)
       ∧ (∀ (d : SingleClipData) (n : Int), ∀ p ∈ reverseFetched d n,
         p ∈ (reverseGetframe getFrameFilter d n .arInitial).requests)
       ∧ (∀ (d : LoopData) (n : Int), ∀ p ∈ loopFetched d n,
         p ∈ (loopGetframe getFrameFilter d n .arInitial).requests)
       ∧ (∀ (d : SelectEveryData) (n : Int),
         ∀ p ∈ selectEveryFetched d
             (selectEveryGetframe getFrameFilter scaleDuration d n none .arInitial).2,
           p ∈ (selectEveryGetframe getFrameFilter scaleDuration d n none
             .arInitial).1.requests)
       ∧ (∀ (d : SpliceData) (n : Int),
         ∀ p ∈ spliceFetched d (spliceGetframe getFrameFilter d n none .arInitial).2,
           p ∈ (spliceGetframe getFrameFilter d n none .arInitial).1.requests)
       ∧ (∀ (d : AudioSplice2Data) (n : Int), ∀ p ∈ audioSplice2PassthroughFetched d n,
         p ∈ (audioSplice2PassthroughGetframe getAudioFrame d n .arInitial).requests)
       ∧ (∀ (d : AudioSplice2Data) (n : Int), ∀ p ∈ audioSplice2Fetched d n,
         p ∈ (audioSplice2Getframe getAudioFrame junk d n .arInitial).requests)
       ∧ (∀ (d : DuplicateFramesData) (n : Int),
         ∀ p ∈ duplicateFramesFetched d
             (duplicateFramesGetFrame getFrameFilter d n none .arInitial).2,
           p ∈ (duplicateFramesGetFrame getFrameFilter d n none .arInitial).1.requests)
       ∧ (∀ (d : DeleteFramesData) (n : Int),
         ∀ p ∈ deleteFramesFetched d
             (deleteFramesGetFrame getFrameFilter d n none .arInitial).2,
           p ∈ (deleteFramesGetFrame getFrameFilter d n none .arInitial).1.requests)
       ∧ (∀ (d : FreezeFramesData) (n : Int),
         ∀ p ∈ freezeFramesFetched d
             (freezeFramesGetFrame getFrameFilter d n none .arInitial).2,
           p ∈ (freezeFramesGetFrame getFrameFilter d n none .arInitial).1.requests))
    ∧ ((∀ (d : TrimData) (n : Int),
          (∀ p ∈ trimFetched d n, getFrameFilter p.1 p.2 = otherFrameFilter p.1 p.2) →
          trimGetframe getFrameFilter d n .arAllFramesReady
            = trimGetframe otherFrameFilter d n .arAllFramesReady)
        ∧ (∀ (d : AudioTrimData) (n : Int),
          (∀ p ∈ audioTrimFetched d n, getAudioFrame p.1 p.2 = otherAudioFrame p.1 p.2) →
          audioTrimGetframe getAudioFrame junk d n .arAllFramesReady
            = audioTrimGetframe otherAudioFrame junk d n .arAllFramesReady)
        ∧ (∀ (d : InterleaveData) (n : Int),
          (∀ p ∈ interleaveFetched d n, getFrameFilter p.1 p.2 = otherFrameFilter p.1 p.2) →
          interleaveGetframe getFrameFilter scaleDuration d n .arAllFramesReady
            = interleaveGetframe otherFrameFilter scaleDuration d n .arAllFramesReady)
        ∧ (∀ (d : SingleClipData) (n : Int),
          (∀ p ∈ reverseFetched d n, getFrameFilter p.1 p.2 = otherFrameFilter p.1 p.2) →
          reverseGetframe getFrameFilter d n .arAllFramesReady
            = reverseGetframe otherFrameFilter d n .arAllFramesReady)
        ∧ (∀ (d : LoopData) (n : Int),
          (∀ p ∈ loopFetched d n, getFrameFilter p.1 p.2 = otherFrameFilter p.1 p.2) →
          loopGetframe getFrameFilter d n .arAllFramesReady
            = loopGetframe otherFrameFilter d n .arAllFramesReady)
        ∧ (∀ (d : SelectEveryData) (n : Int) (fd : Option Int),
          (∀ p ∈ selectEveryFetched d fd,
            getFrameFilter p.1 p.2 = otherFrameFilter p.1 p.2) →
          selectEveryGetframe getFrameFilter scaleDuration d n fd .arAllFramesReady
            = selectEveryGetframe otherFrameFilter scaleDuration d n fd .arAllFramesReady)
        ∧ (∀ (d : SpliceData) (n : Int) (fd : Option SpliceCtx),
          (∀ p ∈ spliceFetched d fd, getFrameFilter p.1 p.2 = otherFrameFilter p.1 p.2) →
          spliceGetframe getFrameFilter d n fd .arAllFramesReady
            = spliceGetframe otherFrameFilter d n fd .arAllFramesReady)
        ∧ (∀ (d : AudioSplice2Data) (n : Int),
          (∀ p ∈ audioSplice2PassthroughFetched d n,
            getAudioFrame p.1 p.2 = otherAudioFrame p.1 p.2) →
          audioSplice2PassthroughGetframe getAudioFrame d n .arAllFramesReady
            = audioSplice2PassthroughGetframe otherAudioFrame d n .arAllFramesReady)
        ∧ (∀ (d : AudioSplice2Data) (n : Int),
          (∀ p ∈ audioSplice2Fetched d n,
            getAudioFrame p.1 p.2 = otherAudioFrame p.1 p.2) →
          audioSplice2Getframe getAudioFrame junk d n .arAllFramesReady
            = audioSplice2Getframe otherAudioFrame junk d n .arAllFramesReady)
        ∧ (∀ (d : DuplicateFramesData) (n : Int) (fd : Option Int),
          (∀ p ∈ duplicateFramesFetched d fd,
            getFrameFilter p.1 p.2 = otherFrameFilter p.1 p.2) →
          duplicateFramesGetFrame getFrameFilter d n fd .arAllFramesReady
            = duplicateFramesGetFrame otherFrameFilter d n fd .arAllFramesReady)
        ∧ (∀ (d : DeleteFramesData) (n : Int) (fd : Option Int),
          (∀ p ∈ deleteFramesFetched d fd,
            getFrameFilter p.1 p.2 = otherFrameFilter p.1 p.2) →
          deleteFramesGetFrame getFrameFilter d n fd .arAllFramesReady
            = deleteFramesGetFrame otherFrameFilter d n fd .arAllFramesReady)
        ∧ (∀ (d : FreezeFramesData) (n : Int) (fd : Option Int),
          (∀ p ∈ freezeFramesFetched d fd,
            getFrameFilter p.1 p.2 = otherFrameFilter p.1 p.2) →
          freezeFramesGetFrame getFrameFilter d n fd .arAllFramesReady
            = freezeFramesGetFrame otherFrameFilter d n fd .arAllFramesReady)) :=
  ⟨phase_one_requests_fetched getFrameFilter getAudioFrame junk scaleDuration,
    phase_two_reads_fetched getFrameFilter otherFrameFilter getAudioFrame otherAudioFrame junk
      scaleDuration⟩

/-! ## Requests past the end of a clip -/

/-- C31 (the code at the failing input). SelectEvery with `cycle = 4` and the offsets `[3, 0]`
on a 5-frame clip is built with 3 frames (two from the full cycle, one for the offset `0` below
`5 mod 4`), and output index 2 requests upstream frame `1 * 4 + 3 = 7`, past the last frame. -/
theorem selectEvery_requests_past_end :
    selectEveryCreate (fun a b _ _ => (a, b)) 4 [3, 0] (some false) 0 ⟨1, 25, 1, 4, 4, 5⟩
        = .filter ⟨0, ⟨1, 25, 1, 4, 4, 3⟩, 4, [3, 0], 2, false⟩
      ∧ (selectEveryGetframe (fun _ i => i) (fun _ _ f => f)
            ⟨0, ⟨1, 25, 1, 4, 4, 3⟩, 4, [3, 0], 2, false⟩ 2 none .arInitial).1
          = .requested [(0, 7)]
      ∧ (2 : Int) < (⟨1, 25, 1, 4, 4, 3⟩ : VSVideoInfo).numFrames
      ∧ ¬ ((7 : Int) < (⟨1, 25, 1, 4, 4, 5⟩ : VSVideoInfo).numFrames) := by
  decide

/-- C32 (the code at the failing input). AudioSplice2 of two clips of 3000 samples each, in
frames of 3072 samples (one frame per clip), has `ceil (6000 / 3072) = 2` frames; for the last
one, `n = 1`, `audioSplice2Getframe` requests the frames 0 and 1 of clip 2, which has the
single frame 0. -/
theorem audioSplice2_requests_past_end :
    audioSplice2Create (fun _ _ => true) 0 1 ⟨⟨2, 3072, 2⟩, 48000, 3000, 1⟩
        ⟨⟨2, 3072, 2⟩, 48000, 3000, 1⟩
        = .filter (⟨⟨⟨2, 3072, 2⟩, 48000, 6000, 2⟩, 0, 1, 1, 3000, 3000⟩, .stitching)
      ∧ audioSplice2Getframe (fun _ _ => (⟨0, []⟩ : AudioFrame Int)) 0
            ⟨⟨⟨2, 3072, 2⟩, 48000, 6000, 2⟩, 0, 1, 1, 3000, 3000⟩ 1 .arInitial
          = .requested [(1, 0), (1, 1)]
      ∧ ¬ ((1 : Int) < (⟨⟨2, 3072, 2⟩, 48000, 3000, 1⟩ : VSAudioInfo).numFrames) := by
  decide

/-- C34 (the code at the failing input). On a clip of unknown length (`numFrames = 0`)
`loopCreate` builds a Loop operator with `numFramesIn = 0` for `times = 0`, for an absent
`times` and for `times = 2`, and `loopGetframe` then takes the remainder by zero. -/
theorem loop_zero_modulus :
    loopCreate (some 0) 0 ⟨1, 25, 1, 4, 4, 0⟩
        = .filter ⟨0, ⟨1, 25, 1, 4, 4, 2147483647⟩, 0⟩
      ∧ loopCreate none 0 ⟨1, 25, 1, 4, 4, 0⟩
        = .filter ⟨0, ⟨1, 25, 1, 4, 4, 2147483647⟩, 0⟩
      ∧ loopCreate (some 2) 0 ⟨1, 25, 1, 4, 4, 0⟩ = .filter ⟨0, ⟨1, 25, 1, 4, 4, 0⟩, 0⟩
      ∧ loopGetframe (fun _ i => i) ⟨0, ⟨1, 25, 1, 4, 4, 2147483647⟩, 0⟩ 5 .arInitial
        = .fault
      ∧ loopGetframe (fun _ i => i) ⟨0, ⟨1, 25, 1, 4, 4, 2147483647⟩, 0⟩ 5 .arAllFramesReady
        = .fault := by
  decide

/-! ## Copy lengths of `audioTrimGetframe` -/

/-- The stitching branch of `audioTrimGetframe` in terms of `audioTrimLength` and
`audioTrimNumSrc1Samples`: the first copy moves `numSrc1Samples` samples whatever `length` is,
the second one runs only when `length > numSrc1Samples`. -/
theorem audioTrimGetframe_stitching {α : Type} (getFrameFilter : Nat → Int → AudioFrame α)
    (junk : α) (d : AudioTrimData) (n : Int) (h : audioTrimPassesThrough d n = false) :
    audioTrimGetframe getFrameFilter junk d n .arAllFramesReady
      = (let spf := d.ai.format.samplesPerFrame
         let startFrame := wrapInt32 ((n * spf + d.first).tdiv spf)
         let dst1 := forEachChannel d.ai.format.numChannels
           (newAudioFrame d.ai.format (audioTrimLength d n) junk) (fun channel w =>
             ((getFrameFilter d.node startFrame).data[channel]?).bind (fun r =>
               memcpy w 0 r (spf - audioTrimNumSrc1Samples d n)
                 (audioTrimNumSrc1Samples d n)))
         if audioTrimLength d n > audioTrimNumSrc1Samples d n then
           .ofOption (dst1.bind (fun dst' =>
             forEachChannel d.ai.format.numChannels dst' (fun channel w =>
               ((getFrameFilter d.node (wrapInt32 (startFrame + 1))).data[channel]?).bind
                 (fun r => memcpy w (audioTrimNumSrc1Samples d n) r 0
                   (audioTrimLength d n - audioTrimNumSrc1Samples d n)))))
         else .ofOption dst1) := by
  have h' : ¬ ((n * d.ai.format.samplesPerFrame + d.first).tmod d.ai.format.samplesPerFrame = 0
      ∧ n ≠ d.ai.numFrames - 1) := by
    simpa [audioTrimPassesThrough] using h
  simp only [audioTrimGetframe, if_neg h', audioTrimLength, audioTrimNumSrc1Samples]

/-- C33 (the code at the failing input). AudioTrim with `first = 1`, `length = 1` on a clip of 6
samples in frames of 4 is accepted; its single output frame `n = 0` takes the stitching branch
with `numSrc1Samples = 3` and `length = 1`, and the first copy writes the three samples 11, 12,
13 (111, 112, 113 in channel 1) into the output frame of length 1. -/
theorem audioTrim_copies_past_length :
    audioTrimCreate ⟨some 1, none, some 1⟩ 0 ⟨exampleFormat, 48000, 6, 2⟩
        = .filter ⟨0, ⟨exampleFormat, 48000, 1, 2⟩, 1⟩
      ∧ audioTrimPassesThrough ⟨0, ⟨exampleFormat, 48000, 1, 2⟩, 1⟩ 0 = false
      ∧ audioTrimNumSrc1Samples ⟨0, ⟨exampleFormat, 48000, 1, 2⟩, 1⟩ 0 = 3
      ∧ audioTrimLength ⟨0, ⟨exampleFormat, 48000, 1, 2⟩, 1⟩ 0 = 1
      ∧ ¬ (audioTrimNumSrc1Samples ⟨0, ⟨exampleFormat, 48000, 1, 2⟩, 1⟩ 0
          ≤ audioTrimLength ⟨0, ⟨exampleFormat, 48000, 1, 2⟩, 1⟩ 0)
      ∧ audioTrimGetframe exampleHost 0 ⟨0, ⟨exampleFormat, 48000, 1, 2⟩, 1⟩ 0
          .arAllFramesReady
        = .frame ⟨1, [[11, 12, 13, 0], [111, 112, 113, 0]]⟩ := by
  decide

/-! ## What does hold of the four requests -/

/-- In an ascending list the entries below a bound come first: every position before their
number holds one of them. -/
theorem getD_lt_of_lt_countP (r : Int) :
    ∀ (l : List Int) (b : Nat), l.Sorted (fun x y => x ≤ y) →
      b < l.countP (fun o => decide (o < r)) → l.getD b 0 < r
  | [], b, _, hb => by simp at hb
  | x :: rest, b, hs, hb => by
      obtain ⟨hx, hrest⟩ := List.sorted_cons.1 hs
      by_cases hxr : x < r
      · cases b with
        | zero => simpa using hxr
        | succ b =>
            rw [List.countP_cons] at hb
            simp only [hxr, decide_True, if_true] at hb
            simp only [List.getD_cons_succ]
            exact getD_lt_of_lt_countP r rest b hrest (by omega)
      · have hz : (x :: rest).countP (fun o => decide (o < r)) = 0 := by
          rw [List.countP_eq_zero]
          intro y hy
          rcases List.mem_cons.1 hy with rfl | hy
          · simpa using hxr
          · have := hx y hy
            simp only [decide_eq_true_eq, not_lt]
            omega
        rw [hz] at hb
        exact absurd hb (by omega)

/-- SelectEvery with ascending offsets stays inside its input: for `cycle ≥ 2`, offsets in
`[0, cycle)` in ascending order, an upstream clip of `1 ≤ L ≤ INT_MAX` frames and a frame
count that fits a C `int`, every output index `n` of the clip built requests the upstream
index `(n div m) * cycle + offsets[n mod m]`, which is below `L`. -/
theorem selectEvery_sorted_in_range {F : Type} (getFrameFilter : Nat → Int → F)
    (scaleDuration : Int → Int → F → F)
    (muldivRational : Int → Int → Int → Int → Int × Int) (cycle : Int) (offsets : List Int)
    (modifyDuration : Option Bool) (node : Nat) (vi : VSVideoInfo) (d : SelectEveryData)
    (hcycle : 2 ≤ cycle) (hoff : ∀ o ∈ offsets, 0 ≤ o ∧ o < cycle)
    (hsorted : offsets.Sorted (fun x y => x ≤ y)) (hL1 : 1 ≤ vi.numFrames)
    (hLmax : vi.numFrames ≤ INT_MAX)
    (hfit : vi.numFrames / cycle * offsets.length + offsets.length ≤ INT_MAX)
    (hcreate : selectEveryCreate muldivRational cycle offsets modifyDuration node vi
      = .filter d) :
    ∀ n : Int, 0 ≤ n → n < d.vi.numFrames →
      (selectEveryGetframe getFrameFilter scaleDuration d n none .arInitial).1
          = .requested [(node, n / (offsets.length : Int) * cycle
              + offsets.getD (n % (offsets.length : Int)).toNat 0)]
        ∧ 0 ≤ n / (offsets.length : Int) * cycle
              + offsets.getD (n % (offsets.length : Int)).toNat 0
        ∧ n / (offsets.length : Int) * cycle
              + offsets.getD (n % (offsets.length : Int)).toNat 0 < vi.numFrames := by
  obtain ⟨hzero, hnz⟩ := selectEveryCreate_of_fits muldivRational cycle offsets modifyDuration
    node vi hcycle hoff (by omega) hfit
  by_cases hz : vi.numFrames / cycle * offsets.length
      + (offsets.countP (fun o => decide (o < vi.numFrames % cycle)) : Nat) = 0
  · rw [hzero hz] at hcreate
    exact absurd hcreate (by simp)
  obtain ⟨d', hd', hN, hnode, hdc, hdo, hdn, _⟩ := hnz hz
  rw [hd'] at hcreate
  injection hcreate with hcreate
  subst hcreate
  intro n hn0 hn1
  rw [hN] at hn1
  have hq0 : 0 ≤ vi.numFrames / cycle := Int.ediv_nonneg (by omega) (by omega)
  have hcle : offsets.countP (fun o => decide (o < vi.numFrames % cycle)) ≤ offsets.length :=
    List.countP_le_length _
  have hm : 1 ≤ offsets.length := by
    by_contra h
    have h0 : offsets.length = 0 := by omega
    rw [h0] at hz hcle
    have : offsets.countP (fun o => decide (o < vi.numFrames % cycle)) = 0 := by omega
    rw [this] at hz
    simp at hz
  have hm0 : (0 : Int) < offsets.length := by omega
  have hb0 := Int.emod_nonneg n (show (offsets.length : Int) ≠ 0 by omega)
  have hb1 := Int.emod_lt_of_pos n hm0
  have ha0 : 0 ≤ n / (offsets.length : Int) := Int.ediv_nonneg hn0 (by omega)
  have hdecomp := Int.emod_add_ediv n (offsets.length : Int)
  have hLdecomp := Int.emod_add_ediv vi.numFrames cycle
  have hr0 := Int.emod_nonneg vi.numFrames (show cycle ≠ 0 by omega)
  have hbmem : offsets.getD (n % (offsets.length : Int)).toNat 0 ∈ offsets := by
    rw [List.getD_eq_getElem _ _ (by omega)]
    exact List.getElem_mem _
  have hob := hoff _ hbmem
  have hale : n / (offsets.length : Int) ≤ vi.numFrames / cycle := by
    by_contra hgt
    have h1 : (offsets.length : Int) * (vi.numFrames / cycle + 1)
        ≤ (offsets.length : Int) * (n / (offsets.length : Int)) :=
      Int.mul_le_mul_of_nonneg_left (by omega) (by omega)
    have e1 : (offsets.length : Int) * (vi.numFrames / cycle + 1)
        = vi.numFrames / cycle * (offsets.length : Int) + (offsets.length : Int) := by ring
    omega
  have hidx : n / (offsets.length : Int) * cycle
      + offsets.getD (n % (offsets.length : Int)).toNat 0 < vi.numFrames := by
    by_cases hlt : n / (offsets.length : Int) < vi.numFrames / cycle
    · have h1 : n / (offsets.length : Int) * cycle ≤ (vi.numFrames / cycle - 1) * cycle :=
        Int.mul_le_mul_of_nonneg_right (by omega) (by omega)
      have e1 : (vi.numFrames / cycle - 1) * cycle = cycle * (vi.numFrames / cycle) - cycle := by
        ring
      omega
    · have haq : n / (offsets.length : Int) = vi.numFrames / cycle := by omega
      have e1 : (offsets.length : Int) * (vi.numFrames / cycle)
          = vi.numFrames / cycle * (offsets.length : Int) := by ring
      rw [haq] at hdecomp
      have hbc : (n % (offsets.length : Int)).toNat
          < offsets.countP (fun o => decide (o < vi.numFrames % cycle)) := by omega
      have := getD_lt_of_lt_countP (vi.numFrames % cycle) offsets _ hsorted hbc
      have e2 : vi.numFrames / cycle * cycle = cycle * (vi.numFrames / cycle) := by ring
      rw [haq]
      omega
  have hpos : 0 ≤ n / (offsets.length : Int) * cycle := Int.mul_nonneg ha0 (by omega)
  refine ⟨?_, by omega, hidx⟩
  have hspec := (selectEveryGetframe_spec getFrameFilter scaleDuration d' n (by rw [hdn, hdo])
    (by rw [hdo]; exact hm) hn0 (by rw [hdc]; omega)
    (by rw [hdn, hdc, hdo]; omega) (by rw [hdo, hdc]; exact hoff)).1
  rw [hspec, hnode, hdn, hdc, hdo]

/-- What `audioSplice2Getframe` requests for an output index `n` of the spliced clip, for
clips of `S1`, `S2 ≥ 1` samples in `F1 = ceil (S1 / spf)`, `F2 = ceil (S2 / spf)` frames: the
frames asked of clip 1 and the first frame asked of clip 2 exist; the second frame asked of
clip 2 after the seam has an index `≤ F2`, which need not exist. -/
theorem audioSplice2_requests_range {α : Type} (getFrameFilter : Nat → Int → AudioFrame α)
    (junk : α) (d : AudioSplice2Data) (spf S1 S2 n : Int) (hspf : 1 ≤ spf) (hS1 : 1 ≤ S1)
    (hS2 : 1 ≤ S2) (hF1 : d.numFrames1 = (S1 + spf - 1) / spf) (hn0 : 0 ≤ n)
    (hn1 : n < (S1 + S2 + spf - 1) / spf) (hmax : (S1 + S2 + spf - 1) / spf ≤ INT_MAX) :
    (n < d.numFrames1 - 1 →
        audioSplice2Getframe getFrameFilter junk d n .arInitial = .requested [(d.node1, n)]
          ∧ 0 ≤ n ∧ n < d.numFrames1)
      ∧ (n = d.numFrames1 - 1 →
        audioSplice2Getframe getFrameFilter junk d n .arInitial
            = .requested [(d.node1, n), (d.node2, 0)]
          ∧ 0 ≤ n ∧ n < d.numFrames1 ∧ 0 < (S2 + spf - 1) / spf)
      ∧ (d.numFrames1 ≤ n →
        audioSplice2Getframe getFrameFilter junk d n .arInitial
            = .requested [(d.node2, n - d.numFrames1), (d.node2, n - d.numFrames1 + 1)]
          ∧ 0 ≤ n - d.numFrames1 ∧ n - d.numFrames1 < (S2 + spf - 1) / spf
          ∧ n - d.numFrames1 + 1 ≤ (S2 + spf - 1) / spf) := by
  have hmax' := hmax
  unfold INT_MAX at hmax'
  have hnS := (lt_ceil_iff spf (S1 + S2) n (by omega)).1 hn1
  have hF1S : ¬ (d.numFrames1 * spf < S1) := by
    rw [hF1]
    exact fun h => lt_irrefl _ ((lt_ceil_iff spf S1 _ (by omega)).2 h)
  have hF1pos : 0 < d.numFrames1 := by
    rw [hF1]
    exact (lt_ceil_iff spf S1 0 (by omega)).2 (by omega)
  have hF2pos : 0 < (S2 + spf - 1) / spf := (lt_ceil_iff spf S2 0 (by omega)).2 (by omega)
  refine ⟨?_, ?_, ?_⟩
  · intro h
    simp only [audioSplice2Getframe, if_pos h]
    exact ⟨trivial, hn0, by omega⟩
  · intro h
    have h' : ¬ n < d.numFrames1 - 1 := by omega
    simp only [audioSplice2Getframe, if_neg h', if_pos h]
    exact ⟨trivial, hn0, by omega, hF2pos⟩
  · intro h
    have h1 : ¬ n < d.numFrames1 - 1 := by omega
    have h2 : ¬ n = d.numFrames1 - 1 := by omega
    have hw1 : wrapInt32 (n - d.numFrames1) = n - d.numFrames1 := by unfold wrapInt32; omega
    have hw2 : wrapInt32 (n - d.numFrames1 + 1) = n - d.numFrames1 + 1 := by
      unfold wrapInt32; omega
    have hlt : n - d.numFrames1 < (S2 + spf - 1) / spf := by
      rw [lt_ceil_iff spf S2 _ (by omega)]
      have e : (n - d.numFrames1) * spf = n * spf - d.numFrames1 * spf := by ring
      omega
    simp only [audioSplice2Getframe, if_neg h1, if_neg h2, hw1, hw2]
    exact ⟨trivial, by omega, hlt, by omega⟩

/-- Away from a short final frame the first copy of the stitching branch of
`audioTrimGetframe` fits the output frame: when at least `spf` samples remain from `n * spf`
on, `length = spf` and `1 ≤ numSrc1Samples ≤ length`. -/
theorem audioTrim_numSrc1Samples_le (d : AudioTrimData) (n : Int)
    (hspf : 1 ≤ d.ai.format.samplesPerFrame) (hspfmax : d.ai.format.samplesPerFrame ≤ INT_MAX)
    (hfirst : 0 ≤ d.first) (hn : 0 ≤ n)
    (hfull : d.ai.format.samplesPerFrame
      ≤ d.ai.numSamples - n * d.ai.format.samplesPerFrame) :
    audioTrimLength d n = d.ai.format.samplesPerFrame
      ∧ 1 ≤ audioTrimNumSrc1Samples d n
      ∧ audioTrimNumSrc1Samples d n ≤ audioTrimLength d n := by
  have hmax := hspfmax
  unfold INT_MAX at hmax
  have hnn : 0 ≤ n * d.ai.format.samplesPerFrame := Int.mul_nonneg hn (by omega)
  have hm0 := Int.emod_nonneg (n * d.ai.format.samplesPerFrame + d.first)
    (show d.ai.format.samplesPerFrame ≠ 0 by omega)
  have hm1 := Int.emod_lt_of_pos (n * d.ai.format.samplesPerFrame + d.first)
    (show 0 < d.ai.format.samplesPerFrame by omega)
  have hlen : audioTrimLength d n = d.ai.format.samplesPerFrame := by
    unfold audioTrimLength wrapInt32
    omega
  have hsrc : audioTrimNumSrc1Samples d n = d.ai.format.samplesPerFrame
      - (n * d.ai.format.samplesPerFrame + d.first) % d.ai.format.samplesPerFrame := by
    unfold audioTrimNumSrc1Samples
    rw [Int.tmod_eq_emod (by omega) (by omega)]
    unfold wrapInt32
    omega
  rw [hlen, hsrc]
  omega

/-- Every Loop operator that `loopCreate` builds keeps the upstream frame count as its
modulus, so the modulus is at least 1 exactly when the upstream length is known. -/
theorem loopCreate_numFramesIn (times : Option Int) (node : Nat) (vi : VSVideoInfo)
    (d : LoopData) (h : loopCreate times node vi = .filter d) :
    d.numFramesIn = vi.numFrames ∧ d.node = node := by
  unfold loopCreate at h
  simp only [] at h
  repeat' split at h
  all_goals cases h
  all_goals exact ⟨rfl, rfl⟩

end ReorderFilters
